import Mathlib

/-!
# HelloX USB host stack: enumeration, descriptor parsing, device registry

A shallow embedding of `bin/import/usb.c` (the U-Boot derived USB core of
HelloX) and theorems about it.

Conventions of the embedding

* A C byte is a `Fin 256`; a region of memory reached through a pointer is a
  total map `Nat → Byte` from offsets to bytes (`Buf`).  What lies past the
  end of an allocation is whatever the map holds there: the embedding does
  not stop a read or a write that runs past an array, it performs it at the
  offset or index the C expression computes.
* A C array is a map from indices to elements.  A store at an index past
  the declared capacity is kept at that index; it is not aliased onto the
  neighbouring struct members.
* Descriptors are kept as the raw bytes `memcpy` puts there; the field
  accessors read them the way a little-endian host does (HelloX runs on
  x86, so `le16_to_cpu` and `cpu_to_le16` are the identity).
* A pointer that may be `NULL` is an `Option` (or a `Nat` handle with `0`
  for `NULL` when the pointee is never looked at).
* Functions whose C body can dereference `NULL` or loop return an `Option`;
  `none` means "no result" (undefined behaviour or fuel exhausted).
-/

namespace HelloX

/-! ## Bytes and memory regions

Arrays and buffers are maps on all of `Nat`.  An element index at or past the
capacity of the C array, or a byte offset at or past the size of an allocation,
stands for the C access past the end of that object; which neighbouring object
such an access reaches in C is not modelled. -/

abbrev Byte := Fin 256

abbrev Buf := Nat → Byte

/-- The region obtained from `memset(p, 0, n)`, and zero-initialised storage. -/
def zero_buf : Buf := fun _ => 0

/-- The C `memcpy(dst, src, n)`: the first `n` bytes of `dst` become those of `src`. -/
def memcpy (dst src : Buf) (n : Nat) : Buf :=
  fun i => if i < n then src i else dst i

/-- The pointer `&b[off]` seen as a region of its own. -/
def at_offset (b : Buf) (off : Nat) : Buf :=
  fun i => b (off + i)

/-- The region `b` in which the `n` bytes from `off` on were overwritten by `src`
(`memcpy(&b[off], src, n)`). -/
def memcpy_at (b : Buf) (off : Nat) (src : Buf) (n : Nat) : Buf :=
  fun i => if off ≤ i ∧ i < off + n then src (i - off) else b i

/-- Array store `a[i] = v`. -/
def store {ι α : Type} [DecidableEq ι] (a : ι → α) (i : ι) (v : α) : ι → α :=
  fun j => if j = i then v else a j

/-- A literal byte string as a memory region (bytes past its end read as 0). -/
def bytes (l : List Byte) : Buf :=
  fun i => l.getD i 0

/-! ## Constants -/

/-- Modelled from the spec: `errno.h` is not among the sources; the error
statuses named in spec §7 carry their customary values. -/
def EINVAL : Int := 22

/-- Modelled from the spec: `errno.h` is not among the sources (I/O failure). -/
def EIO : Int := 5

/-- Modelled from the spec: `errno.h` is not among the sources (out of memory). -/
def ENOMEM : Int := 12

/-- Modelled from the spec: `errno.h` is not among the sources (out of space). -/
def ENOSPC : Int := 28

/-- Modelled from the spec: `ch9.h` / `usbdescriptors.h` are not among the
sources; spec §6 fixes the wire-level constants to the USB 2.0 values. -/
def USB_DT_DEVICE : Nat := 0x01

/-- USB 2.0 descriptor type CONFIGURATION (see `USB_DT_DEVICE`). -/
def USB_DT_CONFIG : Nat := 0x02

/-- USB 2.0 descriptor type STRING (see `USB_DT_DEVICE`). -/
def USB_DT_STRING : Nat := 0x03

/-- USB 2.0 descriptor type INTERFACE (see `USB_DT_DEVICE`). -/
def USB_DT_INTERFACE : Nat := 0x04

/-- USB 2.0 descriptor type ENDPOINT (see `USB_DT_DEVICE`). -/
def USB_DT_ENDPOINT : Nat := 0x05

/-- Descriptor type INTERFACE ASSOCIATION (see `USB_DT_DEVICE`). -/
def USB_DT_INTERFACE_ASSOCIATION : Nat := 0x0b

/-- Class specific descriptor type CS_INTERFACE (see `USB_DT_DEVICE`). -/
def USB_DT_CS_INTERFACE : Nat := 0x24

/-- Class specific descriptor type CS_ENDPOINT (see `USB_DT_DEVICE`). -/
def USB_DT_CS_ENDPOINT : Nat := 0x25

/-- Descriptor type SuperSpeed endpoint companion (see `USB_DT_DEVICE`). -/
def USB_DT_SS_ENDPOINT_COMP : Nat := 0x30

def USB_DT_DEVICE_SIZE : Nat := 18
def USB_DT_CONFIG_SIZE : Nat := 9
def USB_DT_INTERFACE_SIZE : Nat := 9
def USB_DT_ENDPOINT_SIZE : Nat := 7
def USB_DT_ENDPOINT_AUDIO_SIZE : Nat := 9
def USB_DT_SS_EP_COMP_SIZE : Nat := 6

def USB_ENDPOINT_NUMBER_MASK : Nat := 0x0f
def USB_ENDPOINT_XFERTYPE_MASK : Nat := 0x03
def USB_ENDPOINT_XFER_CONTROL : Nat := 0

def USB_DIR_IN : Nat := 0x80
def USB_REQ_GET_DESCRIPTOR : Nat := 0x06
def USB_REQ_SET_CONFIGURATION : Nat := 0x09
def USB_REQ_SET_INTERFACE : Nat := 0x0b
def USB_RECIP_INTERFACE : Nat := 0x01

/-- The C library predicate `isprint` on a byte (C locale). -/
def isprint (c : Byte) : Bool := 0x20 ≤ c.val && c.val ≤ 0x7e

/-- The size of the staging buffers, `#define USB_BUFSIZ 512`. -/
def USB_BUFSIZ : Nat := 512

/-- The compile-time parameters that `usb.h` and `usb_defs.h` (not among the
sources) give to `usb.c`.  Every definition below takes them as a parameter. -/
structure usb_defs where
  USB_MAX_DEVICE : Nat
  USB_MAXINTERFACES : Nat
  USB_MAXENDPOINTS : Nat
  USB_MAXINTERFACEASSOC : Nat
  USB_MAX_CSINTERFACE_LEN : Nat
  USB_MAXCHILDREN : Nat
  USB_CNTL_TIMEOUT : Nat
  USB_ST_NOT_PROC : Nat
  USB_SPEED_LOW : Nat
  PACKET_SIZE_8 : Nat
  PACKET_SIZE_16 : Nat
  PACKET_SIZE_32 : Nat
  PACKET_SIZE_64 : Nat
  sizeof_mf : Nat
  sizeof_prod : Nat
  sizeof_serial : Nat

/-! ## Data model -/

/-- Field `bLength` of `struct usb_descriptor_header`. -/
def bLength (d : Buf) : Nat := (d 0).val

/-- Field `bDescriptorType` of `struct usb_descriptor_header`. -/
def bDescriptorType (d : Buf) : Nat := (d 1).val

namespace usb_config_descriptor

def wTotalLength (d : Buf) : Nat := (d 2).val + 256 * (d 3).val
def bNumInterfaces (d : Buf) : Nat := (d 4).val
def bConfigurationValue (d : Buf) : Nat := (d 5).val

end usb_config_descriptor

namespace usb_interface_descriptor

def bInterfaceNumber (d : Buf) : Nat := (d 2).val
def bAlternateSetting (d : Buf) : Nat := (d 3).val
def bNumEndpoints (d : Buf) : Nat := (d 4).val

end usb_interface_descriptor

namespace usb_endpoint_descriptor

def bEndpointAddress (d : Buf) : Nat := (d 2).val
def bmAttributes (d : Buf) : Nat := (d 3).val
def wMaxPacketSize (d : Buf) : Nat := (d 4).val + 256 * (d 5).val

end usb_endpoint_descriptor

namespace usb_device_descriptor

def bMaxPacketSize0 (d : Buf) : Nat := (d 7).val
def iManufacturer (d : Buf) : Nat := (d 14).val
def iProduct (d : Buf) : Nat := (d 15).val
def iSerialNumber (d : Buf) : Nat := (d 16).val

end usb_device_descriptor

/-- The C `struct usb_interface`: one interface slot of the configuration tree. -/
structure usb_interface where
  desc : Buf
  no_of_ep : Nat
  num_altsetting : Nat
  act_altsetting : Nat
  ep_desc : Nat → Buf
  ss_ep_comp_desc : Nat → Buf

/-- The C `struct usb_config`: the configuration tree of a device. -/
structure usb_config where
  desc : Buf
  no_of_if : Nat
  no_of_if_assoc : Nat
  if_desc : Nat → usb_interface
  int_assoc : Nat → Buf
  pClassSpecificInterfaces : Option Buf

/-- The C `struct usb_device`: one device record. -/
structure usb_device where
  devnum : Int
  speed : Nat
  mf : Buf
  prod : Buf
  serial : Buf
  maxpacketsize : Nat
  toggle : Nat → Nat
  halted : Nat
  epmaxpacketin : Nat → Int
  epmaxpacketout : Nat → Int
  configno : Int
  descriptor : Buf
  config : usb_config
  have_langid : Int
  string_langid : Nat
  status : Nat
  act_len : Int
  maxchild : Int
  portnr : Int
  parent : Nat
  children : Nat → Nat
  controller : Nat

/-! ## The configuration descriptor parser (`usb_parse_config`) -/

/-- The local variables of `usb_parse_config` together with the device record
it fills. `pri_if` is the slot index the C pointer points to (`none` for `NULL`). -/
structure parse_state where
  dev : usb_device
  index : Nat
  ifno : Int
  epno : Int
  curr_if_num : Int
  cs_int_len : Nat
  int_assoc_index : Nat
  pri_if : Option Nat

/-- How the body of the `while` loop is left. -/
inductive flow where
  | next : parse_state → flow
  | ret : Int → parse_state → flow
  | undef : flow

/-- The device record with `v` stored in interface slot `i` (`dev->config.if_desc[i] = v`). -/
def set_if_desc (dev : usb_device) (i : Nat) (v : usb_interface) : usb_device :=
  { dev with config := { dev.config with if_desc := store dev.config.if_desc i v } }

/-- The arm `case USB_DT_INTERFACE` of the switch. -/
def parse_interface (K : usb_defs) (buffer : Buf) (s : parse_state) : flow :=
  let head := at_offset buffer s.index
  if bLength head ≠ USB_DT_INTERFACE_SIZE then flow.next s
  else if s.index + USB_DT_INTERFACE_SIZE > usb_config_descriptor.wTotalLength s.dev.config.desc then
    flow.next s
  else if (usb_interface_descriptor.bInterfaceNumber head : Int) ≠ s.curr_if_num then
    let ifno := s.dev.config.no_of_if
    if ifno ≥ K.USB_MAXINTERFACES then flow.ret (- EINVAL) { s with ifno := ifno }
    else
      let dev1 := { s.dev with config := { s.dev.config with no_of_if := s.dev.config.no_of_if + 1 } }
      let if_desc : usb_interface :=
        { dev1.config.if_desc ifno with
          desc := memcpy (dev1.config.if_desc ifno).desc head USB_DT_INTERFACE_SIZE,
          no_of_ep := 0,
          num_altsetting := 1 }
      flow.next { s with
        dev := set_if_desc dev1 ifno if_desc,
        ifno := ifno,
        curr_if_num := usb_interface_descriptor.bInterfaceNumber if_desc.desc,
        pri_if := some ifno }
  else
    let ifno := s.dev.config.no_of_if
    if ifno ≥ K.USB_MAXINTERFACES then flow.ret (- EINVAL) { s with ifno := ifno }
    else
      let dev1 := { s.dev with config := { s.dev.config with no_of_if := s.dev.config.no_of_if + 1 } }
      let if_desc : usb_interface :=
        { dev1.config.if_desc ifno with
          desc := memcpy (dev1.config.if_desc ifno).desc head USB_DT_INTERFACE_SIZE,
          no_of_ep := 0,
          num_altsetting := 0 }
      let dev2 := set_if_desc dev1 ifno if_desc
      match s.pri_if with
      | none => flow.undef
      | some p =>
        let pri := dev2.config.if_desc p
        flow.next { s with
          dev := set_if_desc dev2 p { pri with num_altsetting := pri.num_altsetting + 1 },
          ifno := ifno,
          curr_if_num := usb_interface_descriptor.bInterfaceNumber if_desc.desc }

/-- The arm `case USB_DT_INTERFACE_ASSOCIATION` of the switch. -/
def parse_interface_assoc (K : usb_defs) (buffer : Buf) (s : parse_state) : flow :=
  let head := at_offset buffer s.index
  if K.USB_MAXINTERFACEASSOC = s.int_assoc_index then flow.next s
  else
    let cfg := s.dev.config
    flow.next { s with
      dev := { s.dev with config := { cfg with
        int_assoc := store cfg.int_assoc s.int_assoc_index
          (memcpy (cfg.int_assoc s.int_assoc_index) head (bLength head)),
        no_of_if_assoc := cfg.no_of_if_assoc + 1 } },
      int_assoc_index := s.int_assoc_index + 1 }

/-- The arm `case USB_DT_CS_INTERFACE: case USB_DT_CS_ENDPOINT:` of the switch. -/
def parse_class_specific (K : usb_defs) (buffer : Buf) (s : parse_state) : flow :=
  let head := at_offset buffer s.index
  if (bLength head : Int) > (K.USB_MAX_CSINTERFACE_LEN : Int) - (s.cs_int_len : Int) then
    flow.ret (- EINVAL) s
  else
    match s.dev.config.pClassSpecificInterfaces with
    | none => flow.undef
    | some p =>
      flow.next { s with
        dev := { s.dev with config := { s.dev.config with
          pClassSpecificInterfaces := some (memcpy_at p s.cs_int_len head (bLength head)) } },
        cs_int_len := s.cs_int_len + bLength head }

/-- The arm `case USB_DT_ENDPOINT` of the switch.  The final
`put_unaligned(le16_to_cpu(...))` rewrites `wMaxPacketSize` with the value it
already has on a little-endian host. -/
def parse_endpoint (K : usb_defs) (buffer : Buf) (s : parse_state) : flow :=
  let head := at_offset buffer s.index
  if bLength head ≠ USB_DT_ENDPOINT_SIZE ∧ bLength head ≠ USB_DT_ENDPOINT_AUDIO_SIZE then
    flow.next s
  else if s.index + USB_DT_ENDPOINT_SIZE > usb_config_descriptor.wTotalLength s.dev.config.desc then
    flow.next s
  else if s.ifno < 0 then flow.next s
  else
    let ifno := s.ifno.toNat
    let if_desc := s.dev.config.if_desc ifno
    let epno := if_desc.no_of_ep
    if epno > K.USB_MAXENDPOINTS then flow.ret (- EINVAL) { s with epno := epno }
    else
      flow.next { s with
        dev := set_if_desc s.dev ifno { if_desc with
          no_of_ep := if_desc.no_of_ep + 1,
          ep_desc := store if_desc.ep_desc epno (memcpy (if_desc.ep_desc epno) head (bLength head)) },
        epno := epno }

/-- The arm `case USB_DT_SS_ENDPOINT_COMP` of the switch.  The store goes to
element `epno` of the slot's companion array whatever `epno` is: the arm has no
test against `USB_MAXENDPOINTS`, and an element from `USB_MAXENDPOINTS` on is
past the end of the C array. -/
def parse_ss_ep_comp (buffer : Buf) (s : parse_state) : flow :=
  let head := at_offset buffer s.index
  if bLength head ≠ USB_DT_SS_EP_COMP_SIZE then flow.next s
  else if s.index + USB_DT_SS_EP_COMP_SIZE > usb_config_descriptor.wTotalLength s.dev.config.desc then
    flow.next s
  else if s.ifno < 0 ∨ s.epno < 0 then flow.next s
  else
    let ifno := s.ifno.toNat
    let epno := s.epno.toNat
    let if_desc := s.dev.config.if_desc ifno
    flow.next { s with
      dev := set_if_desc s.dev ifno { if_desc with
        ss_ep_comp_desc := store if_desc.ss_ep_comp_desc epno
          (memcpy (if_desc.ss_ep_comp_desc epno) head USB_DT_SS_EP_COMP_SIZE) } }

/-- The `default` arm of the switch. -/
def parse_default (buffer : Buf) (s : parse_state) : flow :=
  let head := at_offset buffer s.index
  if bLength head = 0 then flow.ret (- EINVAL) s
  else flow.next s

/-- The `switch (head->bDescriptorType)` of the loop body. -/
def parse_record (K : usb_defs) (buffer : Buf) (s : parse_state) : flow :=
  let t := bDescriptorType (at_offset buffer s.index)
  if t = USB_DT_INTERFACE then parse_interface K buffer s
  else if t = USB_DT_INTERFACE_ASSOCIATION then parse_interface_assoc K buffer s
  else if t = USB_DT_CS_INTERFACE ∨ t = USB_DT_CS_ENDPOINT then parse_class_specific K buffer s
  else if t = USB_DT_ENDPOINT then parse_endpoint K buffer s
  else if t = USB_DT_SS_ENDPOINT_COMP then parse_ss_ep_comp buffer s
  else parse_default buffer s

/-- The loop condition `index + 1 < dev->config.desc.wTotalLength && head->bLength`. -/
def parse_guard (buffer : Buf) (s : parse_state) : Prop :=
  s.index + 1 < usb_config_descriptor.wTotalLength s.dev.config.desc ∧
    bLength (at_offset buffer s.index) ≠ 0

instance (buffer : Buf) (s : parse_state) : Decidable (parse_guard buffer s) :=
  inferInstanceAs (Decidable (_ ∧ _))

/-- The `while` loop of `usb_parse_config`, from the state `s` on; each unit of
fuel pays for one evaluation of the loop condition.  It ends with the
function's return value and the final state. -/
def parse_loop (K : usb_defs) (buffer : Buf) : Nat → parse_state → Option (Int × parse_state)
  | 0, _ => none
  | fuel + 1, s =>
    if parse_guard buffer s then
      match parse_record K buffer s with
      | flow.next s1 =>
        parse_loop K buffer fuel { s1 with index := s1.index + bLength (at_offset buffer s.index) }
      | flow.ret e s1 => some (e, s1)
      | flow.undef => none
    else some (0, s)

/-- The state in which `usb_parse_config` enters its loop. -/
def parse_init (dev : usb_device) (buffer : Buf) (cfgno : Int) : parse_state :=
  let cfg : usb_config :=
    { dev.config with
      desc := memcpy dev.config.desc buffer USB_DT_CONFIG_SIZE,
      no_of_if := 0,
      no_of_if_assoc := 0 }
  { dev := { dev with configno := cfgno, config := cfg },
    index := bLength cfg.desc,
    ifno := -1,
    epno := -1,
    curr_if_num := -1,
    cs_int_len := 0,
    int_assoc_index := 0,
    pri_if := none }

/-- The C function `usb_parse_config(dev, buffer, cfgno)`: the return value and
the device record it leaves.  The cursor moves by at least one byte per
iteration, so `wTotalLength + 1` evaluations of the loop condition suffice. -/
def usb_parse_config (K : usb_defs) (dev : usb_device) (buffer : Buf) (cfgno : Int) :
    Option (Int × usb_device) :=
  if bDescriptorType buffer ≠ USB_DT_CONFIG then some (- EINVAL, { dev with configno := cfgno })
  else if bLength buffer ≠ USB_DT_CONFIG_SIZE then some (- EINVAL, { dev with configno := cfgno })
  else
    let s := parse_init dev buffer cfgno
    (parse_loop K buffer (usb_config_descriptor.wTotalLength s.dev.config.desc + 1) s).map
      (fun r => (r.1, r.2.dev))

/-! ## The max-packet resolver -/

/-- The C function `usb_set_maxpacket_ep(dev, if_idx, ep_idx)`. -/
def usb_set_maxpacket_ep (dev : usb_device) (if_idx ep_idx : Nat) : usb_device :=
  let ep := (dev.config.if_desc if_idx).ep_desc ep_idx
  let b := usb_endpoint_descriptor.bEndpointAddress ep &&& USB_ENDPOINT_NUMBER_MASK
  let ep_wMaxPacketSize : Int := usb_endpoint_descriptor.wMaxPacketSize ep
  if usb_endpoint_descriptor.bmAttributes ep &&& USB_ENDPOINT_XFERTYPE_MASK
      = USB_ENDPOINT_XFER_CONTROL then
    { dev with
      epmaxpacketout := store dev.epmaxpacketout b ep_wMaxPacketSize,
      epmaxpacketin := store dev.epmaxpacketin b ep_wMaxPacketSize }
  else if usb_endpoint_descriptor.bEndpointAddress ep &&& 0x80 = 0 then
    if ep_wMaxPacketSize > dev.epmaxpacketout b then
      { dev with epmaxpacketout := store dev.epmaxpacketout b ep_wMaxPacketSize }
    else dev
  else
    if ep_wMaxPacketSize > dev.epmaxpacketin b then
      { dev with epmaxpacketin := store dev.epmaxpacketin b ep_wMaxPacketSize }
    else dev

/-- The C function `usb_set_maxpacket(dev)`; its return value is always 0. -/
def usb_set_maxpacket (dev : usb_device) : usb_device :=
  (List.range (usb_config_descriptor.bNumInterfaces dev.config.desc)).foldl
    (fun d i =>
      (List.range (usb_interface_descriptor.bNumEndpoints (d.config.if_desc i).desc)).foldl
        (fun d1 ii => usb_set_maxpacket_ep d1 i ii) d)
    dev

/-! ## The controller and the platform -/

/-- The `struct devrequest` setup packet handed to the controller. -/
structure devrequest where
  requesttype : Nat
  request : Nat
  value : Nat
  index : Nat
  length : Nat

/-- What a control transfer can change while it is in flight: the state of the
controller and of the world outside `usb.c` (`world`), the fields `status` and
`act_len` of the device record through which the controller reports, and the
contents of the data buffer (`none` when the caller passed `NULL`). -/
structure xfer (W : Type) where
  world : W
  status : Nat
  act_len : Int
  data : Option Buf

/-- The collaborators of `usb.c` that are not among the sources, taken as
parameters.  `ctrlOps_submit_control_msg` is the controller's operation
`pUsbCtrl->ctrlOps.submit_control_msg` (spec §4.1: it returns a signed status
and reports through the device record and the data buffer; `NULL` data is
`none`); `mdelay` is what the controller's interrupt handler does to a transfer
during `mdelay(1)`; `aligned_malloc` returns the contents of the fresh
allocation or `none` for `NULL`; `stack` gives the contents of an
uninitialised stack buffer; the three pipe functions are the macros of `usb.h`. -/
structure platform (W : Type) where
  ctrlOps_submit_control_msg : W → usb_device → Nat → Option Buf → Nat → devrequest → Int × xfer W
  mdelay : xfer W → xfer W
  aligned_malloc : W → Nat → W × Option Buf
  aligned_free : W → W
  stack : W → Buf
  usb_rcvctrlpipe : usb_device → Nat → Nat
  usb_sndctrlpipe : usb_device → Nat → Nat
  usb_snddefctrl : usb_device → Nat

/-- The outcome of a call that talks to the device: the C return value, the
world and the device record afterwards, and the contents of the caller's data
buffer (`none` when the caller passed `NULL`). -/
structure ctl_result (W : Type) where
  ret : Int
  world : W
  dev : usb_device
  data : Option Buf

variable {W : Type}

/-- The wrapper `submit_control_msg(dev, pipe, buffer, transfer_len, setup)`
of `usb.c`; `dev` is `none` for a `NULL` device. -/
def submit_control_msg (P : platform W) (w : W) (dev : Option usb_device) (pipe : Nat)
    (buffer : Option Buf) (transfer_len : Nat) (setup : devrequest) :
    Int × W × Option usb_device × Option Buf :=
  match dev with
  | none => (-1, w, none, buffer)
  | some d =>
    let r := P.ctrlOps_submit_control_msg w d pipe buffer transfer_len setup
    (r.1, r.2.world, some { d with status := r.2.status, act_len := r.2.act_len }, r.2.data)

/-- The loop `while (timeout--) { if (!(dev->status & USB_ST_NOT_PROC)) break; mdelay(1); }`
of `usb_control_msg`, run with `timeout` as the first argument.  The second
component counts the evaluations of `dev->status & USB_ST_NOT_PROC`. -/
def poll_status (K : usb_defs) (P : platform W) : Nat → xfer W → xfer W × Nat
  | 0, x => (x, 0)
  | t + 1, x =>
    if x.status &&& K.USB_ST_NOT_PROC = 0 then (x, 1)
    else
      let r := poll_status K P t (P.mdelay x)
      (r.1, r.2 + 1)

/-- The C function `usb_control_msg`.  `asynch_allowed` is the value of the
static flag.  `request` and `requesttype` are `unsigned char`, `value`, `index`
and `size` are `unsigned short`: the arguments are converted on entry.
`timeout` is an `int`; every caller passes a non-negative value and the
embedding takes a `Nat`. -/
def usb_control_msg (K : usb_defs) (P : platform W) (asynch_allowed : Int) (w : W)
    (dev : usb_device) (pipe request requesttype value index : Nat) (data : Option Buf)
    (size : Nat) (timeout : Nat) : ctl_result W :=
  let size := size % 65536
  if timeout = 0 ∧ asynch_allowed = 0 then ⟨- EINVAL, w, dev, data⟩
  else
    let setup_packet : devrequest :=
      { requesttype := requesttype % 256, request := request % 256,
        value := value % 65536, index := index % 65536, length := size }
    let dev1 := { dev with status := K.USB_ST_NOT_PROC }
    let r := submit_control_msg P w (some dev1) pipe data size setup_packet
    let err := r.1
    let w1 := r.2.1
    let dev2 := r.2.2.1.getD dev1
    let data1 := r.2.2.2
    if err < 0 then ⟨err, w1, dev2, data1⟩
    else if timeout = 0 then ⟨(size : Int), w1, dev2, data1⟩
    else
      let x := (poll_status K P timeout ⟨w1, dev2.status, dev2.act_len, data1⟩).1
      let dev3 := { dev2 with status := x.status, act_len := x.act_len }
      if dev3.status ≠ 0 then ⟨-1, x.world, dev3, x.data⟩
      else ⟨dev3.act_len, x.world, dev3, x.data⟩

/-- The C function `usb_get_descriptor(dev, type, index, buf, size)`. -/
def usb_get_descriptor (K : usb_defs) (P : platform W) (asynch_allowed : Int) (w : W)
    (dev : usb_device) (type index : Nat) (buf : Option Buf) (size : Nat) : ctl_result W :=
  usb_control_msg K P asynch_allowed w dev (P.usb_rcvctrlpipe dev 0)
    USB_REQ_GET_DESCRIPTOR USB_DIR_IN ((type <<< 8) + index) 0 buf size K.USB_CNTL_TIMEOUT

/-- The C function `usb_get_configuration_no(dev, cfgno)`: the buffer it returns
(`none` for `NULL`), the world and the device record afterwards.  The buffer is
the one `aligned_malloc` gave for `length` bytes: its offsets from `length` on
are past the end of the allocation. -/
def usb_get_configuration_no (K : usb_defs) (P : platform W) (asynch_allowed : Int) (w : W)
    (dev : usb_device) (cfgno : Nat) : Option Buf × W × usb_device :=
  let buffer := P.stack w
  let r := usb_get_descriptor K P asynch_allowed w dev USB_DT_CONFIG (cfgno % 256) (some buffer) 9
  if r.ret < 9 then (none, r.world, r.dev)
  else
    let length := usb_config_descriptor.wTotalLength (r.data.getD buffer)
    if length > 2048 then (none, r.world, r.dev)
    else
      match P.aligned_malloc r.world length with
      | (w2, none) => (none, w2, r.dev)
      | (w2, some config) =>
        let r2 := usb_get_descriptor K P asynch_allowed w2 r.dev USB_DT_CONFIG (cfgno % 256)
          (some config) length
        if r2.ret < 0 then (none, P.aligned_free r2.world, r2.dev)
        else
          let config2 := r2.data.getD config
          let config3 := store (store config2 2 (Fin.ofNat (length % 256))) 3 (Fin.ofNat (length / 256))
          (some config3, r2.world, r2.dev)

/-- The C function `usb_set_configuration(dev, configuration)`. -/
def usb_set_configuration (K : usb_defs) (P : platform W) (asynch_allowed : Int) (w : W)
    (dev : usb_device) (configuration : Nat) : Int × W × usb_device :=
  let r := usb_control_msg K P asynch_allowed w dev (P.usb_sndctrlpipe dev 0)
    USB_REQ_SET_CONFIGURATION 0 configuration 0 none 0 K.USB_CNTL_TIMEOUT
  if r.ret = 0 then
    (0, r.world, { r.dev with toggle := store (store r.dev.toggle 0 0) 1 0 })
  else (- EIO, r.world, r.dev)

/-- One pass of the retry loop of `usb_get_string`. -/
def usb_get_string_once (K : usb_defs) (P : platform W) (asynch_allowed : Int) (w : W)
    (dev : usb_device) (langid index : Nat) (buf : Option Buf) (size : Nat) : ctl_result W :=
  usb_control_msg K P asynch_allowed w dev (P.usb_rcvctrlpipe dev 0)
    USB_REQ_GET_DESCRIPTOR USB_DIR_IN ((USB_DT_STRING <<< 8) + index) langid buf size
    K.USB_CNTL_TIMEOUT

/-- The C function `usb_get_string(dev, langid, index, buf, size)`: up to three
attempts, the first with a positive result ends the loop.  `langid` is an
`unsigned short` and `index` an `unsigned char`. -/
def usb_get_string (K : usb_defs) (P : platform W) (asynch_allowed : Int) (w : W)
    (dev : usb_device) (langid index : Nat) (buf : Option Buf) (size : Nat) : ctl_result W :=
  let langid := langid % 65536
  let index := index % 256
  let r1 := usb_get_string_once K P asynch_allowed w dev langid index buf size
  if r1.ret > 0 then r1
  else
    let r2 := usb_get_string_once K P asynch_allowed r1.world r1.dev langid index r1.data size
    if r2.ret > 0 then r2
    else usb_get_string_once K P asynch_allowed r2.world r2.dev langid index r2.data size

/-- The `for` loop of `usb_try_string_workarounds`: the value of `newlength`
when the loop is left. -/
def string_scan (buf : Buf) (oldlength : Int) : Nat → Nat → Nat
  | 0, newlength => newlength
  | fuel + 1, newlength =>
    if ((newlength : Int) + 1 < oldlength) then
      if !isprint (buf newlength) ∨ buf (newlength + 1) ≠ 0 then newlength
      else string_scan buf oldlength fuel (newlength + 2)
    else newlength

/-- The C function `usb_try_string_workarounds(buf, &length)`: the buffer and
the length afterwards. -/
def usb_try_string_workarounds (buf : Buf) (length : Int) : Buf × Int :=
  let oldlength := length
  let newlength := string_scan buf oldlength oldlength.toNat 2
  if newlength > 2 then (store buf 0 (Fin.ofNat newlength), (newlength : Int))
  else (buf, length)

/-- The C function `usb_string_sub(dev, langid, index, buf)`. -/
def usb_string_sub (K : usb_defs) (P : platform W) (asynch_allowed : Int) (w : W)
    (dev : usb_device) (langid index : Nat) (buf : Buf) : ctl_result W :=
  let r1 := usb_get_string K P asynch_allowed w dev langid index (some buf) 255
  let r2 :=
    if r1.ret < 2 then
      let q := usb_get_string K P asynch_allowed r1.world r1.dev langid index r1.data 2
      if q.ret = 2 then
        usb_get_string K P asynch_allowed q.world q.dev langid index q.data
          ((q.data.getD buf) 0).val
      else q
    else r1
  let buf2 := r2.data.getD buf
  let r3 : Int × Buf :=
    if r2.ret ≥ 2 then
      let a := if buf2 0 = 0 ∧ buf2 1 = 0 then usb_try_string_workarounds buf2 r2.ret
               else (buf2, r2.ret)
      let rc := if ((a.1 0).val : Int) < a.2 then ((a.1 0).val : Int) else a.2
      (rc - (Int.land rc 1), a.1)
    else (r2.ret, buf2)
  let rc := if r3.1 < 2 then - EINVAL else r3.1
  ⟨rc, r2.world, r2.dev, some r3.2⟩

/-- The decoding loop of `usb_string`: `for (idx = 0, u = 2; u < err; u += 2)`. -/
def usb_string_decode (tbuf : Buf) (err size : Nat) : Nat → Nat → Nat → Buf → Nat × Buf
  | 0, idx, _, buf => (idx, buf)
  | fuel + 1, idx, u, buf =>
    if u < err then
      if idx ≥ size then (idx, buf)
      else if tbuf (u + 1) ≠ 0 then
        usb_string_decode tbuf err size fuel (idx + 1) (u + 2) (store buf idx 63)
      else
        usb_string_decode tbuf err size fuel (idx + 1) (u + 2) (store buf idx (tbuf u))
    else (idx, buf)

/-- The second half of `usb_string`, from the fetch of string `index` on:
`tbuf` is the staging buffer and `buf` the output buffer, of capacity `size`. -/
def usb_string_fetch (K : usb_defs) (P : platform W) (asynch_allowed : Int) (w : W)
    (dev : usb_device) (index : Int) (tbuf buf : Buf) (size : Nat) : ctl_result W :=
  let r := usb_string_sub K P asynch_allowed w dev dev.string_langid
    (index % 4294967296).toNat tbuf
  if r.ret < 0 then ⟨r.ret, r.world, r.dev, some buf⟩
  else
    let t := r.data.getD tbuf
    let size1 := size - 1
    let d := usb_string_decode t r.ret.toNat size1 r.ret.toNat 0 2 buf
    ⟨(d.1 : Int), r.world, r.dev, some (store d.2 d.1 0)⟩

/-- The C function `usb_string(dev, index, buf, size)`; `buf` is `none` for a
`NULL` pointer. -/
def usb_string (K : usb_defs) (P : platform W) (asynch_allowed : Int) (w : W)
    (dev : usb_device) (index : Int) (buf : Option Buf) (size : Nat) : ctl_result W :=
  match buf with
  | none => ⟨- EINVAL, w, dev, none⟩
  | some buf0 =>
    if size = 0 ∨ index = 0 then ⟨- EINVAL, w, dev, some buf0⟩
    else
      let buf1 := store buf0 0 0
      let tbuf := P.stack w
      if dev.have_langid = 0 then
        let r := usb_string_sub K P asynch_allowed w dev 0 0 tbuf
        let t := r.data.getD tbuf
        if r.ret < 0 then ⟨- EIO, r.world, r.dev, some buf1⟩
        else if (t 0).val < 4 then ⟨- EIO, r.world, r.dev, some buf1⟩
        else
          let dev1 := { r.dev with
            have_langid := -1,
            string_langid := (t 2).val ||| ((t 3).val <<< 8) }
          usb_string_fetch K P asynch_allowed r.world dev1 index t buf1 size
      else usb_string_fetch K P asynch_allowed w dev index tbuf buf1 size

/-- The C function `get_descriptor_len(dev, len, expect_len)`. -/
def get_descriptor_len (K : usb_defs) (P : platform W) (asynch_allowed : Int) (w : W)
    (dev : usb_device) (len : Nat) (expect_len : Int) : Int × W × usb_device :=
  let tmpbuf := P.stack w
  let r := usb_get_descriptor K P asynch_allowed w dev USB_DT_DEVICE 0 (some tmpbuf) len
  if r.ret < expect_len then
    if r.ret < 0 then (r.ret, r.world, r.dev)
    else (- EIO, r.world, r.dev)
  else
    (0, r.world, { r.dev with
      descriptor := memcpy r.dev.descriptor (r.data.getD tmpbuf) USB_DT_DEVICE_SIZE })

/-- The optional string fetches at the end of `usb_select_config`: one call
`if (i) usb_string(dev, i, field, sizeof(field))`, whose result is dropped. -/
def fetch_string (K : usb_defs) (P : platform W) (asynch_allowed : Int) (w : W)
    (dev : usb_device) (i : Nat) (field : Buf) (size : Nat) : W × usb_device × Buf :=
  if i ≠ 0 then
    let r := usb_string K P asynch_allowed w dev i (some field) size
    (r.world, r.dev, r.data.getD field)
  else (w, dev, field)

/-- The last stage of `usb_select_config`: the three `memset`s of the text
buffers and the optional fetches of the manufacturer, product and serial
number strings. -/
def usb_select_config_strings (K : usb_defs) (P : platform W) (asynch_allowed : Int) (w : W)
    (dev : usb_device) : W × usb_device :=
  let dev2 := { dev with
    mf := memcpy dev.mf zero_buf K.sizeof_mf,
    prod := memcpy dev.prod zero_buf K.sizeof_prod,
    serial := memcpy dev.serial zero_buf K.sizeof_serial }
  let m := fetch_string K P asynch_allowed w dev2
    (usb_device_descriptor.iManufacturer dev2.descriptor) dev2.mf K.sizeof_mf
  let dev3 := { m.2.1 with mf := m.2.2 }
  let p := fetch_string K P asynch_allowed m.1 dev3
    (usb_device_descriptor.iProduct dev3.descriptor) dev3.prod K.sizeof_prod
  let dev4 := { p.2.1 with prod := p.2.2 }
  let q := fetch_string K P asynch_allowed p.1 dev4
    (usb_device_descriptor.iSerialNumber dev4.descriptor) dev4.serial K.sizeof_serial
  (q.1, { q.2.1 with serial := q.2.2 })

/-- The C function `usb_select_config(dev)`.  The return value of
`usb_parse_config` is dropped by the C code; the parser having no result at all
leaves `usb_select_config` without one. -/
def usb_select_config (K : usb_defs) (P : platform W) (asynch_allowed : Int) (w : W)
    (dev : usb_device) : Option (Int × W × usb_device) :=
  let r := get_descriptor_len K P asynch_allowed w dev USB_DT_DEVICE_SIZE USB_DT_DEVICE_SIZE
  if r.1 ≠ 0 then some r
  else
    let g := usb_get_configuration_no K P asynch_allowed r.2.1 r.2.2 0
    match g.1 with
    | none => some (- EIO, g.2.1, g.2.2)
    | some pConfig =>
      match usb_parse_config K g.2.2 pConfig 0 with
      | none => none
      | some parsed =>
        let w1 := P.aligned_free g.2.1
        let dev1 := usb_set_maxpacket parsed.2
        let c := usb_set_configuration K P asynch_allowed w1 dev1
          (usb_config_descriptor.bConfigurationValue dev1.config.desc)
        if c.1 < 0 then some c
        else some (0, usb_select_config_strings K P asynch_allowed c.2.1 c.2.2)

/-- The C function `usb_setup_descriptor(dev, do_read)`. -/
def usb_setup_descriptor (K : usb_defs) (P : platform W) (asynch_allowed : Int) (w : W)
    (dev : usb_device) (do_read : Bool) : Int × W × usb_device :=
  let dev1 : usb_device :=
    if dev.speed = K.USB_SPEED_LOW then
      { dev with descriptor := store dev.descriptor 7 8, maxpacketsize := K.PACKET_SIZE_8 }
    else
      { dev with descriptor := store dev.descriptor 7 64, maxpacketsize := K.PACKET_SIZE_64 }
  let dev2 : usb_device := { dev1 with
    epmaxpacketin := store dev1.epmaxpacketin 0
      (usb_device_descriptor.bMaxPacketSize0 dev1.descriptor : Int),
    epmaxpacketout := store dev1.epmaxpacketout 0
      (usb_device_descriptor.bMaxPacketSize0 dev1.descriptor : Int) }
  let probe : Int × W × usb_device :=
    if do_read then get_descriptor_len K P asynch_allowed w dev2 64 8 else (0, w, dev2)
  if probe.1 ≠ 0 then probe
  else
    let dev3 := probe.2.2
    let dev4 : usb_device := { dev3 with
      epmaxpacketin := store dev3.epmaxpacketin 0
        (usb_device_descriptor.bMaxPacketSize0 dev3.descriptor : Int),
      epmaxpacketout := store dev3.epmaxpacketout 0
        (usb_device_descriptor.bMaxPacketSize0 dev3.descriptor : Int) }
    if usb_device_descriptor.bMaxPacketSize0 dev4.descriptor = 8 then
      (0, probe.2.1, { dev4 with maxpacketsize := K.PACKET_SIZE_8 })
    else if usb_device_descriptor.bMaxPacketSize0 dev4.descriptor = 16 then
      (0, probe.2.1, { dev4 with maxpacketsize := K.PACKET_SIZE_16 })
    else if usb_device_descriptor.bMaxPacketSize0 dev4.descriptor = 32 then
      (0, probe.2.1, { dev4 with maxpacketsize := K.PACKET_SIZE_32 })
    else if usb_device_descriptor.bMaxPacketSize0 dev4.descriptor = 64 then
      (0, probe.2.1, { dev4 with maxpacketsize := K.PACKET_SIZE_64 })
    else (- EIO, probe.2.1, dev4)

/-- The search loop of `usb_set_interface`: the first slot below `bNumInterfaces`
whose `bInterfaceNumber` is `interface` (`none` when `if_face` stays `NULL`). -/
def usb_set_interface_find (dev : usb_device) (interface : Int) : Option Nat :=
  (List.range (usb_config_descriptor.bNumInterfaces dev.config.desc)).find?
    (fun i => decide ((usb_interface_descriptor.bInterfaceNumber (dev.config.if_desc i).desc : Int)
      = interface))

/-- The C function `usb_set_interface(dev, interface, alternate)`.  `alternate`
and `interface` are `int`s handed to `unsigned short` parameters of
`usb_control_msg`. -/
def usb_set_interface (K : usb_defs) (P : platform W) (asynch_allowed : Int) (w : W)
    (dev : usb_device) (interface alternate : Int) : Int × W × usb_device :=
  match usb_set_interface_find dev interface with
  | none => (- EINVAL, w, dev)
  | some i =>
    if (dev.config.if_desc i).num_altsetting = 1 then (0, w, dev)
    else
      let r := usb_control_msg K P asynch_allowed w dev (P.usb_sndctrlpipe dev 0)
        USB_REQ_SET_INTERFACE USB_RECIP_INTERFACE (alternate % 65536).toNat
        (interface % 65536).toNat none 0 (K.USB_CNTL_TIMEOUT * 5)
      if r.ret < 0 then (r.ret, r.world, r.dev) else (0, r.world, r.dev)

/-! ## The device registry -/

/-- The record left by `memset(&usb_dev[i], 0, sizeof(struct usb_device))`. -/
def zero_interface : usb_interface :=
  { desc := zero_buf, no_of_ep := 0, num_altsetting := 0, act_altsetting := 0,
    ep_desc := fun _ => zero_buf, ss_ep_comp_desc := fun _ => zero_buf }

/-- The all-zero `struct usb_config`. -/
def zero_config : usb_config :=
  { desc := zero_buf, no_of_if := 0, no_of_if_assoc := 0, if_desc := fun _ => zero_interface,
    int_assoc := fun _ => zero_buf, pClassSpecificInterfaces := none }

/-- The all-zero `struct usb_device`. -/
def zero_device : usb_device :=
  { devnum := 0, speed := 0, mf := zero_buf, prod := zero_buf, serial := zero_buf,
    maxpacketsize := 0, toggle := fun _ => 0, halted := 0, epmaxpacketin := fun _ => 0,
    epmaxpacketout := fun _ => 0, configno := 0, descriptor := zero_buf, config := zero_config,
    have_langid := 0, string_langid := 0, status := 0, act_len := 0, maxchild := 0,
    portnr := 0, parent := 0, children := fun _ => 0, controller := 0 }

/-- A slot after `memset(&usb_dev[i], 0, sizeof(struct usb_device))` and
`usb_dev[i].devnum = -1`. -/
def unknown_device : usb_device :=
  { zero_device with devnum := -1 }

/-- The global table `usb_dev[USB_MAX_DEVICE]` and the counter
`USBManager.dev_index`. -/
structure registry where
  dev_index : Int
  usb_dev : Int → usb_device

/-- The loop `for (i = 0; i < USB_MAX_DEVICE; i++)` of `usb_init`, from `i` on,
with `n` iterations left. -/
def usb_init_loop (usb_dev : Int → usb_device) : Nat → Int → Int → usb_device
  | 0, _ => usb_dev
  | n + 1, i => usb_init_loop (store usb_dev i unknown_device) n (i + 1)

/-- The registry part of the C function `usb_init`: `USBManager.dev_index = 0`
and the loop that makes all devices unknown (the controller scan that follows
goes through `usb_alloc_new_device` and `usb_free_device`). -/
def usb_init (K : usb_defs) (r : registry) : registry :=
  { dev_index := 0, usb_dev := usb_init_loop r.usb_dev K.USB_MAX_DEVICE 0 }

/-- The C function `usb_get_dev_index(index)`; `none` is `NULL`. -/
def usb_get_dev_index (r : registry) (index : Int) : Option usb_device :=
  if (r.usb_dev index).devnum = -1 then none else some (r.usb_dev index)

/-- The C function `usb_alloc_new_device(controller, devp)`.  `hx_malloc` is
what `_hx_malloc(USB_MAX_CSINTERFACE_LEN)` returns: the contents of the fresh
block, or `none` for `NULL`.  The result is the return value, the registry
afterwards and the slot `*devp` points to (`none` when `*devp` is not set). -/
def usb_alloc_new_device (K : usb_defs) (r : registry) (controller : Nat)
    (hx_malloc : Option Buf) : Int × registry × Option Int :=
  if r.dev_index = (K.USB_MAX_DEVICE : Int) then (- ENOSPC, r, none)
  else
    match hx_malloc with
    | none => (- ENOMEM, r, none)
    | some block =>
      let pCSInterface := memcpy block zero_buf K.USB_MAX_CSINTERFACE_LEN
      let i := r.dev_index
      let d := r.usb_dev i
      let d1 := { d with
        devnum := i + 1,
        maxchild := 0,
        children := fun j => if j < K.USB_MAXCHILDREN then 0 else d.children j,
        parent := 0,
        controller := controller }
      let r1 : registry := { dev_index := i + 1, usb_dev := store r.usb_dev i d1 }
      let slot := r1.dev_index - 1
      let e := r1.usb_dev slot
      let e1 := { e with config := { e.config with pClassSpecificInterfaces := some pCSInterface } }
      (0, { r1 with usb_dev := store r1.usb_dev slot e1 }, some slot)

/-- The C function `usb_free_device(controller)`. -/
def usb_free_device (r : registry) (_controller : Nat) : registry :=
  let i := r.dev_index - 1
  { dev_index := i, usb_dev := store r.usb_dev i unknown_device }

/-! ## Derived notions used to state the properties -/

/-- The state in which the loop condition of `usb_parse_config` is evaluated
after `n` complete iterations from `s` on; `none` when the function is left
before that. -/
def parse_cursor (K : usb_defs) (buffer : Buf) : Nat → parse_state → Option parse_state
  | 0, s => some s
  | n + 1, s =>
    if parse_guard buffer s then
      match parse_record K buffer s with
      | flow.next s1 =>
        parse_cursor K buffer n { s1 with index := s1.index + bLength (at_offset buffer s.index) }
      | flow.ret _ _ => none
      | flow.undef => none
    else none

/-- The control transfer as `usb_control_msg` hands it to the controller: the
status the controller returns and the transfer state it leaves. -/
def submitted (K : usb_defs) (P : platform W) (w : W) (dev : usb_device)
    (pipe request requesttype value index : Nat) (data : Option Buf) (size : Nat) :
    Int × xfer W :=
  P.ctrlOps_submit_control_msg w { dev with status := K.USB_ST_NOT_PROC } pipe data
    (size % 65536)
    { requesttype := requesttype % 256, request := request % 256, value := value % 65536,
      index := index % 65536, length := size % 65536 }

/-- Consecutive calls of `usb_alloc_new_device`, one per entry (controller
handle and what `_hx_malloc` returns): the list of return values and the
registry afterwards. -/
def usb_alloc_repeat (K : usb_defs) : registry → List (Nat × Option Buf) → List Int × registry
  | r, [] => ([], r)
  | r, call :: rest =>
    let a := usb_alloc_new_device K r call.1 call.2
    let b := usb_alloc_repeat K a.2.1 rest
    (a.1 :: b.1, b.2)

/-- One call on the registry: `usb_alloc_new_device` (with the controller
handle and the result of `_hx_malloc`) or `usb_free_device`. -/
inductive registry_op where
  | alloc : Nat → Option Buf → registry_op
  | free : Nat → registry_op

/-- The registry after one call. -/
def registry_step (K : usb_defs) (r : registry) : registry_op → registry
  | registry_op.alloc controller hx_malloc => (usb_alloc_new_device K r controller hx_malloc).2.1
  | registry_op.free controller => usb_free_device r controller

/-- The registry after a sequence of calls. -/
def registry_run (K : usb_defs) : registry → List registry_op → registry
  | r, [] => r
  | r, op :: ops => registry_run K (registry_step K r op) ops

/-- Every `usb_free_device` of the sequence is called with at least one device
allocated. -/
def registry_admits (K : usb_defs) : registry → List registry_op → Prop
  | _, [] => True
  | r, registry_op.alloc c m :: ops =>
    registry_admits K (registry_step K r (registry_op.alloc c m)) ops
  | r, registry_op.free c :: ops =>
    1 ≤ r.dev_index ∧ registry_admits K (registry_step K r (registry_op.free c)) ops

/-- The registry invariant: the counter lies within the table, the slots below
it carry the address slot + 1 and the slots from it on are free. -/
def registry_inv (K : usb_defs) (r : registry) : Prop :=
  0 ≤ r.dev_index ∧ r.dev_index ≤ (K.USB_MAX_DEVICE : Int) ∧
  (∀ i : Int, 0 ≤ i → i < r.dev_index → (r.usb_dev i).devnum = i + 1) ∧
  (∀ i : Int, r.dev_index ≤ i → i < (K.USB_MAX_DEVICE : Int) → (r.usb_dev i).devnum = -1)

/-! ## Sample values for evaluating the code -/

/-- A sample choice of the compile-time parameters (the limits of U-Boot's
`usb.h`, from which `usb.c` derives; 4 association entries and 64 bytes of
class specific space). -/
def sample_defs : usb_defs :=
  { USB_MAX_DEVICE := 32, USB_MAXINTERFACES := 8, USB_MAXENDPOINTS := 16,
    USB_MAXINTERFACEASSOC := 4, USB_MAX_CSINTERFACE_LEN := 64, USB_MAXCHILDREN := 8,
    USB_CNTL_TIMEOUT := 100, USB_ST_NOT_PROC := 0x80000000, USB_SPEED_LOW := 1,
    PACKET_SIZE_8 := 0, PACKET_SIZE_16 := 1, PACKET_SIZE_32 := 2, PACKET_SIZE_64 := 3,
    sizeof_mf := 32, sizeof_prod := 32, sizeof_serial := 32 }

/-- A registry before `usb_init`: counter 0 over zeroed storage. -/
def sample_registry : registry :=
  { dev_index := 0, usb_dev := fun _ => zero_device }

/-- Configuration of 20 bytes: header, one interface record, then a record whose
length byte is 0. -/
def zero_length_config : Buf :=
  bytes [9, 2, 20, 0, 1, 1, 0, 0x80, 50,
         9, 4, 0, 0, 0, 255, 0, 0, 0,
         0, 5]

/-- Configuration of 41 bytes with `bNumInterfaces = 1`: interface 0 in setting 0
with endpoint 1 OUT (bulk, max packet 32) and in alternate setting 1 with
endpoint 1 OUT (bulk, max packet 64). -/
def alternate_setting_config : Buf :=
  bytes [9, 2, 41, 0, 1, 1, 0, 0x80, 50,
         9, 4, 0, 0, 1, 255, 0, 0, 0,
         7, 5, 0x01, 2, 32, 0, 0,
         9, 4, 0, 1, 1, 255, 0, 0, 0,
         7, 5, 0x01, 2, 64, 0, 0]

/-- Configuration with declared total length 11: the header and, at offset 9, the
two header bytes of an interface association record of length 8; `tail` is what
memory holds from offset 11 on. -/
def truncated_assoc_config (tail : List Byte) : Buf :=
  bytes ([9, 2, 11, 0, 1, 1, 0, 0x80, 50, 8, 0x0b] ++ tail)

/-- The `k`-th endpoint record of `many_endpoints_config`: a bulk IN endpoint
with max packet size 64. -/
def endpoint_record (k : Nat) : List Byte :=
  [7, 5, Fin.ofNat (0x81 + k), 2, 64, 0, 0]

/-- Configuration of 18 + 7 n bytes: header, one interface record and `n` endpoint
records of 7 bytes. -/
def many_endpoints_config (n : Nat) : Buf :=
  fun i =>
    if i < 18 then
      ([9, 2, Fin.ofNat ((18 + 7 * n) % 256), Fin.ofNat ((18 + 7 * n) / 256), 1, 1, 0, 0x80, 50,
        9, 4, 0, 0, Fin.ofNat n, 255, 0, 0, 0] : List Byte).getD i 0
    else if i < 18 + 7 * n then (endpoint_record ((i - 18) / 7)).getD ((i - 18) % 7) 0
    else 0

/-- The state of the parser after the interface record and `k` endpoint records
of `many_endpoints_config n`. -/
def endpoints_parsed (n k : Nat) (s : parse_state) : Prop :=
  s.index = 18 + 7 * k ∧ s.ifno = 0 ∧ (s.dev.config.if_desc 0).no_of_ep = k ∧
  usb_config_descriptor.wTotalLength s.dev.config.desc = 18 + 7 * n ∧
  ∀ j, j < k → usb_endpoint_descriptor.bEndpointAddress ((s.dev.config.if_desc 0).ep_desc j)
    = (0x81 + j) % 256

/-- A device descriptor of 18 bytes without string indices. -/
def demo_device_descriptor : List Byte :=
  [18, 1, 0, 2, 0, 0, 0, 64, 0x34, 0x12, 0x78, 0x56, 0, 1, 0, 0, 0, 1]

/-- A device that answers every control transfer at once: GET_DESCRIPTOR for
the device descriptor with `demo_device_descriptor`, for the configuration with
`config`, anything else with no data.  The world is the list of request codes
submitted so far, latest first. -/
def demo_platform (config : List Byte) : platform (List Nat) where
  ctrlOps_submit_control_msg := fun w _ _ buffer len setup =>
    let reply : List Byte :=
      if setup.request = USB_REQ_GET_DESCRIPTOR ∧ setup.value / 256 = USB_DT_DEVICE then
        demo_device_descriptor
      else if setup.request = USB_REQ_GET_DESCRIPTOR ∧ setup.value / 256 = USB_DT_CONFIG then
        config
      else []
    let n := min len reply.length
    (0, ⟨setup.request :: w, 0, n, buffer.map (fun b => memcpy b (bytes reply) n)⟩)
  mdelay := fun x => x
  aligned_malloc := fun w _ => (w, some zero_buf)
  aligned_free := fun w => w
  stack := fun _ => zero_buf
  usb_rcvctrlpipe := fun _ _ => 0
  usb_sndctrlpipe := fun _ _ => 0
  usb_snddefctrl := fun _ => 0

/-- A configuration header of the wrong descriptor type (7 instead of 2), which
`usb_parse_config` rejects. -/
def rejected_config : List Byte := [9, 7, 9, 0, 1, 1, 0, 0x80, 50]

/-- A controller that accepts every control transfer and never completes it: the
status stays as `usb_control_msg` set it. -/
def stuck_platform : platform Unit where
  ctrlOps_submit_control_msg := fun w dev _ buffer _ _ =>
    (0, ⟨w, dev.status, 0, buffer⟩)
  mdelay := fun x => x
  aligned_malloc := fun w _ => (w, none)
  aligned_free := fun w => w
  stack := fun _ => zero_buf
  usb_rcvctrlpipe := fun _ _ => 0
  usb_sndctrlpipe := fun _ _ => 0
  usb_snddefctrl := fun _ => 0

/-- The record in which `usb_setup_descriptor` runs the probe: the provisional
max packet size (8 for a low speed device, 64 otherwise) is in the descriptor
and in both endpoint-0 table entries. -/
def usb_setup_descriptor_provisional (K : usb_defs) (dev : usb_device) : usb_device :=
  let dev1 : usb_device :=
    if dev.speed = K.USB_SPEED_LOW then
      { dev with descriptor := store dev.descriptor 7 8, maxpacketsize := K.PACKET_SIZE_8 }
    else
      { dev with descriptor := store dev.descriptor 7 64, maxpacketsize := K.PACKET_SIZE_64 }
  { dev1 with
    epmaxpacketin := store dev1.epmaxpacketin 0
      (usb_device_descriptor.bMaxPacketSize0 dev1.descriptor : Int),
    epmaxpacketout := store dev1.epmaxpacketout 0
      (usb_device_descriptor.bMaxPacketSize0 dev1.descriptor : Int) }

/-- The character `usb_string` puts out for code unit `k` of the descriptor `t`:
the low byte when the high byte is zero, a question mark otherwise. -/
def decoded_char (t : Buf) (k : Nat) : Byte :=
  if t (2 + 2 * k + 1) = 0 then t (2 + 2 * k) else 63

/-- The language ID stage of `usb_string`: the world, the device record and the
staging buffer with which the fetch of the string starts, or `none` when the
stage fails (and `usb_string` returns `-EIO`). -/
def usb_string_langid {W : Type} (K : usb_defs) (P : platform W) (asynch_allowed : Int) (w : W)
    (dev : usb_device) : Option (W × usb_device × Buf) :=
  if dev.have_langid = 0 then
    if (usb_string_sub K P asynch_allowed w dev 0 0 (P.stack w)).ret < 0 then none
    else if (((usb_string_sub K P asynch_allowed w dev 0 0 (P.stack w)).data.getD (P.stack w))
        0).val < 4 then none
    else
      some ((usb_string_sub K P asynch_allowed w dev 0 0 (P.stack w)).world,
        { (usb_string_sub K P asynch_allowed w dev 0 0 (P.stack w)).dev with
          have_langid := -1,
          string_langid :=
            (((usb_string_sub K P asynch_allowed w dev 0 0 (P.stack w)).data.getD (P.stack w))
              2).val |||
            ((((usb_string_sub K P asynch_allowed w dev 0 0 (P.stack w)).data.getD (P.stack w))
              3).val <<< 8) },
        (usb_string_sub K P asynch_allowed w dev 0 0 (P.stack w)).data.getD (P.stack w))
  else some (w, dev, P.stack w)

/-- A device that answers GET_DESCRIPTOR for string index 0 with `reply0` and for
any other string index with `reply`, at once and with as many bytes as were
asked for and it has; `garbage` is what an uninitialised stack buffer holds.
The world is the list of `wValue`s requested so far, latest first. -/
def string_platform (reply0 reply : List Byte) (garbage : Buf) : platform (List Nat) where
  ctrlOps_submit_control_msg := fun w _ _ buffer len setup =>
    let r : List Byte :=
      if setup.request = USB_REQ_GET_DESCRIPTOR ∧ setup.value / 256 = USB_DT_STRING then
        (if setup.value % 256 = 0 then reply0 else reply)
      else []
    let n := min len r.length
    (0, ⟨setup.value :: w, 0, n, buffer.map (fun b => memcpy b (bytes r) n)⟩)
  mdelay := fun x => x
  aligned_malloc := fun w _ => (w, some zero_buf)
  aligned_free := fun w => w
  stack := fun _ => garbage
  usb_rcvctrlpipe := fun _ _ => 0
  usb_sndctrlpipe := fun _ _ => 0
  usb_snddefctrl := fun _ => 0

/-- A zeroed device record whose language ID is marked resolved (ID 0x0409). -/
def langid_device : usb_device :=
  { zero_device with have_langid := -1, string_langid := 0x0409 }

/-- A zeroed device record whose first interface slot holds one endpoint
descriptor, `ep`. -/
def single_endpoint_device (ep : List Byte) : usb_device :=
  { zero_device with
    config := { zero_config with
      no_of_if := 1,
      if_desc := store zero_config.if_desc 0
        { zero_interface with
          no_of_ep := 1, num_altsetting := 1,
          ep_desc := store zero_interface.ep_desc 0 (bytes ep) } } }

/-- Configuration of 36 bytes with `bNumInterfaces = 2`: interface 0 in setting 0
and in alternate setting 1, then interface 1 in its only setting; no endpoints. -/
def second_interface_config : Buf :=
  bytes [9, 2, 36, 0, 2, 1, 0, 0x80, 50,
         9, 4, 0, 0, 0, 255, 0, 0, 0,
         9, 4, 0, 1, 0, 255, 0, 0, 0,
         9, 4, 1, 0, 0, 255, 0, 0, 0]

/-- Configuration of 40 bytes with `bNumInterfaces = 2`: interface 0 with endpoint
1 IN (bulk, max packet 1024), then interface 1 without endpoints, followed by a
SuperSpeed endpoint companion record. -/
def stray_companion_config : Buf :=
  bytes [9, 2, 40, 0, 2, 1, 0, 0x80, 50,
         9, 4, 0, 0, 1, 255, 0, 0, 0,
         7, 5, 0x81, 2, 0, 4, 0,
         9, 4, 1, 0, 0, 255, 0, 0, 0,
         6, 0x30, 3, 0, 0, 0]

/-! ## The interface records of a stream and the parser's bookkeeping -/

/-- Modelled from the spec: a valid interface record under the cursor `index` of a
stream of declared length `total`: descriptor type interface, the exact
interface record size, and the record lies within the declared length. -/
def valid_interface (buffer : Buf) (total index : Nat) : Prop :=
  bDescriptorType (at_offset buffer index) = USB_DT_INTERFACE ∧
  bLength (at_offset buffer index) = USB_DT_INTERFACE_SIZE ∧
  index + USB_DT_INTERFACE_SIZE ≤ total

instance (buffer : Buf) (total index : Nat) : Decidable (valid_interface buffer total index) :=
  inferInstanceAs (Decidable (_ ∧ _ ∧ _))

/-- Modelled from the spec: the interface numbers of the valid interface records of
the stream, in stream order.  The records are walked from `index` on by their
length bytes, as long as two more bytes lie below `total` and the length byte
is not 0; each unit of fuel pays for one record. -/
def interface_records (buffer : Buf) (total : Nat) : Nat → Nat → List Nat
  | 0, _ => []
  | fuel + 1, index =>
    if index + 1 < total ∧ bLength (at_offset buffer index) ≠ 0 then
      if valid_interface buffer total index then
        usb_interface_descriptor.bInterfaceNumber (at_offset buffer index) ::
          interface_records buffer total fuel (index + bLength (at_offset buffer index))
      else interface_records buffer total fuel (index + bLength (at_offset buffer index))
    else []

/-- Modelled from the spec: the valid interface records of a configuration buffer:
the walk starts behind the configuration header; a record is at least one byte
long, so `wTotalLength + 1` units of fuel cover the stream. -/
def stream_interfaces (buffer : Buf) : List Nat :=
  interface_records buffer (usb_config_descriptor.wTotalLength buffer)
    (usb_config_descriptor.wTotalLength buffer + 1) (bLength buffer)

/-- Modelled from the spec: the number of records at the head of `l` that repeat the
interface number `x`. -/
def repeats_of (x : Int) : List Nat → Nat
  | [] => 0
  | y :: l => if (y : Int) = x then repeats_of x l + 1 else 0

/-- Modelled from the spec: the `num_altsetting` the slots of the records `l` are to
hold at the end, where `prev` is the number of the interface record before
(`-1` for none): 0 for a record that repeats the number before it, and
otherwise 1 plus the number of records that repeat it. -/
def expected_altsettings : Int → List Nat → List Nat
  | _, [] => []
  | prev, x :: l =>
    (if (x : Int) = prev then 0 else repeats_of x l + 1) :: expected_altsettings x l

/-- The sum of `num_altsetting` over the `no_of_if` slots in use. -/
def altsetting_sum (cfg : usb_config) : Nat :=
  ((List.range cfg.no_of_if).map (fun j => (cfg.if_desc j).num_altsetting)).sum

/-- What holds of the parser state whenever the loop condition is evaluated;
`base` is the device record the parser was called with. -/
def parse_inv (K : usb_defs) (total : Nat) (base : usb_device) (s : parse_state) : Prop :=
  usb_config_descriptor.wTotalLength s.dev.config.desc = total ∧
  s.dev.config.no_of_if ≤ K.USB_MAXINTERFACES ∧
  (∀ i, K.USB_MAXINTERFACES ≤ i → s.dev.config.if_desc i = base.config.if_desc i) ∧
  s.ifno < (s.dev.config.no_of_if : Int) ∧
  (∀ p, s.pri_if = some p → p < s.dev.config.no_of_if) ∧
  (s.pri_if = none → s.curr_if_num = -1) ∧
  altsetting_sum s.dev.config = s.dev.config.no_of_if

/-- The step of the loop from `s` to `s1` left the interface bookkeeping alone:
the slot count, the current slot, the primary slot, the current interface
number, and of every slot the interface descriptor and `num_altsetting`. -/
def same_interfaces (s s1 : parse_state) : Prop :=
  s1.dev.config.no_of_if = s.dev.config.no_of_if ∧
  s1.pri_if = s.pri_if ∧ s1.curr_if_num = s.curr_if_num ∧ s1.ifno = s.ifno ∧
  (∀ j, (s1.dev.config.if_desc j).num_altsetting = (s.dev.config.if_desc j).num_altsetting ∧
    (s1.dev.config.if_desc j).desc = (s.dev.config.if_desc j).desc) ∧
  (∀ j : Nat, (j : Int) ≠ s.ifno → s1.dev.config.if_desc j = s.dev.config.if_desc j) ∧
  (s.dev.config.pClassSpecificInterfaces ≠ none →
    s1.dev.config.pClassSpecificInterfaces ≠ none)

/-- The parser state behind the branch of the interface arm that opens a new
interface with the record `head`, before the cursor moves on. -/
def interface_opened (s : parse_state) (head : Buf) : parse_state :=
  { s with
    dev := set_if_desc
      { s.dev with config := { s.dev.config with no_of_if := s.dev.config.no_of_if + 1 } }
      s.dev.config.no_of_if
      { s.dev.config.if_desc s.dev.config.no_of_if with
        desc := memcpy (s.dev.config.if_desc s.dev.config.no_of_if).desc head
          USB_DT_INTERFACE_SIZE,
        no_of_ep := 0,
        num_altsetting := 1 },
    ifno := s.dev.config.no_of_if,
    curr_if_num := usb_interface_descriptor.bInterfaceNumber
      (memcpy (s.dev.config.if_desc s.dev.config.no_of_if).desc head USB_DT_INTERFACE_SIZE),
    pri_if := some s.dev.config.no_of_if }

/-- The parser state behind the branch of the interface arm that adds the record
`head` as an alternate setting of the primary slot `p`, before the cursor moves
on. -/
def alternate_added (s : parse_state) (head : Buf) (p : Nat) : parse_state :=
  { s with
    dev := set_if_desc
      (set_if_desc
        { s.dev with config := { s.dev.config with no_of_if := s.dev.config.no_of_if + 1 } }
        s.dev.config.no_of_if
        { s.dev.config.if_desc s.dev.config.no_of_if with
          desc := memcpy (s.dev.config.if_desc s.dev.config.no_of_if).desc head
            USB_DT_INTERFACE_SIZE,
          no_of_ep := 0,
          num_altsetting := 0 })
      p
      { (store s.dev.config.if_desc s.dev.config.no_of_if
          { s.dev.config.if_desc s.dev.config.no_of_if with
            desc := memcpy (s.dev.config.if_desc s.dev.config.no_of_if).desc head
              USB_DT_INTERFACE_SIZE,
            no_of_ep := 0,
            num_altsetting := 0 } p) with
        num_altsetting := (store s.dev.config.if_desc s.dev.config.no_of_if
          { s.dev.config.if_desc s.dev.config.no_of_if with
            desc := memcpy (s.dev.config.if_desc s.dev.config.no_of_if).desc head
              USB_DT_INTERFACE_SIZE,
            no_of_ep := 0,
            num_altsetting := 0 } p).num_altsetting + 1 },
    ifno := s.dev.config.no_of_if,
    curr_if_num := usb_interface_descriptor.bInterfaceNumber
      (memcpy (s.dev.config.if_desc s.dev.config.no_of_if).desc head USB_DT_INTERFACE_SIZE) }

/-- Configuration of 90 bytes with `bNumInterfaces = 9`: the interfaces 0 to 8,
each in its only setting and without endpoints. -/
def nine_interfaces_config : Buf :=
  bytes [9, 2, 90, 0, 9, 1, 0, 0x80, 50,
         9, 4, 0, 0, 0, 255, 0, 0, 0,
         9, 4, 1, 0, 0, 255, 0, 0, 0,
         9, 4, 2, 0, 0, 255, 0, 0, 0,
         9, 4, 3, 0, 0, 255, 0, 0, 0,
         9, 4, 4, 0, 0, 255, 0, 0, 0,
         9, 4, 5, 0, 0, 255, 0, 0, 0,
         9, 4, 6, 0, 0, 255, 0, 0, 0,
         9, 4, 7, 0, 0, 255, 0, 0, 0,
         9, 4, 8, 0, 0, 255, 0, 0, 0]

/-- A zeroed device record with a zeroed buffer for class specific records, as
`usb_alloc_new_device` hands it out. -/
def fresh_device : usb_device :=
  { zero_device with config := { zero_config with pClassSpecificInterfaces := some zero_buf } }

/-! ## The other controller bindings, the asynchronous flag, MAC addresses -/

/-- The operations of the controller's table `ctrlOps` besides
`submit_control_msg`, taken as parameters: each takes the world and the device
record and reports as `submit_control_msg` does.  A queue is known by a handle
(`none` for `NULL`). -/
structure ctrl_ops (W : Type) where
  ctrlOps_submit_bulk_msg : W → usb_device → Nat → Option Buf → Int → Int × xfer W
  ctrlOps_submit_int_msg : W → usb_device → Nat → Option Buf → Int → Int → Int × xfer W
  ctrlOps_create_int_queue : W → usb_device → Nat → Int → Int → Option Buf → Int → W × Option Nat
  ctrlOps_destroy_int_queue : W → usb_device → Option Nat → Int × W
  ctrlOps_poll_int_queue : W → usb_device → Option Nat → W × Option Buf

/-- The wrapper `submit_bulk_msg(dev, pipe, buffer, transfer_len)` of `usb.c`;
`dev` is `none` for a `NULL` device. -/
def submit_bulk_msg {W : Type} (C : ctrl_ops W) (w : W) (dev : Option usb_device) (pipe : Nat)
    (buffer : Option Buf) (transfer_len : Int) : Int × W × Option usb_device × Option Buf :=
  match dev with
  | none => (-1, w, none, buffer)
  | some d =>
    let r := C.ctrlOps_submit_bulk_msg w d pipe buffer transfer_len
    (r.1, r.2.world, some { d with status := r.2.status, act_len := r.2.act_len }, r.2.data)

/-- The wrapper `submit_int_msg(dev, pipe, buffer, transfer_len, interval)`. -/
def submit_int_msg {W : Type} (C : ctrl_ops W) (w : W) (dev : Option usb_device) (pipe : Nat)
    (buffer : Option Buf) (transfer_len interval : Int) :
    Int × W × Option usb_device × Option Buf :=
  match dev with
  | none => (-1, w, none, buffer)
  | some d =>
    let r := C.ctrlOps_submit_int_msg w d pipe buffer transfer_len interval
    (r.1, r.2.world, some { d with status := r.2.status, act_len := r.2.act_len }, r.2.data)

/-- The wrapper `create_int_queue(dev, pipe, queuesize, elementsize, buffer,
interval)`: the queue it returns (`none` for `NULL`) and the world afterwards. -/
def create_int_queue {W : Type} (C : ctrl_ops W) (w : W) (dev : Option usb_device) (pipe : Nat)
    (queuesize elementsize : Int) (buffer : Option Buf) (interval : Int) : Option Nat × W :=
  match dev with
  | none => (none, w)
  | some d =>
    let r := C.ctrlOps_create_int_queue w d pipe queuesize elementsize buffer interval
    (r.2, r.1)

/-- The wrapper `destroy_int_queue(dev, queue)`. -/
def destroy_int_queue {W : Type} (C : ctrl_ops W) (w : W) (dev : Option usb_device)
    (queue : Option Nat) : Int × W :=
  match dev with
  | none => (-1, w)
  | some d => C.ctrlOps_destroy_int_queue w d queue

/-- The wrapper `poll_int_queue(dev, queue)`: the element it returns (`none` for
`NULL`) and the world afterwards. -/
def poll_int_queue {W : Type} (C : ctrl_ops W) (w : W) (dev : Option usb_device)
    (queue : Option Nat) : Option Buf × W :=
  match dev with
  | none => (none, w)
  | some d =>
    let r := C.ctrlOps_poll_int_queue w d queue
    (r.2, r.1)

/-- The C operator `!` on an `int`. -/
def lnot (x : Int) : Int := if x = 0 then 1 else 0

/-- The C function `usb_disable_asynch(disable)`.  The static flag
`asynch_allowed` is the first argument; the result is the return value and the
flag afterwards. -/
def usb_disable_asynch (asynch_allowed : Int) (disable : Int) : Int × Int :=
  let old_value := asynch_allowed
  (old_value, lnot disable)

/-- The 32-bit word `*(uint32_t*)(p + off)` on a little-endian host. -/
def load32 (p : Buf) (off : Nat) : Nat :=
  (p off).val + 256 * (p (off + 1)).val + 65536 * (p (off + 2)).val
    + 16777216 * (p (off + 3)).val

/-- The 16-bit word `*(uint16_t*)(p + off)` on a little-endian host. -/
def load16 (p : Buf) (off : Nat) : Nat :=
  (p off).val + 256 * (p (off + 1)).val

/-- The C function `Eth_MAC_Match(srcMac, dstMac)` of `hx_eth.c`.  The values
of the macros `TRUE` and `FALSE` are defined outside the sources and taken as
parameters; a pointer is `none` for `NULL`. -/
def Eth_MAC_Match (TRUE FALSE : Int) (srcMac dstMac : Option Buf) : Int :=
  match srcMac, dstMac with
  | some s, some d =>
    if load32 s 0 ≠ load32 d 0 then FALSE
    else if load16 s 4 ≠ load16 d 4 then FALSE
    else TRUE
  | _, _ => FALSE

/-- Code around `usb_disable_asynch`: code that does not touch the flag, two
pieces one after the other, or a piece run between
`old = usb_disable_asynch(1)` and `usb_disable_asynch(!old)`. -/
inductive asynch_code where
  | other : asynch_code
  | seq : asynch_code → asynch_code → asynch_code
  | exclusive : asynch_code → asynch_code

/-- The flag after running a piece of `asynch_code` from the flag `f`. -/
def asynch_run : asynch_code → Int → Int
  | asynch_code.other, f => f
  | asynch_code.seq a b, f => asynch_run b (asynch_run a f)
  | asynch_code.exclusive a, f =>
    let old := (usb_disable_asynch f 1).1
    let f1 := (usb_disable_asynch f 1).2
    let f2 := asynch_run a f1
    (usb_disable_asynch f2 (lnot old)).2

/-- A controller whose operations all fail with status `-5` and hand out no
queue and no element. -/
def failing_ops : ctrl_ops Unit where
  ctrlOps_submit_bulk_msg := fun w _ _ buffer _ => (-5, ⟨w, 0, 0, buffer⟩)
  ctrlOps_submit_int_msg := fun w _ _ buffer _ _ => (-5, ⟨w, 0, 0, buffer⟩)
  ctrlOps_create_int_queue := fun w _ _ _ _ _ _ => (w, some 1)
  ctrlOps_destroy_int_queue := fun w _ _ => (0, w)
  ctrlOps_poll_int_queue := fun w _ _ => (w, some zero_buf)

/-- Configuration of 25 bytes with `bNumInterfaces = 1`: interface 0 announces two
endpoints (`bNumEndpoints = 2`), but only one endpoint record follows, endpoint
1 IN (bulk, max packet 64). -/
def missing_endpoint_config : Buf :=
  bytes [9, 2, 25, 0, 1, 1, 0, 0x80, 50,
         9, 4, 0, 0, 2, 255, 0, 0, 0,
         7, 5, 0x81, 2, 64, 0, 0]

/-- A fresh device record after `usb_setup_descriptor` has found a control
endpoint size of 64: both endpoint-0 table entries hold 64. -/
def addressed_device : usb_device :=
  { fresh_device with
    epmaxpacketin := store fresh_device.epmaxpacketin 0 64,
    epmaxpacketout := store fresh_device.epmaxpacketout 0 64 }

/-! ## The class specific records of a stream -/

/-- Modelled from the spec: the record under the cursor `index` is a class or vendor
specific one (type CS_INTERFACE or CS_ENDPOINT). -/
def cs_record (buffer : Buf) (index : Nat) : Prop :=
  bDescriptorType (at_offset buffer index) = USB_DT_CS_INTERFACE ∨
  bDescriptorType (at_offset buffer index) = USB_DT_CS_ENDPOINT

instance (buffer : Buf) (index : Nat) : Decidable (cs_record buffer index) :=
  inferInstanceAs (Decidable (_ ∨ _))

/-- Modelled from the spec: the bytes of the record under the cursor `index`, as many
as its length byte says. -/
def record_bytes (buffer : Buf) (index : Nat) : List Byte :=
  (List.range (bLength (at_offset buffer index))).map (fun i => buffer (index + i))

/-- Modelled from the spec: the byte-for-byte concatenation, in encounter order, of the
class specific records of the stream.  The records are walked from `index` on
by their length bytes, as long as two more bytes lie below `total` and the
length byte is not 0; each unit of fuel pays for one record. -/
def cs_stream (buffer : Buf) (total : Nat) : Nat → Nat → List Byte
  | 0, _ => []
  | fuel + 1, index =>
    if index + 1 < total ∧ bLength (at_offset buffer index) ≠ 0 then
      if cs_record buffer index then
        record_bytes buffer index ++
          cs_stream buffer total fuel (index + bLength (at_offset buffer index))
      else cs_stream buffer total fuel (index + bLength (at_offset buffer index))
    else []

/-- Modelled from the spec: the class specific bytes of a configuration buffer: the
walk starts behind the configuration header. -/
def stream_class_specific (buffer : Buf) : List Byte :=
  cs_stream buffer (usb_config_descriptor.wTotalLength buffer)
    (usb_config_descriptor.wTotalLength buffer + 1) (bLength buffer)

/-- Configuration of 27 bytes: interface 0 followed by two class specific records,
`05 24 aa bb cc` and `04 25 dd ee`. -/
def class_specific_config : Buf :=
  bytes [9, 2, 27, 0, 1, 1, 0, 0x80, 50,
         9, 4, 0, 0, 0, 255, 0, 0, 0,
         5, 0x24, 0xaa, 0xbb, 0xcc,
         4, 0x25, 0xdd, 0xee]

/-! ## Agreement of two runs of the parser -/

/-- Two interface slots agree on what the parser writes: the nine bytes of the
interface descriptor, `no_of_ep`, `num_altsetting`, and of each of the first
`no_of_ep` endpoint descriptors the length byte and as many bytes as it says. -/
def slot_agree (x y : usb_interface) : Prop :=
  (∀ i, i < USB_DT_INTERFACE_SIZE → x.desc i = y.desc i) ∧
  x.no_of_ep = y.no_of_ep ∧
  x.num_altsetting = y.num_altsetting ∧
  ∀ e, e < x.no_of_ep →
    bLength (x.ep_desc e) = bLength (y.ep_desc e) ∧
    ∀ i, i < bLength (x.ep_desc e) → x.ep_desc e i = y.ep_desc e i

/-- Two configuration trees agree: the same `no_of_if` and `no_of_if_assoc`, and
every slot below `no_of_if` agrees. -/
def tree_agree (a b : usb_config) : Prop :=
  a.no_of_if = b.no_of_if ∧ a.no_of_if_assoc = b.no_of_if_assoc ∧
  ∀ j, j < a.no_of_if → slot_agree (a.if_desc j) (b.if_desc j)

/-- Two parser states agree: the same local variables, the same declared total
length, both with or both without a scratch buffer, agreeing trees; the current
slot and the primary slot are slots in use. -/
def parse_agree (s t : parse_state) : Prop :=
  s.index = t.index ∧ s.ifno = t.ifno ∧ s.epno = t.epno ∧ s.curr_if_num = t.curr_if_num ∧
  s.cs_int_len = t.cs_int_len ∧ s.int_assoc_index = t.int_assoc_index ∧
  s.pri_if = t.pri_if ∧
  usb_config_descriptor.wTotalLength s.dev.config.desc
    = usb_config_descriptor.wTotalLength t.dev.config.desc ∧
  (s.dev.config.pClassSpecificInterfaces = none ↔
    t.dev.config.pClassSpecificInterfaces = none) ∧
  tree_agree s.dev.config t.dev.config ∧
  s.ifno < (s.dev.config.no_of_if : Int) ∧
  (∀ p, s.pri_if = some p → p < s.dev.config.no_of_if)

/-- Two ways of leaving the loop body agree: both go on, in agreeing states
wherever the cursor is put, or both return the same status with agreeing
trees, or both are undefined. -/
def flow_agree : flow → flow → Prop
  | flow.next s1, flow.next t1 =>
    ∀ k, parse_agree { s1 with index := k } { t1 with index := k }
  | flow.ret e s1, flow.ret f t1 => e = f ∧ tree_agree s1.dev.config t1.dev.config
  | flow.undef, flow.undef => True
  | _, _ => False

/-- A device record that has been in use before: three slots are counted as in
use, and endpoint slot 0 of interface slot 0 holds a nine-byte audio endpoint
descriptor whose last two bytes are `aa bb`.  It has its scratch buffer. -/
def reused_device : usb_device :=
  { fresh_device with
    config := { fresh_device.config with
      no_of_if := 3,
      if_desc := store fresh_device.config.if_desc 0
        { zero_interface with
          no_of_ep := 1, num_altsetting := 1,
          ep_desc := store zero_interface.ep_desc 0
            (bytes [9, 5, 1, 1, 0, 0, 0, 0xaa, 0xbb]) } } }

/-! ## The descriptor fetch of `usb_string_sub` -/

/-- The fetch with which `usb_string_sub` ends up: the first one, for up to 255
bytes, or, when that brought less than two bytes, the one for the two header
bytes, followed, when it brought exactly two, by one for as many bytes as the
header says. -/
def usb_string_sub_fetch {W : Type} (K : usb_defs) (P : platform W) (asynch_allowed : Int)
    (w : W) (dev : usb_device) (langid index : Nat) (buf : Buf) : ctl_result W :=
  if (usb_get_string K P asynch_allowed w dev langid index (some buf) 255).ret < 2 then
    if (usb_get_string K P asynch_allowed
        (usb_get_string K P asynch_allowed w dev langid index (some buf) 255).world
        (usb_get_string K P asynch_allowed w dev langid index (some buf) 255).dev langid index
        (usb_get_string K P asynch_allowed w dev langid index (some buf) 255).data 2).ret = 2 then
      usb_get_string K P asynch_allowed
        (usb_get_string K P asynch_allowed
          (usb_get_string K P asynch_allowed w dev langid index (some buf) 255).world
          (usb_get_string K P asynch_allowed w dev langid index (some buf) 255).dev langid index
          (usb_get_string K P asynch_allowed w dev langid index (some buf) 255).data 2).world
        (usb_get_string K P asynch_allowed
          (usb_get_string K P asynch_allowed w dev langid index (some buf) 255).world
          (usb_get_string K P asynch_allowed w dev langid index (some buf) 255).dev langid index
          (usb_get_string K P asynch_allowed w dev langid index (some buf) 255).data 2).dev
        langid index
        (usb_get_string K P asynch_allowed
          (usb_get_string K P asynch_allowed w dev langid index (some buf) 255).world
          (usb_get_string K P asynch_allowed w dev langid index (some buf) 255).dev langid index
          (usb_get_string K P asynch_allowed w dev langid index (some buf) 255).data 2).data
        (((usb_get_string K P asynch_allowed
          (usb_get_string K P asynch_allowed w dev langid index (some buf) 255).world
          (usb_get_string K P asynch_allowed w dev langid index (some buf) 255).dev langid index
          (usb_get_string K P asynch_allowed w dev langid index (some buf) 255).data 2).data.getD
            buf) 0).val
    else
      usb_get_string K P asynch_allowed
        (usb_get_string K P asynch_allowed w dev langid index (some buf) 255).world
        (usb_get_string K P asynch_allowed w dev langid index (some buf) 255).dev langid index
        (usb_get_string K P asynch_allowed w dev langid index (some buf) 255).data 2
  else usb_get_string K P asynch_allowed w dev langid index (some buf) 255

/-! ## A companion record behind the last endpoint of the last slot -/

/-- A device whose configuration header declares a total length of 2 bytes. -/
def short_total_header : List Byte := [9, 2, 2, 0, 1, 1, 0, 0x80, 50]

/-! ## Theorems: the parser loop -/

theorem parse_interface_next (K : usb_defs) (buffer : Buf) (s s1 : parse_state)
    (h : parse_interface K buffer s = flow.next s1) :
    s1.index = s.index ∧ s1.dev.config.desc = s.dev.config.desc := by
  simp only [parse_interface, set_if_desc] at h
  split_ifs at h
  · cases h; exact ⟨rfl, rfl⟩
  · cases h; exact ⟨rfl, rfl⟩
  · cases h; exact ⟨rfl, rfl⟩
  · split at h
    · cases h
    · cases h; exact ⟨rfl, rfl⟩

theorem parse_interface_assoc_next (K : usb_defs) (buffer : Buf) (s s1 : parse_state)
    (h : parse_interface_assoc K buffer s = flow.next s1) :
    s1.index = s.index ∧ s1.dev.config.desc = s.dev.config.desc := by
  simp only [parse_interface_assoc] at h
  split_ifs at h <;> (cases h; exact ⟨rfl, rfl⟩)

theorem parse_class_specific_next (K : usb_defs) (buffer : Buf) (s s1 : parse_state)
    (h : parse_class_specific K buffer s = flow.next s1) :
    s1.index = s.index ∧ s1.dev.config.desc = s.dev.config.desc := by
  simp only [parse_class_specific] at h
  split_ifs at h
  split at h
  · cases h
  · cases h; exact ⟨rfl, rfl⟩

theorem parse_endpoint_next (K : usb_defs) (buffer : Buf) (s s1 : parse_state)
    (h : parse_endpoint K buffer s = flow.next s1) :
    s1.index = s.index ∧ s1.dev.config.desc = s.dev.config.desc := by
  simp only [parse_endpoint, set_if_desc] at h
  split_ifs at h <;> (cases h; exact ⟨rfl, rfl⟩)

theorem parse_ss_ep_comp_next (buffer : Buf) (s s1 : parse_state)
    (h : parse_ss_ep_comp buffer s = flow.next s1) :
    s1.index = s.index ∧ s1.dev.config.desc = s.dev.config.desc := by
  simp only [parse_ss_ep_comp, set_if_desc] at h
  split_ifs at h <;> (cases h; exact ⟨rfl, rfl⟩)

theorem parse_default_next (buffer : Buf) (s s1 : parse_state)
    (h : parse_default buffer s = flow.next s1) :
    s1.index = s.index ∧ s1.dev.config.desc = s.dev.config.desc := by
  simp only [parse_default] at h
  split_ifs at h; cases h; exact ⟨rfl, rfl⟩

/-- No arm of the switch that goes on with the loop moves the cursor or touches
the copy of the configuration header. -/
theorem parse_record_next (K : usb_defs) (buffer : Buf) (s s1 : parse_state)
    (h : parse_record K buffer s = flow.next s1) :
    s1.index = s.index ∧ s1.dev.config.desc = s.dev.config.desc := by
  unfold parse_record at h
  simp only at h
  split_ifs at h
  · exact parse_interface_next K buffer s s1 h
  · exact parse_interface_assoc_next K buffer s s1 h
  · exact parse_class_specific_next K buffer s s1 h
  · exact parse_endpoint_next K buffer s s1 h
  · exact parse_ss_ep_comp_next buffer s s1 h
  · exact parse_default_next buffer s s1 h

/-- After `n` iterations the cursor has moved by at least `n` bytes, the header
copy is untouched, and `n` is below the declared total length. -/
theorem parse_cursor_index (K : usb_defs) (buffer : Buf) (n : Nat) :
    ∀ s s2 : parse_state, parse_cursor K buffer n s = some s2 →
      s.index + n ≤ s2.index ∧ s2.dev.config.desc = s.dev.config.desc ∧
      (0 < n → s.index + n < usb_config_descriptor.wTotalLength s.dev.config.desc) := by
  induction n with
  | zero =>
    intro s s2 h
    simp only [parse_cursor, Option.some.injEq] at h
    subst h
    exact ⟨le_refl _, rfl, fun h => absurd h (lt_irrefl 0)⟩
  | succ n ih =>
    intro s s2 h
    rw [parse_cursor] at h
    split_ifs at h with hg
    split at h
    · rename_i s1 hrec
      obtain ⟨hi, hd⟩ := parse_record_next K buffer s s1 hrec
      obtain ⟨h1, h2, h3⟩ := ih _ s2 h
      simp only at h1 h2 h3
      have hlen : 0 < bLength (at_offset buffer s.index) := Nat.pos_of_ne_zero hg.2
      refine ⟨by omega, by rw [h2, hd], fun _ => ?_⟩
      rcases Nat.eq_zero_or_pos n with hn | hn
      · subst hn; have := hg.1; omega
      · have := h3 hn; rw [hd] at this; omega
    · cases h
    · cases h

/-- The loop run from `s` is the loop run from any state it reaches, with the
fuel the iterations in between have used taken off. -/
theorem parse_loop_of_cursor (K : usb_defs) (buffer : Buf) (n : Nat) :
    ∀ (s s2 : parse_state) (fuel : Nat), parse_cursor K buffer n s = some s2 →
      parse_loop K buffer (n + fuel) s = parse_loop K buffer fuel s2 := by
  induction n with
  | zero =>
    intro s s2 fuel h
    simp only [parse_cursor, Option.some.injEq] at h
    subst h; simp
  | succ n ih =>
    intro s s2 fuel h
    rw [parse_cursor] at h
    rw [show n + 1 + fuel = (n + fuel) + 1 by omega, parse_loop]
    split_ifs at h with hg
    rw [if_pos hg]
    split at h
    · exact ih _ s2 fuel h
    · cases h
    · cases h

/-- Wherever the loop stands, a length byte 0 under the cursor ends it with
return value 0. -/
theorem parse_loop_zero_length (K : usb_defs) (buffer : Buf) (fuel : Nat) (s : parse_state)
    (h : bLength (at_offset buffer s.index) = 0) :
    parse_loop K buffer (fuel + 1) s = some (0, s) := by
  simp [parse_loop, parse_guard, h]

/-- Claim C1 (as the code behaves): for every buffer that starts with a valid
9-byte configuration header, if the cursor of `usb_parse_config` reaches, after
any number `n` of records, a record whose length byte is 0, then
`usb_parse_config` returns 0 (success) with the tree built so far; the
`return -EINVAL` of the `default` arm is never reached, because the loop
condition `&& head->bLength` leaves the loop first. -/
theorem usb_parse_config_zero_length_returns_zero (K : usb_defs) (dev : usb_device)
    (buffer : Buf) (cfgno : Int) (n : Nat) (s : parse_state)
    (htype : bDescriptorType buffer = USB_DT_CONFIG)
    (hlen : bLength buffer = USB_DT_CONFIG_SIZE)
    (hreach : parse_cursor K buffer n (parse_init dev buffer cfgno) = some s)
    (hzero : bLength (at_offset buffer s.index) = 0) :
    usb_parse_config K dev buffer cfgno = some (0, s.dev) := by
  obtain ⟨_, _, h3⟩ := parse_cursor_index K buffer n _ s hreach
  have hn : n ≤ usb_config_descriptor.wTotalLength
      (parse_init dev buffer cfgno).dev.config.desc := by
    rcases Nat.eq_zero_or_pos n with hn | hn
    · omega
    · have := h3 hn; omega
  obtain ⟨k, hk⟩ := Nat.exists_eq_add_of_le hn
  have hloop : parse_loop K buffer
      (usb_config_descriptor.wTotalLength (parse_init dev buffer cfgno).dev.config.desc + 1)
      (parse_init dev buffer cfgno) = some (0, s) := by
    rw [show usb_config_descriptor.wTotalLength (parse_init dev buffer cfgno).dev.config.desc + 1
        = n + (k + 1) by omega, parse_loop_of_cursor K buffer n _ s (k + 1) hreach]
    exact parse_loop_zero_length K buffer k s hzero
  simp only [usb_parse_config, htype, hlen, ne_eq, not_true_eq_false, if_false, hloop,
    Option.map_some']

/-- Witness for C1: in `zero_length_config` the cursor reaches, after one
interface record, offset 18 below the declared total length 20, where the length
byte is 0; the parse returns 0. -/
theorem usb_parse_config_zero_length_returns_zero_witness :
    (bDescriptorType zero_length_config = USB_DT_CONFIG ∧
      bLength zero_length_config = USB_DT_CONFIG_SIZE ∧
      bLength (at_offset zero_length_config 18) = 0 ∧
      18 + 1 < usb_config_descriptor.wTotalLength zero_length_config) ∧
    (usb_parse_config sample_defs zero_device zero_length_config 0).map Prod.fst = some 0 := by
  refine ⟨by decide, ?_⟩
  have hs : ∃ s, parse_cursor sample_defs zero_length_config 1
      (parse_init zero_device zero_length_config 0) = some s ∧ s.index = 18 := ⟨_, rfl, rfl⟩
  obtain ⟨s, hs, hidx⟩ := hs
  rw [usb_parse_config_zero_length_returns_zero sample_defs zero_device zero_length_config 0 1 s
    (by decide) (by decide) hs (by rw [hidx]; decide)]
  rfl

/-! ## Theorems: single iterations of the parser loop -/

theorem parse_loop_interface_primary (K : usb_defs) (buffer : Buf) (fuel : Nat) (s : parse_state)
    (ht : bDescriptorType (at_offset buffer s.index) = USB_DT_INTERFACE)
    (hlen : bLength (at_offset buffer s.index) = USB_DT_INTERFACE_SIZE)
    (hfit : s.index + USB_DT_INTERFACE_SIZE ≤ usb_config_descriptor.wTotalLength s.dev.config.desc)
    (hnum : (usb_interface_descriptor.bInterfaceNumber (at_offset buffer s.index) : Int)
      ≠ s.curr_if_num)
    (hroom : s.dev.config.no_of_if < K.USB_MAXINTERFACES) :
    parse_loop K buffer (fuel + 1) s = parse_loop K buffer fuel { s with
      dev := set_if_desc
        { s.dev with config := { s.dev.config with no_of_if := s.dev.config.no_of_if + 1 } }
        s.dev.config.no_of_if
        { s.dev.config.if_desc s.dev.config.no_of_if with
          desc := memcpy (s.dev.config.if_desc s.dev.config.no_of_if).desc
            (at_offset buffer s.index) USB_DT_INTERFACE_SIZE,
          no_of_ep := 0,
          num_altsetting := 1 },
      index := s.index + USB_DT_INTERFACE_SIZE,
      ifno := s.dev.config.no_of_if,
      curr_if_num := usb_interface_descriptor.bInterfaceNumber
        (memcpy (s.dev.config.if_desc s.dev.config.no_of_if).desc
            (at_offset buffer s.index) USB_DT_INTERFACE_SIZE),
      pri_if := some s.dev.config.no_of_if } := by
  have h1 : ¬ (s.index + USB_DT_INTERFACE_SIZE >
      usb_config_descriptor.wTotalLength s.dev.config.desc) := by omega
  have h2 : ¬ (s.dev.config.no_of_if ≥ K.USB_MAXINTERFACES) := by omega
  have hg : parse_guard buffer s := by
    refine ⟨?_, by rw [hlen]; decide⟩
    have : USB_DT_INTERFACE_SIZE = 9 := rfl
    omega
  rw [parse_loop, if_pos hg]
  simp only [parse_record, ht, if_true, parse_interface, hlen, ne_eq, not_true_eq_false, if_false,
    h1, hnum, not_false_eq_true, h2]

theorem parse_loop_interface_alternate (K : usb_defs) (buffer : Buf) (fuel : Nat)
    (s : parse_state) (p : Nat)
    (ht : bDescriptorType (at_offset buffer s.index) = USB_DT_INTERFACE)
    (hlen : bLength (at_offset buffer s.index) = USB_DT_INTERFACE_SIZE)
    (hfit : s.index + USB_DT_INTERFACE_SIZE ≤ usb_config_descriptor.wTotalLength s.dev.config.desc)
    (hnum : (usb_interface_descriptor.bInterfaceNumber (at_offset buffer s.index) : Int)
      = s.curr_if_num)
    (hroom : s.dev.config.no_of_if < K.USB_MAXINTERFACES)
    (hpri : s.pri_if = some p) :
    parse_loop K buffer (fuel + 1) s = parse_loop K buffer fuel { s with
      dev := set_if_desc
        (set_if_desc
          { s.dev with config := { s.dev.config with no_of_if := s.dev.config.no_of_if + 1 } }
          s.dev.config.no_of_if
          { s.dev.config.if_desc s.dev.config.no_of_if with
            desc := memcpy (s.dev.config.if_desc s.dev.config.no_of_if).desc
              (at_offset buffer s.index) USB_DT_INTERFACE_SIZE,
            no_of_ep := 0,
            num_altsetting := 0 })
        p
        { (set_if_desc
            { s.dev with config := { s.dev.config with no_of_if := s.dev.config.no_of_if + 1 } }
            s.dev.config.no_of_if
            { s.dev.config.if_desc s.dev.config.no_of_if with
              desc := memcpy (s.dev.config.if_desc s.dev.config.no_of_if).desc
                (at_offset buffer s.index) USB_DT_INTERFACE_SIZE,
              no_of_ep := 0,
              num_altsetting := 0 }).config.if_desc p with
          num_altsetting := ((set_if_desc
            { s.dev with config := { s.dev.config with no_of_if := s.dev.config.no_of_if + 1 } }
            s.dev.config.no_of_if
            { s.dev.config.if_desc s.dev.config.no_of_if with
              desc := memcpy (s.dev.config.if_desc s.dev.config.no_of_if).desc
                (at_offset buffer s.index) USB_DT_INTERFACE_SIZE,
              no_of_ep := 0,
              num_altsetting := 0 }).config.if_desc p).num_altsetting + 1 },
      index := s.index + USB_DT_INTERFACE_SIZE,
      ifno := s.dev.config.no_of_if,
      curr_if_num := usb_interface_descriptor.bInterfaceNumber
        (memcpy (s.dev.config.if_desc s.dev.config.no_of_if).desc
            (at_offset buffer s.index) USB_DT_INTERFACE_SIZE) } := by
  have h1 : ¬ (s.index + USB_DT_INTERFACE_SIZE >
      usb_config_descriptor.wTotalLength s.dev.config.desc) := by omega
  have h2 : ¬ (s.dev.config.no_of_if ≥ K.USB_MAXINTERFACES) := by omega
  have hg : parse_guard buffer s := by
    refine ⟨?_, by rw [hlen]; decide⟩
    have : USB_DT_INTERFACE_SIZE = 9 := rfl
    omega
  rw [parse_loop, if_pos hg]
  simp only [parse_record, ht, if_true, parse_interface, hlen, ne_eq, not_true_eq_false, if_false,
    h1, hnum, h2, hpri]

theorem parse_loop_endpoint (K : usb_defs) (buffer : Buf) (fuel : Nat) (s : parse_state)
    (ht : bDescriptorType (at_offset buffer s.index) = USB_DT_ENDPOINT)
    (hlen : bLength (at_offset buffer s.index) = USB_DT_ENDPOINT_SIZE ∨
      bLength (at_offset buffer s.index) = USB_DT_ENDPOINT_AUDIO_SIZE)
    (hfit : s.index + USB_DT_ENDPOINT_SIZE ≤ usb_config_descriptor.wTotalLength s.dev.config.desc)
    (hif : 0 ≤ s.ifno)
    (hroom : (s.dev.config.if_desc s.ifno.toNat).no_of_ep ≤ K.USB_MAXENDPOINTS) :
    parse_loop K buffer (fuel + 1) s = parse_loop K buffer fuel { s with
      dev := set_if_desc s.dev s.ifno.toNat { s.dev.config.if_desc s.ifno.toNat with
        no_of_ep := (s.dev.config.if_desc s.ifno.toNat).no_of_ep + 1,
        ep_desc := store (s.dev.config.if_desc s.ifno.toNat).ep_desc
          (s.dev.config.if_desc s.ifno.toNat).no_of_ep
          (memcpy ((s.dev.config.if_desc s.ifno.toNat).ep_desc
              (s.dev.config.if_desc s.ifno.toNat).no_of_ep)
            (at_offset buffer s.index) (bLength (at_offset buffer s.index))) },
      index := s.index + bLength (at_offset buffer s.index),
      epno := (s.dev.config.if_desc s.ifno.toNat).no_of_ep } := by
  have h0 : ¬ (bLength (at_offset buffer s.index) ≠ USB_DT_ENDPOINT_SIZE ∧
      bLength (at_offset buffer s.index) ≠ USB_DT_ENDPOINT_AUDIO_SIZE) := by
    intro hc; rcases hlen with h | h
    · exact hc.1 h
    · exact hc.2 h
  have h1 : ¬ (s.index + USB_DT_ENDPOINT_SIZE >
      usb_config_descriptor.wTotalLength s.dev.config.desc) := by omega
  have h2 : ¬ s.ifno < 0 := by omega
  have h3 : ¬ ((s.dev.config.if_desc s.ifno.toNat).no_of_ep > K.USB_MAXENDPOINTS) := by omega
  have hg : parse_guard buffer s := by
    have h7 : USB_DT_ENDPOINT_SIZE = 7 := rfl
    have h9 : USB_DT_ENDPOINT_AUDIO_SIZE = 9 := rfl
    refine ⟨by omega, ?_⟩
    rcases hlen with h | h <;> omega
  have hty : ¬ (USB_DT_ENDPOINT = USB_DT_INTERFACE) := by decide
  have hty2 : ¬ (USB_DT_ENDPOINT = USB_DT_INTERFACE_ASSOCIATION) := by decide
  have hty3 : ¬ (USB_DT_ENDPOINT = USB_DT_CS_INTERFACE ∨ USB_DT_ENDPOINT = USB_DT_CS_ENDPOINT) := by
    decide
  rw [parse_loop, if_pos hg]
  simp only [parse_record, ht, if_neg hty, if_neg hty2, if_neg hty3, if_true, parse_endpoint,
    if_neg h0, if_neg h1, if_neg h2, if_neg h3]

theorem parse_loop_interface_assoc (K : usb_defs) (buffer : Buf) (fuel : Nat) (s : parse_state)
    (ht : bDescriptorType (at_offset buffer s.index) = USB_DT_INTERFACE_ASSOCIATION)
    (hlt : s.index + 1 < usb_config_descriptor.wTotalLength s.dev.config.desc)
    (hlen : bLength (at_offset buffer s.index) ≠ 0)
    (hroom : K.USB_MAXINTERFACEASSOC ≠ s.int_assoc_index) :
    parse_loop K buffer (fuel + 1) s = parse_loop K buffer fuel { s with
      dev := { s.dev with config := { s.dev.config with
        int_assoc := store s.dev.config.int_assoc s.int_assoc_index
          (memcpy (s.dev.config.int_assoc s.int_assoc_index) (at_offset buffer s.index)
            (bLength (at_offset buffer s.index))),
        no_of_if_assoc := s.dev.config.no_of_if_assoc + 1 } },
      index := s.index + bLength (at_offset buffer s.index),
      int_assoc_index := s.int_assoc_index + 1 } := by
  have hg : parse_guard buffer s := ⟨hlt, hlen⟩
  have hty : ¬ (USB_DT_INTERFACE_ASSOCIATION = USB_DT_INTERFACE) := by decide
  rw [parse_loop, if_pos hg]
  simp only [parse_record, ht, if_neg hty, if_true, parse_interface_assoc, if_neg hroom]

theorem parse_loop_exit (K : usb_defs) (buffer : Buf) (fuel : Nat) (s : parse_state)
    (hg : ¬ parse_guard buffer s) :
    parse_loop K buffer (fuel + 1) s = some (0, s) := by
  rw [parse_loop, if_neg hg]

theorem parse_loop_end (K : usb_defs) (buffer : Buf) (fuel : Nat) (s : parse_state)
    (hg : usb_config_descriptor.wTotalLength s.dev.config.desc ≤ s.index + 1) :
    parse_loop K buffer (fuel + 1) s = some (0, s) :=
  parse_loop_exit K buffer fuel s (fun h => absurd h.1 (by omega))

/-! ## Theorems: max-packet resolution and buffer bounds -/

/-- With one interface of one endpoint in the header's count, `usb_set_maxpacket`
is a single resolver step on slot 0, endpoint 0. -/
theorem usb_set_maxpacket_single (d : usb_device)
    (h1 : usb_config_descriptor.bNumInterfaces d.config.desc = 1)
    (h2 : usb_interface_descriptor.bNumEndpoints (d.config.if_desc 0).desc = 1) :
    usb_set_maxpacket d = usb_set_maxpacket_ep d 0 0 := by
  simp [usb_set_maxpacket, h1, h2, List.range_succ]

/-- One resolver step on a non-control OUT endpoint leaves the maximum of the
old entry and the endpoint's max packet size in `epmaxpacketout`. -/
theorem usb_set_maxpacket_ep_out (d : usb_device) (i e b : Nat) (v : Int)
    (hb : usb_endpoint_descriptor.bEndpointAddress ((d.config.if_desc i).ep_desc e)
      &&& USB_ENDPOINT_NUMBER_MASK = b)
    (hv : (usb_endpoint_descriptor.wMaxPacketSize ((d.config.if_desc i).ep_desc e) : Int) = v)
    (hctl : usb_endpoint_descriptor.bmAttributes ((d.config.if_desc i).ep_desc e)
      &&& USB_ENDPOINT_XFERTYPE_MASK ≠ USB_ENDPOINT_XFER_CONTROL)
    (hdir : usb_endpoint_descriptor.bEndpointAddress ((d.config.if_desc i).ep_desc e)
      &&& 0x80 = 0) :
    (usb_set_maxpacket_ep d i e).epmaxpacketout b = max (d.epmaxpacketout b) v := by
  subst hb hv
  simp only [usb_set_maxpacket_ep, if_neg hctl, if_pos hdir]
  split_ifs with h
  · simp only [store, if_true]
    exact (max_eq_right (le_of_lt h)).symm
  · exact (max_eq_left (not_lt.mp h)).symm

/-- Claim C2 (as the code behaves, at the failing input): whatever the limits
(at least two interface slots) and the prior contents of the record (with
`epmaxpacketout[1] = 0`), `alternate_setting_config` parses successfully into
two slots, slot 1 holding the alternate setting that describes endpoint 1 OUT
with 64, and `usb_set_maxpacket` leaves `epmaxpacketout[1] = 32`: its loop stops
at `bNumInterfaces = 1` and never visits slot 1. -/
theorem usb_set_maxpacket_skips_alternate_setting (K : usb_defs) (dev : usb_device)
    (hK : 2 ≤ K.USB_MAXINTERFACES)
    (h0 : dev.epmaxpacketout 1 = 0) :
    ∃ d, usb_parse_config K dev alternate_setting_config 0 = some (0, d) ∧
      d.config.no_of_if = 2 ∧
      usb_endpoint_descriptor.wMaxPacketSize ((d.config.if_desc 1).ep_desc 0) = 64 ∧
      (usb_set_maxpacket d).epmaxpacketout 1 = 32 := by
  have ht : bDescriptorType alternate_setting_config = USB_DT_CONFIG := rfl
  have hl : bLength alternate_setting_config = USB_DT_CONFIG_SIZE := rfl
  simp only [usb_parse_config, ht, hl, ne_eq, not_true_eq_false, if_false]
  rw [show usb_config_descriptor.wTotalLength
      (parse_init dev alternate_setting_config 0).dev.config.desc + 1 = 41 + 1 from rfl]
  rw [parse_loop_interface_primary]
  rotate_left
  · rfl
  · rfl
  · exact Nat.le_of_ble_eq_true rfl
  · show ((0 : Nat) : Int) ≠ -1
    decide
  · show 0 < K.USB_MAXINTERFACES
    omega
  rw [parse_loop_endpoint]
  rotate_left
  · rfl
  · exact Or.inl rfl
  · exact Nat.le_of_ble_eq_true rfl
  · show (0 : Int) ≤ ((0 : Nat) : Int)
    decide
  · show 0 ≤ K.USB_MAXENDPOINTS
    omega
  rw [parse_loop_interface_alternate]
  rotate_left
  · exact 0
  · rfl
  · rfl
  · exact Nat.le_of_ble_eq_true rfl
  · rfl
  · show 0 + 1 < K.USB_MAXINTERFACES
    omega
  · rfl
  rw [parse_loop_endpoint]
  rotate_left
  · rfl
  · exact Or.inl rfl
  · exact Nat.le_of_ble_eq_true rfl
  · show (0 : Int) ≤ ((0 + 1 : Nat) : Int)
    decide
  · show 0 ≤ K.USB_MAXENDPOINTS
    omega
  rw [parse_loop_end]
  rotate_left
  · exact Nat.le_of_ble_eq_true rfl
  refine ⟨_, rfl, rfl, rfl, ?_⟩
  rw [usb_set_maxpacket_single]
  rotate_left
  · rfl
  · rfl
  rw [usb_set_maxpacket_ep_out _ 0 0 1 32]
  rotate_left
  · show (1 : Nat) &&& USB_ENDPOINT_NUMBER_MASK = 1
    decide
  · rfl
  · show (2 : Nat) &&& USB_ENDPOINT_XFERTYPE_MASK ≠ USB_ENDPOINT_XFER_CONTROL
    decide
  · show (1 : Nat) &&& 0x80 = 0
    decide
  show max (dev.epmaxpacketout 1) 32 = 32
  rw [h0]
  rfl

/-- Witness for C2: the sample limits and a zeroed device record. -/
theorem usb_set_maxpacket_skips_alternate_setting_witness :
    ∃ d, usb_parse_config sample_defs zero_device alternate_setting_config 0 = some (0, d) ∧
      d.config.no_of_if = 2 ∧
      usb_endpoint_descriptor.wMaxPacketSize ((d.config.if_desc 1).ep_desc 0) = 64 ∧
      (usb_set_maxpacket d).epmaxpacketout 1 = 32 :=
  usb_set_maxpacket_skips_alternate_setting sample_defs zero_device (by decide) rfl

/-- Claim C3 (as the code behaves, at the failing input): with room for one
interface association, the buffers `truncated_assoc_config [x]` all declare the
total length 11 and agree on every offset below 11, yet the byte `x` at offset
11 ends up in the tree (`int_assoc[0]`, byte 2): the interface association arm
copies `bLength = 8` bytes from offset 9 on without comparing against the total
length. -/
theorem usb_parse_config_reads_past_total_length (K : usb_defs) (dev : usb_device)
    (x : Byte) (h : K.USB_MAXINTERFACEASSOC ≠ 0) :
    usb_config_descriptor.wTotalLength (truncated_assoc_config [x]) = 11 ∧
    (∀ (y : Byte) (i : Nat), i < 11 →
      truncated_assoc_config [x] i = truncated_assoc_config [y] i) ∧
    (usb_parse_config K dev (truncated_assoc_config [x]) 0).map
      (fun r => (r.1, r.2.config.int_assoc 0 2)) = some (0, x) := by
  refine ⟨rfl, ?_, ?_⟩
  · intro y i hi
    interval_cases i <;> rfl
  · have ht : bDescriptorType (truncated_assoc_config [x]) = USB_DT_CONFIG := rfl
    have hl : bLength (truncated_assoc_config [x]) = USB_DT_CONFIG_SIZE := rfl
    simp only [usb_parse_config, ht, hl, ne_eq, not_true_eq_false, if_false]
    rw [show usb_config_descriptor.wTotalLength
        (parse_init dev (truncated_assoc_config [x]) 0).dev.config.desc + 1 = 10 + 1 + 1 from rfl,
      parse_loop_interface_assoc K (truncated_assoc_config [x]) _
        (parse_init dev (truncated_assoc_config [x]) 0) rfl
        (Nat.le_of_ble_eq_true rfl) (show (8 : Nat) ≠ 0 by decide) h,
      parse_loop_end]
    · rfl
    · exact Nat.le_of_ble_eq_true rfl

/-- Witness for C3: the sample limits, a zeroed record and the byte 7 at offset 11. -/
theorem usb_parse_config_reads_past_total_length_witness :
    (usb_parse_config sample_defs zero_device (truncated_assoc_config [7]) 0).map
      (fun r => (r.1, r.2.config.int_assoc 0 2)) = some (0, 7) :=
  (usb_parse_config_reads_past_total_length sample_defs zero_device 7 (by decide)).2.2

/-- The endpoint arm compares with `>` where the array needs `>=`: whatever the
limit is, a slot that already holds `USB_MAXENDPOINTS` endpoints accepts one
more, stores it at index `USB_MAXENDPOINTS` and counts it. -/
theorem parse_endpoint_at_limit (K : usb_defs) (buffer : Buf) (s : parse_state)
    (hlen : bLength (at_offset buffer s.index) = USB_DT_ENDPOINT_SIZE)
    (hfit : s.index + USB_DT_ENDPOINT_SIZE ≤ usb_config_descriptor.wTotalLength s.dev.config.desc)
    (hif : 0 ≤ s.ifno)
    (hfull : (s.dev.config.if_desc s.ifno.toNat).no_of_ep = K.USB_MAXENDPOINTS) :
    parse_endpoint K buffer s = flow.next { s with
      dev := set_if_desc s.dev s.ifno.toNat { s.dev.config.if_desc s.ifno.toNat with
        no_of_ep := K.USB_MAXENDPOINTS + 1,
        ep_desc := store (s.dev.config.if_desc s.ifno.toNat).ep_desc K.USB_MAXENDPOINTS
          (memcpy ((s.dev.config.if_desc s.ifno.toNat).ep_desc K.USB_MAXENDPOINTS)
            (at_offset buffer s.index) USB_DT_ENDPOINT_SIZE) },
      epno := K.USB_MAXENDPOINTS } := by
  have h1 : ¬ (s.index + USB_DT_ENDPOINT_SIZE >
      usb_config_descriptor.wTotalLength s.dev.config.desc) := by omega
  have h2 : ¬ s.ifno < 0 := by omega
  simp only [parse_endpoint, hlen, ne_eq, not_true_eq_false, false_and, if_false, h1, h2,
    hfull, gt_iff_lt, lt_irrefl]

theorem many_endpoints_config_record (n k j : Nat) (hk : k < n) (hj : j < 7) :
    many_endpoints_config n (18 + 7 * k + j) = (endpoint_record k).getD j 0 := by
  have h1 : ¬ (18 + 7 * k + j < 18) := by omega
  have h2 : 18 + 7 * k + j < 18 + 7 * n := by omega
  have h3 : (18 + 7 * k + j - 18) / 7 = k := by omega
  have h4 : (18 + 7 * k + j - 18) % 7 = j := by omega
  simp only [many_endpoints_config, if_neg h1, if_pos h2, h3, h4]

theorem many_endpoints_config_total (n : Nat) (h : 18 + 7 * n < 65536) (d : Buf) :
    usb_config_descriptor.wTotalLength (memcpy d (many_endpoints_config n) USB_DT_CONFIG_SIZE)
      = 18 + 7 * n := by
  have e2 : (many_endpoints_config n 2).val = (18 + 7 * n) % 256 := by
    show ((18 + 7 * n) % 256) % 256 = _
    omega
  have e3 : (many_endpoints_config n 3).val = (18 + 7 * n) / 256 := by
    show ((18 + 7 * n) / 256) % 256 = _
    omega
  show (many_endpoints_config n 2).val + 256 * (many_endpoints_config n 3).val = _
  rw [e2, e3]; omega

theorem parse_loop_many_endpoints (K : usb_defs) (n : Nat) (hn : n ≤ K.USB_MAXENDPOINTS + 1) :
    ∀ (m : Nat) (s : parse_state) (fuel : Nat), m ≤ n → endpoints_parsed n (n - m) s →
      m + 1 ≤ fuel →
      ∃ s2, parse_loop K (many_endpoints_config n) fuel s = some (0, s2) ∧
        endpoints_parsed n n s2 := by
  intro m
  induction m with
  | zero =>
    intro s fuel _ hs hfuel
    obtain ⟨f, rfl⟩ := Nat.exists_eq_add_of_le hfuel
    refine ⟨s, ?_, hs⟩
    rw [show 0 + 1 + f = f + 1 by omega]
    exact parse_loop_end K _ f s (by rw [hs.2.2.2.1, hs.1]; omega)
  | succ m ih =>
    intro s fuel hm hs hfuel
    obtain ⟨f, rfl⟩ := Nat.exists_eq_add_of_le hfuel
    obtain ⟨hidx, hif, hep, htot, hrec⟩ := hs
    have hk : n - (m + 1) < n := by omega
    have hb : ∀ j, j < 7 → at_offset (many_endpoints_config n) s.index j
        = (endpoint_record (n - (m + 1))).getD j 0 := by
      intro j hj
      show many_endpoints_config n (s.index + j) = _
      rw [hidx]; exact many_endpoints_config_record n _ j hk hj
    have hty : bDescriptorType (at_offset (many_endpoints_config n) s.index) = USB_DT_ENDPOINT := by
      show (at_offset (many_endpoints_config n) s.index 1).val = _
      rw [hb 1 (by omega)]; rfl
    have hlen : bLength (at_offset (many_endpoints_config n) s.index) = USB_DT_ENDPOINT_SIZE := by
      show (at_offset (many_endpoints_config n) s.index 0).val = _
      rw [hb 0 (by omega)]; rfl
    have hz : s.ifno.toNat = 0 := by rw [hif]; rfl
    rw [show m + 1 + 1 + f = (m + 1 + f) + 1 by omega,
      parse_loop_endpoint K _ _ s hty (Or.inl hlen)
        (by rw [htot, hidx]; show 18 + 7 * (n - (m + 1)) + 7 ≤ _; omega)
        (by rw [hif]) (by rw [hz, hep]; omega)]
    refine ih _ _ (by omega) ⟨?_, hif, ?_, htot, ?_⟩ (by omega)
    · show s.index + bLength (at_offset (many_endpoints_config n) s.index) = _
      rw [hlen, hidx]; show 18 + 7 * (n - (m + 1)) + 7 = _; omega
    · rw [hz]
      show (s.dev.config.if_desc 0).no_of_ep + 1 = _
      rw [hep]; omega
    · intro j hj
      rw [hz]
      simp only [set_if_desc, store, if_true, hep]
      by_cases hjk : j = n - (m + 1)
      · rw [if_pos hjk]
        show (memcpy _ (at_offset (many_endpoints_config n) s.index) _ 2).val = _
        rw [hlen]
        show (at_offset (many_endpoints_config n) s.index 2).val = _
        rw [hb 2 (by omega), hjk]; rfl
      · rw [if_neg hjk]
        exact hrec j (by omega)

/-- From the cursor on the interface record of `many_endpoints_config n`, with
`n` at most `USB_MAXENDPOINTS + 1`, the loop accepts every record and ends with
return value 0. -/
theorem parse_loop_interface_then_endpoints (K : usb_defs) (n : Nat)
    (hK : 1 ≤ K.USB_MAXINTERFACES) (hn : n ≤ K.USB_MAXENDPOINTS + 1)
    (s : parse_state) (fuel : Nat) (hidx : s.index = 9) (hif : s.dev.config.no_of_if = 0)
    (hcur : s.curr_if_num = -1)
    (htot : usb_config_descriptor.wTotalLength s.dev.config.desc = 18 + 7 * n)
    (hfuel : n + 2 ≤ fuel) :
    ∃ s2, parse_loop K (many_endpoints_config n) fuel s = some (0, s2) ∧
      endpoints_parsed n n s2 := by
  obtain ⟨f, rfl⟩ := Nat.exists_eq_add_of_le hfuel
  have hty : bDescriptorType (at_offset (many_endpoints_config n) s.index) = USB_DT_INTERFACE := by
    rw [hidx]; rfl
  have hlen : bLength (at_offset (many_endpoints_config n) s.index) = USB_DT_INTERFACE_SIZE := by
    rw [hidx]; rfl
  have hnum : (usb_interface_descriptor.bInterfaceNumber
      (at_offset (many_endpoints_config n) s.index) : Int) ≠ s.curr_if_num := by
    rw [hidx, hcur]
    show ((0 : Nat) : Int) ≠ -1
    decide
  rw [show n + 2 + f = (n + 1 + f) + 1 by omega,
    parse_loop_interface_primary K _ _ s hty hlen
      (by rw [htot, hidx]; show 9 + 9 ≤ _; omega) hnum (by rw [hif]; omega)]
  refine parse_loop_many_endpoints K n hn n _ _ (le_refl _) ⟨?_, ?_, ?_, htot, ?_⟩ (by omega)
  · show s.index + USB_DT_INTERFACE_SIZE = _
    rw [hidx, Nat.sub_self]; rfl
  · show ((s.dev.config.no_of_if : Nat) : Int) = 0
    rw [hif]; rfl
  · rw [Nat.sub_self]
    simp only [set_if_desc, store, hif, if_true]
  · intro j hj
    exact absurd hj (by omega)

/-- Claim C5 (as the code behaves, at the failing input): whatever the value of
`USB_MAXENDPOINTS` (with at least one interface slot, and the configuration
fitting the 16-bit total length), a configuration of one interface and
`USB_MAXENDPOINTS + 1` valid endpoint records parses with return value 0, leaves
`no_of_ep = USB_MAXENDPOINTS + 1` in slot 0 and has stored the last record at
index `USB_MAXENDPOINTS`, one past the end of `ep_desc`. -/
theorem usb_parse_config_endpoint_limit_off_by_one (K : usb_defs) (dev : usb_device)
    (hK : 1 ≤ K.USB_MAXINTERFACES)
    (hsize : 18 + 7 * (K.USB_MAXENDPOINTS + 1) < 65536) :
    ∃ d, usb_parse_config K dev (many_endpoints_config (K.USB_MAXENDPOINTS + 1)) 0 = some (0, d) ∧
      (d.config.if_desc 0).no_of_ep = K.USB_MAXENDPOINTS + 1 ∧
      usb_endpoint_descriptor.bEndpointAddress ((d.config.if_desc 0).ep_desc K.USB_MAXENDPOINTS)
        = (0x81 + K.USB_MAXENDPOINTS) % 256 := by
  have ht : bDescriptorType (many_endpoints_config (K.USB_MAXENDPOINTS + 1)) = USB_DT_CONFIG := rfl
  have hl : bLength (many_endpoints_config (K.USB_MAXENDPOINTS + 1)) = USB_DT_CONFIG_SIZE := rfl
  have htot : usb_config_descriptor.wTotalLength
      (parse_init dev (many_endpoints_config (K.USB_MAXENDPOINTS + 1)) 0).dev.config.desc
        = 18 + 7 * (K.USB_MAXENDPOINTS + 1) :=
    many_endpoints_config_total _ hsize _
  obtain ⟨s2, h2, hs2⟩ := parse_loop_interface_then_endpoints K (K.USB_MAXENDPOINTS + 1) hK
    (le_refl _) (parse_init dev (many_endpoints_config (K.USB_MAXENDPOINTS + 1)) 0)
    (18 + 7 * (K.USB_MAXENDPOINTS + 1) + 1) rfl rfl rfl htot (by omega)
  simp only [usb_parse_config, ht, hl, ne_eq, not_true_eq_false, if_false]
  rw [htot, h2]
  exact ⟨_, rfl, hs2.2.2.1, hs2.2.2.2.2 _ (by omega)⟩

/-- Witness for C5: with `USB_MAXENDPOINTS = 16`, 17 endpoint records are accepted
(`no_of_ep = 17`, the last one stored at index 16). -/
theorem usb_parse_config_endpoint_limit_off_by_one_witness :
    ∃ d, usb_parse_config sample_defs zero_device (many_endpoints_config 17) 0 = some (0, d) ∧
      (d.config.if_desc 0).no_of_ep = 17 ∧
      usb_endpoint_descriptor.bEndpointAddress ((d.config.if_desc 0).ep_desc 16) = 0x91 :=
  usb_parse_config_endpoint_limit_off_by_one sample_defs zero_device (by decide) (by decide)

/-- With `USB_MAXENDPOINTS = 16` the parse fails only from the 18th endpoint
record on. -/
theorem usb_parse_config_endpoint_limit_sample :
    (usb_parse_config sample_defs zero_device (many_endpoints_config 17) 0).map
      (fun r => (r.1, (r.2.config.if_desc 0).no_of_ep)) = some (0, 17) ∧
    (usb_parse_config sample_defs zero_device (many_endpoints_config 18) 0).map Prod.fst
      = some (- EINVAL) := by
  refine ⟨by decide, by decide⟩

/-! ## Theorems: control transfers and configuration selection -/

/-- Claim C6: for every device, pipe and request, `usb_control_msg` called with
`timeout == 0` while `asynch_allowed == 0` returns `-EINVAL`; the world is the
one before the call whatever the controller's submit operation would do (it is
not called), and the device record, `status` and `act_len` included, and the
data buffer are unchanged. -/
theorem usb_control_msg_timeout_zero_async_disabled {W : Type} (K : usb_defs) (P : platform W)
    (w : W) (dev : usb_device) (pipe request requesttype value index : Nat)
    (data : Option Buf) (size : Nat) :
    usb_control_msg K P 0 w dev pipe request requesttype value index data size 0
      = ⟨- EINVAL, w, dev, data⟩ := by
  simp [usb_control_msg]

/-- The polling loop evaluates the status at most `timeout` times. -/
theorem poll_status_count {W : Type} (K : usb_defs) (P : platform W) (timeout : Nat) :
    ∀ x : xfer W, (poll_status K P timeout x).2 ≤ timeout := by
  induction timeout with
  | zero => intro x; simp [poll_status]
  | succ t ih =>
    intro x
    rw [poll_status]
    split
    · simp
    · have := ih (P.mdelay x); simp only; omega

/-- Claim C7 (counterexample): with a controller that accepts the transfer and
never completes it, `usb_control_msg` with timeout 3 ends with a non-zero status
and returns -1, which is not `-EIO`. -/
theorem usb_control_msg_failure_is_not_eio :
    0 ≤ (submitted sample_defs stuck_platform () zero_device 0 0 0 0 0 none 0).1 ∧
    (usb_control_msg sample_defs stuck_platform 1 () zero_device 0 0 0 0 0 none 0 3).dev.status
      ≠ 0 ∧
    (usb_control_msg sample_defs stuck_platform 1 () zero_device 0 0 0 0 0 none 0 3).ret = -1 ∧
    (usb_control_msg sample_defs stuck_platform 1 () zero_device 0 0 0 0 0 none 0 3).ret
      ≠ - EIO := by
  refine ⟨by decide, by decide, by decide, by decide⟩

/-- Claim C7 (amended): for every `usb_control_msg` call with `timeout > 0` whose
submission does not fail, the status field is polled at most `timeout` times,
the record ends with the status and `act_len` the polling loop stopped at; if
that status is 0 the result is `act_len`, and if it is non-zero the result is
-1 (as the function's comment says), not `-EIO`. -/
theorem usb_control_msg_polled {W : Type} (K : usb_defs) (P : platform W)
    (asynch_allowed : Int) (w : W) (dev : usb_device)
    (pipe request requesttype value index : Nat) (data : Option Buf) (size timeout : Nat)
    (ht : 0 < timeout)
    (hsub : 0 ≤ (submitted K P w dev pipe request requesttype value index data size).1) :
    (poll_status K P timeout
      (submitted K P w dev pipe request requesttype value index data size).2).2 ≤ timeout ∧
    (usb_control_msg K P asynch_allowed w dev pipe request requesttype value index data size
        timeout).dev.status =
      (poll_status K P timeout
        (submitted K P w dev pipe request requesttype value index data size).2).1.status ∧
    (usb_control_msg K P asynch_allowed w dev pipe request requesttype value index data size
        timeout).dev.act_len =
      (poll_status K P timeout
        (submitted K P w dev pipe request requesttype value index data size).2).1.act_len ∧
    ((usb_control_msg K P asynch_allowed w dev pipe request requesttype value index data size
        timeout).dev.status = 0 →
      (usb_control_msg K P asynch_allowed w dev pipe request requesttype value index data size
        timeout).ret =
      (usb_control_msg K P asynch_allowed w dev pipe request requesttype value index data size
        timeout).dev.act_len) ∧
    ((usb_control_msg K P asynch_allowed w dev pipe request requesttype value index data size
        timeout).dev.status ≠ 0 →
      (usb_control_msg K P asynch_allowed w dev pipe request requesttype value index data size
        timeout).ret = -1) := by
  have ht0 : timeout ≠ 0 := by omega
  have hs : ¬ (P.ctrlOps_submit_control_msg w { dev with status := K.USB_ST_NOT_PROC } pipe data
      (size % 65536) ⟨requesttype % 256, request % 256, value % 65536, index % 65536,
        size % 65536⟩).1 < 0 := by
    simp only [submitted] at hsub; omega
  refine ⟨poll_status_count K P timeout _, ?_, ?_, ?_, ?_⟩
  · simp only [usb_control_msg, submit_control_msg, submitted, ht0, false_and, if_false, hs]
    split_ifs <;> rfl
  · simp only [usb_control_msg, submit_control_msg, submitted, ht0, false_and, if_false, hs]
    split_ifs <;> rfl
  · simp only [usb_control_msg, submit_control_msg, ht0, false_and, if_false, hs]
    split_ifs with h
    · intro h2; exact absurd h2 h
    · intro _; rfl
  · simp only [usb_control_msg, submit_control_msg, ht0, false_and, if_false, hs]
    split_ifs with h
    · intro _; rfl
    · intro h2; exact absurd h2 h

/-- Witness for C7: a SET_CONFIGURATION transfer on the demo device with timeout
100 is submitted successfully, polled once and returns `act_len = 0`. -/
theorem usb_control_msg_polled_witness :
    (0 < 100 ∧ 0 ≤ (submitted sample_defs (demo_platform []) [] zero_device 0 9 0 1 0 none
        0).1) ∧
    (poll_status sample_defs (demo_platform []) 100
      (submitted sample_defs (demo_platform []) [] zero_device 0 9 0 1 0 none 0).2).2 ≤ 100 ∧
    (usb_control_msg sample_defs (demo_platform []) 1 [] zero_device 0 9 0 1 0 none 0
      100).ret = 0 := by
  have h := usb_control_msg_polled sample_defs (demo_platform []) 1 [] zero_device 0 9 0 1 0
    none 0 100 (by decide) (by decide)
  exact ⟨⟨by decide, by decide⟩, h.1, (h.2.2.2.1 (by decide)).trans (by decide)⟩

/-- Claim C4 (counterexample): the demo device answers the configuration fetch
with `rejected_config`; `usb_parse_config` returns `-EINVAL` on the fetched
buffer, yet `usb_select_config` returns 0, and the controller has seen, after
the three GET_DESCRIPTOR requests (code 6), a SET_CONFIGURATION request (code 9). -/
theorem usb_select_config_ignores_parse_failure :
    ((usb_get_configuration_no sample_defs (demo_platform rejected_config) 1
        (get_descriptor_len sample_defs (demo_platform rejected_config) 1 [] zero_device
          USB_DT_DEVICE_SIZE USB_DT_DEVICE_SIZE).2.1
        (get_descriptor_len sample_defs (demo_platform rejected_config) 1 [] zero_device
          USB_DT_DEVICE_SIZE USB_DT_DEVICE_SIZE).2.2 0).1.bind
      (fun pConfig => usb_parse_config sample_defs
        (get_descriptor_len sample_defs (demo_platform rejected_config) 1 [] zero_device
          USB_DT_DEVICE_SIZE USB_DT_DEVICE_SIZE).2.2 pConfig 0)).map Prod.fst
      = some (- EINVAL) ∧
    (usb_select_config sample_defs (demo_platform rejected_config) 1 [] zero_device).map
      (fun r => (r.1, r.2.1)) = some (0, [9, 6, 6, 6]) := by
  refine ⟨by decide, by decide⟩

/-- Claim C4 (amended): for every device and every fetched configuration buffer,
`usb_select_config` drops the status `e` of `usb_parse_config`: also when the
parser rejects the buffer it goes on with the record the parser left, runs the
max-packet resolver on it and issues SET_CONFIGURATION; it returns the status of
`usb_set_configuration` when that is negative and 0 otherwise. -/
theorem usb_select_config_after_parse {W : Type} (K : usb_defs) (P : platform W)
    (asynch_allowed : Int) (w w1 w2 : W) (dev d1 d2 d3 : usb_device) (pConfig : Buf) (e : Int)
    (h1 : get_descriptor_len K P asynch_allowed w dev USB_DT_DEVICE_SIZE USB_DT_DEVICE_SIZE
      = (0, w1, d1))
    (h2 : usb_get_configuration_no K P asynch_allowed w1 d1 0 = (some pConfig, w2, d2))
    (h3 : usb_parse_config K d2 pConfig 0 = some (e, d3)) :
    ((usb_set_configuration K P asynch_allowed (P.aligned_free w2) (usb_set_maxpacket d3)
        (usb_config_descriptor.bConfigurationValue (usb_set_maxpacket d3).config.desc)).1 < 0 →
      usb_select_config K P asynch_allowed w dev =
        some (usb_set_configuration K P asynch_allowed (P.aligned_free w2) (usb_set_maxpacket d3)
          (usb_config_descriptor.bConfigurationValue (usb_set_maxpacket d3).config.desc))) ∧
    (¬ (usb_set_configuration K P asynch_allowed (P.aligned_free w2) (usb_set_maxpacket d3)
        (usb_config_descriptor.bConfigurationValue (usb_set_maxpacket d3).config.desc)).1 < 0 →
      usb_select_config K P asynch_allowed w dev =
        some (0, usb_select_config_strings K P asynch_allowed
          (usb_set_configuration K P asynch_allowed (P.aligned_free w2) (usb_set_maxpacket d3)
            (usb_config_descriptor.bConfigurationValue
              (usb_set_maxpacket d3).config.desc)).2.1
          (usb_set_configuration K P asynch_allowed (P.aligned_free w2) (usb_set_maxpacket d3)
            (usb_config_descriptor.bConfigurationValue
              (usb_set_maxpacket d3).config.desc)).2.2)) := by
  constructor
  · intro hc
    simp only [usb_select_config, h1, h2, h3, ne_eq, not_true_eq_false, if_false, if_pos hc]
  · intro hc
    simp only [usb_select_config, h1, h2, h3, ne_eq, not_true_eq_false, if_false, if_neg hc]

/-- Witness for C4: on the demo device with `rejected_config` the parser status
is `-EINVAL`, SET_CONFIGURATION succeeds, and `usb_select_config` returns 0. -/
theorem usb_select_config_after_parse_witness :
    (usb_select_config sample_defs (demo_platform rejected_config) 1 [] zero_device).map
      Prod.fst = some 0 := by
  have h1 : get_descriptor_len sample_defs (demo_platform rejected_config) 1 [] zero_device
      USB_DT_DEVICE_SIZE USB_DT_DEVICE_SIZE =
      (0, [6], (get_descriptor_len sample_defs (demo_platform rejected_config) 1 [] zero_device
        USB_DT_DEVICE_SIZE USB_DT_DEVICE_SIZE).2.2) := rfl
  have h2 : usb_get_configuration_no sample_defs (demo_platform rejected_config) 1 [6]
      (get_descriptor_len sample_defs (demo_platform rejected_config) 1 [] zero_device
        USB_DT_DEVICE_SIZE USB_DT_DEVICE_SIZE).2.2 0 =
      (some (store (store (memcpy zero_buf (bytes rejected_config) 9) 2 9) 3 0), [6, 6, 6],
        (usb_get_configuration_no sample_defs (demo_platform rejected_config) 1 [6]
          (get_descriptor_len sample_defs (demo_platform rejected_config) 1 [] zero_device
            USB_DT_DEVICE_SIZE USB_DT_DEVICE_SIZE).2.2 0).2.2) := rfl
  have h := usb_select_config_after_parse sample_defs (demo_platform rejected_config) 1
    [] [6] [6, 6, 6] zero_device _ _ _ _ (- EINVAL) h1 h2 rfl
  rw [h.2 (by decide)]
  rfl

/-! ## Theorems: the device registry -/

/-- After the loop of `usb_init`, the `n` slots from `i` on are unknown devices
and every other slot is as before. -/
theorem usb_init_loop_spec (n : Nat) : ∀ (t : Int → usb_device) (i j : Int),
    usb_init_loop t n i j = if i ≤ j ∧ j < i + n then unknown_device else t j := by
  induction n with
  | zero =>
    intro t i j
    rw [usb_init_loop, if_neg]
    push_cast; omega
  | succ n ih =>
    intro t i j
    rw [usb_init_loop, ih]
    by_cases h1 : i + 1 ≤ j ∧ j < i + 1 + (n : Int)
    · rw [if_pos h1, if_pos]; push_cast; omega
    · rw [if_neg h1]
      by_cases h2 : j = i
      · subst h2
        rw [if_pos (by push_cast; omega)]; simp [store]
      · rw [if_neg (by push_cast; omega)]; simp [store, h2]

theorem usb_init_inv (K : usb_defs) (r : registry) : registry_inv K (usb_init K r) := by
  refine ⟨le_refl _, by simp [usb_init], ?_, ?_⟩
  · intro i h0 h1; simp [usb_init] at h1; omega
  · intro i h0 h1
    simp only [usb_init] at h0 h1 ⊢
    rw [usb_init_loop_spec, if_pos ⟨h0, by omega⟩]; rfl

theorem usb_alloc_new_device_inv (K : usb_defs) (r : registry) (c : Nat) (m : Option Buf)
    (h : registry_inv K r) : registry_inv K (usb_alloc_new_device K r c m).2.1 := by
  obtain ⟨h0, h1, h2, h3⟩ := h
  unfold usb_alloc_new_device
  by_cases hfull : r.dev_index = (K.USB_MAX_DEVICE : Int)
  · rw [if_pos hfull]; exact ⟨h0, h1, h2, h3⟩
  · rw [if_neg hfull]
    cases m with
    | none => exact ⟨h0, h1, h2, h3⟩
    | some block =>
      refine ⟨?_, ?_, ?_, ?_⟩
      · simp only; omega
      · simp only; omega
      · intro i hi0 hi1
        simp only at hi1 ⊢
        by_cases hi : i = r.dev_index
        · subst hi; simp [store]
        · have : i < r.dev_index := by omega
          simp [store, hi]; exact h2 i hi0 this
      · intro i hi0 hi1
        simp only at hi0 hi1 ⊢
        have hi : i ≠ r.dev_index := by omega
        simp [store, hi]; exact h3 i (by omega) hi1

theorem usb_free_device_inv (K : usb_defs) (r : registry) (c : Nat)
    (h : registry_inv K r) (hpos : 1 ≤ r.dev_index) : registry_inv K (usb_free_device r c) := by
  obtain ⟨h0, h1, h2, h3⟩ := h
  refine ⟨?_, ?_, ?_, ?_⟩
  · simp only [usb_free_device]; omega
  · simp only [usb_free_device]; omega
  · intro i hi0 hi1
    simp only [usb_free_device] at hi1 ⊢
    have hi : i ≠ r.dev_index - 1 := by omega
    simp [store, hi]; exact h2 i hi0 (by omega)
  · intro i hi0 hi1
    simp only [usb_free_device] at hi0 hi1 ⊢
    by_cases hi : i = r.dev_index - 1
    · simp [store, hi, unknown_device]
    · simp [store, hi]; exact h3 i (by omega) hi1

theorem registry_run_inv (K : usb_defs) (ops : List registry_op) : ∀ r : registry,
    registry_inv K r → registry_admits K r ops → registry_inv K (registry_run K r ops) := by
  induction ops with
  | nil => intro r h _; exact h
  | cons op ops ih =>
    intro r h hadm
    cases op with
    | alloc c m => exact ih _ (usb_alloc_new_device_inv K r c m h) hadm
    | free c => exact ih _ (usb_free_device_inv K r c h hadm.1) hadm.2

/-- With a free slot and memory at hand, `usb_alloc_new_device` succeeds, takes
the slot under the counter and gives it the address slot + 1. -/
theorem usb_alloc_new_device_ok (K : usb_defs) (r : registry) (c : Nat) (block : Buf)
    (h : r.dev_index ≠ (K.USB_MAX_DEVICE : Int)) :
    (usb_alloc_new_device K r c (some block)).1 = 0 ∧
    (usb_alloc_new_device K r c (some block)).2.1.dev_index = r.dev_index + 1 ∧
    (usb_alloc_new_device K r c (some block)).2.2 = some r.dev_index ∧
    ((usb_alloc_new_device K r c (some block)).2.1.usb_dev r.dev_index).devnum
      = r.dev_index + 1 := by
  simp [usb_alloc_new_device, h, store]

theorem usb_alloc_new_device_full (K : usb_defs) (r : registry) (c : Nat) (m : Option Buf)
    (h : r.dev_index = (K.USB_MAX_DEVICE : Int)) :
    usb_alloc_new_device K r c m = (- ENOSPC, r, none) := by
  simp [usb_alloc_new_device, h]

theorem usb_alloc_repeat_fill (K : usb_defs) : ∀ (n : Nat) (r : registry)
    (calls : List (Nat × Option Buf)),
    r.dev_index + n = (K.USB_MAX_DEVICE : Int) → calls.length = n + 1 →
    (∀ call ∈ calls, call.2.isSome = true) →
    (usb_alloc_repeat K r calls).1 = List.replicate n 0 ++ [- ENOSPC] := by
  intro n
  induction n with
  | zero =>
    intro r calls hr hlen _
    match calls, hlen with
    | [call], _ =>
      have hfull : r.dev_index = (K.USB_MAX_DEVICE : Int) := by simpa using hr
      simp [usb_alloc_repeat, usb_alloc_new_device_full K r call.1 call.2 hfull]
  | succ n ih =>
    intro r calls hr hlen hsome
    match calls, hlen, hsome with
    | call :: rest, hlen, hsome =>
      have hne : r.dev_index ≠ (K.USB_MAX_DEVICE : Int) := by push_cast at hr; omega
      obtain ⟨block, hb⟩ := Option.isSome_iff_exists.mp (hsome call (List.mem_cons_self _ _))
      have h1 := usb_alloc_new_device_ok K r call.1 block hne
      rw [← hb] at h1
      have hrest := ih (usb_alloc_new_device K r call.1 call.2).2.1 rest
        (by rw [h1.2.1]; push_cast at hr; omega) (by simpa using hlen)
        (fun x hx => hsome x (List.mem_cons_of_mem _ hx))
      simp only [usb_alloc_repeat, h1.1, hrest, List.replicate_succ, List.cons_append]

/-- Claim C8: in every registry state whose allocation counter equals
`USB_MAX_DEVICE`, `usb_alloc_new_device` fails with `-ENOSPC` and leaves the
device table and the counter unchanged; and starting from the registry as
`usb_init` leaves it, of `USB_MAX_DEVICE + 1` consecutive allocations whose
memory allocation succeeds the first `USB_MAX_DEVICE` return 0 and the next one
returns `-ENOSPC`. -/
theorem usb_alloc_new_device_capacity (K : usb_defs) :
    (∀ (r : registry) (c : Nat) (m : Option Buf), r.dev_index = (K.USB_MAX_DEVICE : Int) →
      usb_alloc_new_device K r c m = (- ENOSPC, r, none)) ∧
    (∀ (r0 : registry) (calls : List (Nat × Option Buf)),
      calls.length = K.USB_MAX_DEVICE + 1 → (∀ call ∈ calls, call.2.isSome = true) →
      (usb_alloc_repeat K (usb_init K r0) calls).1
        = List.replicate K.USB_MAX_DEVICE 0 ++ [- ENOSPC]) :=
  ⟨usb_alloc_new_device_full K,
    fun r0 calls hlen hsome =>
      usb_alloc_repeat_fill K K.USB_MAX_DEVICE (usb_init K r0) calls (by simp [usb_init]) hlen
        hsome⟩

/-- Witness for C8: with `USB_MAX_DEVICE = 32`, a full registry refuses an
allocation, and 33 allocations on an initialised registry return 32 times 0 and
then `-ENOSPC`. -/
theorem usb_alloc_new_device_capacity_witness :
    usb_alloc_new_device sample_defs { sample_registry with dev_index := 32 } 1 (some zero_buf)
      = (- ENOSPC, { sample_registry with dev_index := 32 }, none) ∧
    (usb_alloc_repeat sample_defs (usb_init sample_defs sample_registry)
        (List.replicate 33 (1, some zero_buf))).1 = List.replicate 32 0 ++ [- ENOSPC] :=
  ⟨(usb_alloc_new_device_capacity sample_defs).1 _ 1 (some zero_buf) rfl,
    (usb_alloc_new_device_capacity sample_defs).2 sample_registry
      (List.replicate 33 (1, some zero_buf)) rfl
      (fun call h => by rw [List.eq_of_mem_replicate h]; rfl)⟩

/-- Claim C9 (counterexample): one device allocated, then `usb_free_device`,
then `usb_alloc_new_device` while `_hx_malloc` returns `NULL`: the allocation
does not succeed, it returns `-ENOMEM`. -/
theorem usb_alloc_after_free_out_of_memory :
    1 ≤ (usb_alloc_new_device sample_defs (usb_init sample_defs sample_registry) 1
      (some zero_buf)).2.1.dev_index ∧
    (usb_alloc_new_device sample_defs
      (usb_free_device (usb_alloc_new_device sample_defs (usb_init sample_defs sample_registry) 1
        (some zero_buf)).2.1 1) 1 none).1 = - ENOMEM ∧
    - ENOMEM ≠ 0 := by
  refine ⟨by decide, by decide, by decide⟩

/-- Claim C9 (amended): for every registry state with at least one allocated
device (allocation counter at most `USB_MAX_DEVICE`; the statement does not
need the lower bound), `usb_free_device` releases the most recently allocated
slot: the counter goes down by one, the slot's record is zeroed with address -1
(so `usb_get_dev_index` on it returns no device); an immediately following
`usb_alloc_new_device` whose memory allocation succeeds returns 0 and that same
slot, with address slot index + 1, and one whose memory allocation fails returns
`-ENOMEM` and leaves the registry as freed. -/
theorem usb_free_device_then_alloc (K : usb_defs) (r : registry) (c c2 : Nat) (block : Buf)
    (h2 : r.dev_index ≤ (K.USB_MAX_DEVICE : Int)) :
    (usb_free_device r c).dev_index = r.dev_index - 1 ∧
    (usb_free_device r c).usb_dev (r.dev_index - 1) = unknown_device ∧
    unknown_device = { zero_device with devnum := -1 } ∧
    usb_get_dev_index (usb_free_device r c) (r.dev_index - 1) = none ∧
    (usb_alloc_new_device K (usb_free_device r c) c2 (some block)).1 = 0 ∧
    (usb_alloc_new_device K (usb_free_device r c) c2 (some block)).2.2
      = some (r.dev_index - 1) ∧
    ((usb_alloc_new_device K (usb_free_device r c) c2 (some block)).2.1.usb_dev
      (r.dev_index - 1)).devnum = (r.dev_index - 1) + 1 ∧
    usb_alloc_new_device K (usb_free_device r c) c2 none
      = (- ENOMEM, usb_free_device r c, none) := by
  have hidx : (usb_free_device r c).dev_index = r.dev_index - 1 := rfl
  have hne : (usb_free_device r c).dev_index ≠ (K.USB_MAX_DEVICE : Int) := by
    rw [hidx]; omega
  have ha := usb_alloc_new_device_ok K (usb_free_device r c) c2 block hne
  rw [hidx] at ha
  refine ⟨rfl, by simp [usb_free_device, store], rfl, ?_, ha.1, ha.2.2.1, ha.2.2.2, ?_⟩
  · simp [usb_get_dev_index, usb_free_device, store, unknown_device]
  · simp [usb_alloc_new_device, hne]

/-- Witness for C9: the registry holding one device, freed and allocated again. -/
theorem usb_free_device_then_alloc_witness :
    (usb_alloc_new_device sample_defs
      (usb_free_device (usb_alloc_new_device sample_defs (usb_init sample_defs sample_registry) 1
        (some zero_buf)).2.1 1) 2 (some zero_buf)).2.2 = some 0 :=
  (usb_free_device_then_alloc sample_defs
    (usb_alloc_new_device sample_defs (usb_init sample_defs sample_registry) 1
      (some zero_buf)).2.1 1 2 zero_buf (by decide)).2.2.2.2.2.1

/-- Claim C10: for every sequence of `usb_alloc_new_device` and `usb_free_device`
calls applied to the registry as initialised by `usb_init` (`usb_free_device`
only when at least one device is allocated), the counter stays within
0..USB_MAX_DEVICE, every slot below the counter has address slot index + 1 and
every slot of the table at or above it has address -1; hence the active records
of the table (those `usb_get_dev_index` returns) are the slots below the
counter, their addresses are pairwise distinct and lie in 1..USB_MAX_DEVICE. -/
theorem registry_addresses_unique (K : usb_defs) (r0 : registry) (ops : List registry_op)
    (hadm : registry_admits K (usb_init K r0) ops) :
    registry_inv K (registry_run K (usb_init K r0) ops) ∧
    (∀ i : Int, 0 ≤ i → i < (K.USB_MAX_DEVICE : Int) →
      (usb_get_dev_index (registry_run K (usb_init K r0) ops) i ≠ none ↔
        i < (registry_run K (usb_init K r0) ops).dev_index)) ∧
    (∀ i j : Int, 0 ≤ i → i < (K.USB_MAX_DEVICE : Int) → 0 ≤ j → j < (K.USB_MAX_DEVICE : Int) →
      usb_get_dev_index (registry_run K (usb_init K r0) ops) i ≠ none →
      usb_get_dev_index (registry_run K (usb_init K r0) ops) j ≠ none → i ≠ j →
      ((registry_run K (usb_init K r0) ops).usb_dev i).devnum ≠
        ((registry_run K (usb_init K r0) ops).usb_dev j).devnum) ∧
    (∀ i : Int, 0 ≤ i → i < (K.USB_MAX_DEVICE : Int) →
      usb_get_dev_index (registry_run K (usb_init K r0) ops) i ≠ none →
      1 ≤ ((registry_run K (usb_init K r0) ops).usb_dev i).devnum ∧
      ((registry_run K (usb_init K r0) ops).usb_dev i).devnum ≤ (K.USB_MAX_DEVICE : Int)) := by
  have hinv := registry_run_inv K ops (usb_init K r0) (usb_init_inv K r0) hadm
  generalize registry_run K (usb_init K r0) ops = r at hinv ⊢
  obtain ⟨h0, h1, h2, h3⟩ := hinv
  have hact : ∀ i : Int, 0 ≤ i → i < (K.USB_MAX_DEVICE : Int) →
      (usb_get_dev_index r i ≠ none ↔ i < r.dev_index) := by
    intro i hi0 hi1
    unfold usb_get_dev_index
    by_cases hlt : i < r.dev_index
    · have := h2 i hi0 hlt
      have hne : (r.usb_dev i).devnum ≠ -1 := by omega
      simp [hne, hlt]
    · have := h3 i (by omega) hi1
      simp [this, hlt]
  refine ⟨⟨h0, h1, h2, h3⟩, hact, ?_, ?_⟩
  · intro i j hi0 hi1 hj0 hj1 hai haj hij
    have hi := (hact i hi0 hi1).mp hai
    have hj := (hact j hj0 hj1).mp haj
    rw [h2 i hi0 hi, h2 j hj0 hj]; omega
  · intro i hi0 hi1 hai
    have hi := (hact i hi0 hi1).mp hai
    rw [h2 i hi0 hi]; omega

/-- Witness for C10: allocate, allocate without memory, free, allocate twice: the
registry ends with two devices, of addresses 1 and 2. -/
theorem registry_addresses_unique_witness :
    registry_inv sample_defs (registry_run sample_defs (usb_init sample_defs sample_registry)
      [registry_op.alloc 1 (some zero_buf), registry_op.alloc 1 none, registry_op.free 1,
        registry_op.alloc 2 (some zero_buf), registry_op.alloc 2 (some zero_buf)]) :=
  (registry_addresses_unique sample_defs sample_registry
    [registry_op.alloc 1 (some zero_buf), registry_op.alloc 1 none, registry_op.free 1,
      registry_op.alloc 2 (some zero_buf), registry_op.alloc 2 (some zero_buf)]
    ⟨by decide, trivial⟩).1

/-! ## Theorems: the control endpoint size (`usb_setup_descriptor`) -/

theorem usb_setup_descriptor_after_probe {W : Type} (K : usb_defs) (P : platform W)
    (asynch_allowed : Int) (w w1 : W) (dev d1 : usb_device) (do_read : Bool)
    (hprobe : (if do_read then
        get_descriptor_len K P asynch_allowed w (usb_setup_descriptor_provisional K dev) 64 8
      else (0, w, usb_setup_descriptor_provisional K dev)) = (0, w1, d1)) :
    ((usb_setup_descriptor K P asynch_allowed w dev do_read).1 = 0 ↔
      (usb_device_descriptor.bMaxPacketSize0 d1.descriptor = 8 ∨
       usb_device_descriptor.bMaxPacketSize0 d1.descriptor = 16 ∨
       usb_device_descriptor.bMaxPacketSize0 d1.descriptor = 32 ∨
       usb_device_descriptor.bMaxPacketSize0 d1.descriptor = 64)) ∧
    ((usb_setup_descriptor K P asynch_allowed w dev do_read).1 = 0 ∨
      (usb_setup_descriptor K P asynch_allowed w dev do_read).1 = - EIO) ∧
    (usb_setup_descriptor K P asynch_allowed w dev do_read).2.2.epmaxpacketin 0
      = (usb_device_descriptor.bMaxPacketSize0 d1.descriptor : Int) ∧
    (usb_setup_descriptor K P asynch_allowed w dev do_read).2.2.epmaxpacketout 0
      = (usb_device_descriptor.bMaxPacketSize0 d1.descriptor : Int) := by
  have hp : (if do_read then
        get_descriptor_len K P asynch_allowed w (usb_setup_descriptor_provisional K dev) 64 8
      else (0, w, usb_setup_descriptor_provisional K dev)) = (0, w1, d1) := hprobe
  have key : usb_setup_descriptor K P asynch_allowed w dev do_read =
      (let dev4 : usb_device := { d1 with
        epmaxpacketin := store d1.epmaxpacketin 0
          (usb_device_descriptor.bMaxPacketSize0 d1.descriptor : Int),
        epmaxpacketout := store d1.epmaxpacketout 0
          (usb_device_descriptor.bMaxPacketSize0 d1.descriptor : Int) }
      if usb_device_descriptor.bMaxPacketSize0 d1.descriptor = 8 then
        (0, w1, { dev4 with maxpacketsize := K.PACKET_SIZE_8 })
      else if usb_device_descriptor.bMaxPacketSize0 d1.descriptor = 16 then
        (0, w1, { dev4 with maxpacketsize := K.PACKET_SIZE_16 })
      else if usb_device_descriptor.bMaxPacketSize0 d1.descriptor = 32 then
        (0, w1, { dev4 with maxpacketsize := K.PACKET_SIZE_32 })
      else if usb_device_descriptor.bMaxPacketSize0 d1.descriptor = 64 then
        (0, w1, { dev4 with maxpacketsize := K.PACKET_SIZE_64 })
      else (- EIO, w1, dev4)) := by
    unfold usb_setup_descriptor
    unfold usb_setup_descriptor_provisional at hp
    simp only [hp, ne_eq, not_true_eq_false, if_false]
  rw [key]
  have hne : (- EIO : Int) ≠ 0 := by decide
  simp only
  split_ifs with h8 h16 h32 h64
  · exact ⟨⟨fun _ => Or.inl h8, fun _ => rfl⟩, Or.inl rfl, by simp [store], by simp [store]⟩
  · exact ⟨⟨fun _ => Or.inr (Or.inl h16), fun _ => rfl⟩, Or.inl rfl, by simp [store],
      by simp [store]⟩
  · exact ⟨⟨fun _ => Or.inr (Or.inr (Or.inl h32)), fun _ => rfl⟩, Or.inl rfl, by simp [store],
      by simp [store]⟩
  · exact ⟨⟨fun _ => Or.inr (Or.inr (Or.inr h64)), fun _ => rfl⟩, Or.inl rfl, by simp [store],
      by simp [store]⟩
  · refine ⟨⟨fun h => absurd h hne, fun h => ?_⟩, Or.inr rfl, by simp [store], by simp [store]⟩
    rcases h with h | h | h | h
    · exact absurd h h8
    · exact absurd h h16
    · exact absurd h h32
    · exact absurd h h64

theorem usb_setup_descriptor_provisional_size (K : usb_defs) (dev : usb_device) :
    usb_device_descriptor.bMaxPacketSize0 (usb_setup_descriptor_provisional K dev).descriptor
      = if dev.speed = K.USB_SPEED_LOW then 8 else 64 := by
  unfold usb_setup_descriptor_provisional
  by_cases h : dev.speed = K.USB_SPEED_LOW
  · simp only [h, if_true]; rfl
  · simp only [h, if_false]; rfl

theorem usb_setup_descriptor_skipped {W : Type} (K : usb_defs) (P : platform W)
    (asynch_allowed : Int) (w : W) (dev : usb_device) :
    (usb_setup_descriptor K P asynch_allowed w dev false).1 = 0 ∧
    (usb_setup_descriptor K P asynch_allowed w dev false).2.2.epmaxpacketin 0
      = (if dev.speed = K.USB_SPEED_LOW then 8 else 64) ∧
    (usb_setup_descriptor K P asynch_allowed w dev false).2.2.epmaxpacketout 0
      = (if dev.speed = K.USB_SPEED_LOW then 8 else 64) := by
  have h := usb_setup_descriptor_after_probe K P asynch_allowed w w dev
    (usb_setup_descriptor_provisional K dev) false rfl
  have hs := usb_setup_descriptor_provisional_size K dev
  refine ⟨h.1.mpr ?_, ?_, ?_⟩
  · rw [hs]; split_ifs
    · exact Or.inl rfl
    · exact Or.inr (Or.inr (Or.inr rfl))
  · rw [h.2.2.1, hs]; split_ifs <;> rfl
  · rw [h.2.2.2, hs]; split_ifs <;> rfl

/-- Claim C11: once the descriptor probe of `usb_setup_descriptor` has succeeded
(with the record `d1`) or has been skipped, the function returns 0 exactly when
`bMaxPacketSize0` is one of 8, 16, 32, 64 and `-EIO` otherwise, and both
endpoint-0 table entries hold that value.  With the probe skipped it returns 0
and the entries are 8 for a low speed device and 64 otherwise. -/
theorem usb_setup_descriptor_control_size {W : Type} (K : usb_defs) (P : platform W)
    (asynch_allowed : Int) (w w1 : W) (dev d1 : usb_device) (do_read : Bool)
    (hprobe : (if do_read then
        get_descriptor_len K P asynch_allowed w (usb_setup_descriptor_provisional K dev) 64 8
      else (0, w, usb_setup_descriptor_provisional K dev)) = (0, w1, d1)) :
    ((usb_setup_descriptor K P asynch_allowed w dev do_read).1 = 0 ↔
      (usb_device_descriptor.bMaxPacketSize0 d1.descriptor = 8 ∨
       usb_device_descriptor.bMaxPacketSize0 d1.descriptor = 16 ∨
       usb_device_descriptor.bMaxPacketSize0 d1.descriptor = 32 ∨
       usb_device_descriptor.bMaxPacketSize0 d1.descriptor = 64)) ∧
    ((usb_setup_descriptor K P asynch_allowed w dev do_read).1 = 0 ∨
      (usb_setup_descriptor K P asynch_allowed w dev do_read).1 = - EIO) ∧
    (usb_setup_descriptor K P asynch_allowed w dev do_read).2.2.epmaxpacketin 0
      = (usb_device_descriptor.bMaxPacketSize0 d1.descriptor : Int) ∧
    (usb_setup_descriptor K P asynch_allowed w dev do_read).2.2.epmaxpacketout 0
      = (usb_device_descriptor.bMaxPacketSize0 d1.descriptor : Int) ∧
    (do_read = false →
      (usb_setup_descriptor K P asynch_allowed w dev do_read).1 = 0 ∧
      (usb_setup_descriptor K P asynch_allowed w dev do_read).2.2.epmaxpacketin 0
        = (if dev.speed = K.USB_SPEED_LOW then 8 else 64) ∧
      (usb_setup_descriptor K P asynch_allowed w dev do_read).2.2.epmaxpacketout 0
        = (if dev.speed = K.USB_SPEED_LOW then 8 else 64)) := by
  obtain ⟨a, b, c, d⟩ := usb_setup_descriptor_after_probe K P asynch_allowed w w1 dev d1 do_read
    hprobe
  refine ⟨a, b, c, d, fun hd => ?_⟩
  subst hd
  exact usb_setup_descriptor_skipped K P asynch_allowed w dev

theorem usb_setup_descriptor_control_size_witness :
    (usb_setup_descriptor sample_defs (demo_platform []) 1 [] zero_device true).1 = 0 ∧
    (usb_setup_descriptor sample_defs (demo_platform []) 1 [] zero_device true).2.2.epmaxpacketin 0
      = 64 := by
  have h := usb_setup_descriptor_control_size sample_defs (demo_platform []) 1 []
    (get_descriptor_len sample_defs (demo_platform []) 1 []
      (usb_setup_descriptor_provisional sample_defs zero_device) 64 8).2.1
    zero_device
    (get_descriptor_len sample_defs (demo_platform []) 1 []
      (usb_setup_descriptor_provisional sample_defs zero_device) 64 8).2.2
    true (Prod.ext (by decide) rfl)
  have h64 : usb_device_descriptor.bMaxPacketSize0
      (get_descriptor_len sample_defs (demo_platform []) 1 []
        (usb_setup_descriptor_provisional sample_defs zero_device) 64 8).2.2.descriptor = 64 := by
    decide
  refine ⟨h.1.mpr (Or.inr (Or.inr (Or.inr h64))), ?_⟩
  rw [h.2.2.1, h64]
  rfl

/-! ## Theorems: one step of the max-packet resolver -/

/-- Claim C19: one resolver step `usb_set_maxpacket_ep` on an endpoint with number
`b` and max-packet value `v`.  A control endpoint sets both table entries `b`
to `v`; any other endpoint sets the entry `b` of its own direction to the
larger of the old entry and `v` and leaves the table of the other direction as
it was; the entries of every other endpoint number are as before. -/
theorem usb_set_maxpacket_ep_step (dev : usb_device) (if_idx ep_idx : Nat) :
    (usb_endpoint_descriptor.bmAttributes ((dev.config.if_desc if_idx).ep_desc ep_idx)
        &&& USB_ENDPOINT_XFERTYPE_MASK = USB_ENDPOINT_XFER_CONTROL →
      (usb_set_maxpacket_ep dev if_idx ep_idx).epmaxpacketin
          (usb_endpoint_descriptor.bEndpointAddress ((dev.config.if_desc if_idx).ep_desc ep_idx)
            &&& USB_ENDPOINT_NUMBER_MASK)
        = (usb_endpoint_descriptor.wMaxPacketSize ((dev.config.if_desc if_idx).ep_desc ep_idx) : Int) ∧
      (usb_set_maxpacket_ep dev if_idx ep_idx).epmaxpacketout
          (usb_endpoint_descriptor.bEndpointAddress ((dev.config.if_desc if_idx).ep_desc ep_idx)
            &&& USB_ENDPOINT_NUMBER_MASK)
        = (usb_endpoint_descriptor.wMaxPacketSize ((dev.config.if_desc if_idx).ep_desc ep_idx) : Int)) ∧
    (usb_endpoint_descriptor.bmAttributes ((dev.config.if_desc if_idx).ep_desc ep_idx)
        &&& USB_ENDPOINT_XFERTYPE_MASK ≠ USB_ENDPOINT_XFER_CONTROL →
      usb_endpoint_descriptor.bEndpointAddress ((dev.config.if_desc if_idx).ep_desc ep_idx)
        &&& 0x80 = 0 →
      (usb_set_maxpacket_ep dev if_idx ep_idx).epmaxpacketout
          (usb_endpoint_descriptor.bEndpointAddress ((dev.config.if_desc if_idx).ep_desc ep_idx)
            &&& USB_ENDPOINT_NUMBER_MASK)
        = max (dev.epmaxpacketout
            (usb_endpoint_descriptor.bEndpointAddress ((dev.config.if_desc if_idx).ep_desc ep_idx)
              &&& USB_ENDPOINT_NUMBER_MASK))
          (usb_endpoint_descriptor.wMaxPacketSize ((dev.config.if_desc if_idx).ep_desc ep_idx) : Int) ∧
      (usb_set_maxpacket_ep dev if_idx ep_idx).epmaxpacketin = dev.epmaxpacketin) ∧
    (usb_endpoint_descriptor.bmAttributes ((dev.config.if_desc if_idx).ep_desc ep_idx)
        &&& USB_ENDPOINT_XFERTYPE_MASK ≠ USB_ENDPOINT_XFER_CONTROL →
      usb_endpoint_descriptor.bEndpointAddress ((dev.config.if_desc if_idx).ep_desc ep_idx)
        &&& 0x80 ≠ 0 →
      (usb_set_maxpacket_ep dev if_idx ep_idx).epmaxpacketin
          (usb_endpoint_descriptor.bEndpointAddress ((dev.config.if_desc if_idx).ep_desc ep_idx)
            &&& USB_ENDPOINT_NUMBER_MASK)
        = max (dev.epmaxpacketin
            (usb_endpoint_descriptor.bEndpointAddress ((dev.config.if_desc if_idx).ep_desc ep_idx)
              &&& USB_ENDPOINT_NUMBER_MASK))
          (usb_endpoint_descriptor.wMaxPacketSize ((dev.config.if_desc if_idx).ep_desc ep_idx) : Int) ∧
      (usb_set_maxpacket_ep dev if_idx ep_idx).epmaxpacketout = dev.epmaxpacketout) ∧
    (∀ c : Nat,
      c ≠ usb_endpoint_descriptor.bEndpointAddress ((dev.config.if_desc if_idx).ep_desc ep_idx)
        &&& USB_ENDPOINT_NUMBER_MASK →
      (usb_set_maxpacket_ep dev if_idx ep_idx).epmaxpacketin c = dev.epmaxpacketin c ∧
      (usb_set_maxpacket_ep dev if_idx ep_idx).epmaxpacketout c = dev.epmaxpacketout c) := by
  refine ⟨?_, ?_, ?_, ?_⟩
  · intro hc
    simp only [usb_set_maxpacket_ep, if_pos hc, store, if_true, and_self]
  · intro hc hd
    simp only [usb_set_maxpacket_ep, if_neg hc, if_pos hd]
    split_ifs with h
    · exact ⟨by simp only [store, if_true]; exact (max_eq_right (le_of_lt h)).symm, rfl⟩
    · exact ⟨(max_eq_left (not_lt.mp h)).symm, rfl⟩
  · intro hc hd
    simp only [usb_set_maxpacket_ep, if_neg hc, if_neg hd]
    split_ifs with h
    · exact ⟨by simp only [store, if_true]; exact (max_eq_right (le_of_lt h)).symm, rfl⟩
    · exact ⟨(max_eq_left (not_lt.mp h)).symm, rfl⟩
  · intro c hc
    simp only [usb_set_maxpacket_ep]
    split_ifs <;> simp [store, hc]

theorem usb_set_maxpacket_ep_step_witness :
    (usb_set_maxpacket_ep (single_endpoint_device [7, 5, 0x81, 2, 0, 2, 0]) 0 0).epmaxpacketin 1
      = 512 ∧
    (usb_set_maxpacket_ep (single_endpoint_device [7, 5, 0x81, 2, 0, 2, 0]) 0 0).epmaxpacketout
      = (single_endpoint_device [7, 5, 0x81, 2, 0, 2, 0]).epmaxpacketout ∧
    (usb_set_maxpacket_ep (single_endpoint_device [7, 5, 0x81, 2, 0, 2, 0]) 0 0).epmaxpacketin 2
      = 0 :=
  ⟨((usb_set_maxpacket_ep_step (single_endpoint_device [7, 5, 0x81, 2, 0, 2, 0]) 0 0).2.2.1
      (by decide) (by decide)).1,
   ((usb_set_maxpacket_ep_step (single_endpoint_device [7, 5, 0x81, 2, 0, 2, 0]) 0 0).2.2.1
      (by decide) (by decide)).2,
   ((usb_set_maxpacket_ep_step (single_endpoint_device [7, 5, 0x81, 2, 0, 2, 0]) 0 0).2.2.2 2
      (by decide)).1⟩

/-! ## Theorems: string descriptors (`usb_string`) -/

theorem usb_string_decode_spec (t : Buf) (L size1 : Nat) (hL : L % 2 = 0) (hL2 : 2 ≤ L) :
    ∀ (m idx fuel : Nat) (buf : Buf), idx + m = min ((L - 2) / 2) size1 → m ≤ fuel →
      (usb_string_decode t L size1 fuel idx (2 + 2 * idx) buf).1 = min ((L - 2) / 2) size1 ∧
      (∀ k, k < idx → (usb_string_decode t L size1 fuel idx (2 + 2 * idx) buf).2 k = buf k) ∧
      (∀ k, idx ≤ k → k < min ((L - 2) / 2) size1 →
        (usb_string_decode t L size1 fuel idx (2 + 2 * idx) buf).2 k = decoded_char t k) ∧
      (∀ k, min ((L - 2) / 2) size1 ≤ k →
        (usb_string_decode t L size1 fuel idx (2 + 2 * idx) buf).2 k = buf k) := by
  intro m
  induction m with
  | zero =>
    intro idx fuel buf hidx _
    have hN : idx = min ((L - 2) / 2) size1 := by omega
    have hstop : ¬ (2 + 2 * idx < L) ∨ idx ≥ size1 := by
      rcases Nat.le_total ((L - 2) / 2) size1 with h | h
      · left; rw [Nat.min_eq_left h] at hN; omega
      · right; rw [Nat.min_eq_right h] at hN; omega
    have hres : usb_string_decode t L size1 fuel idx (2 + 2 * idx) buf = (idx, buf) := by
      cases fuel with
      | zero => rfl
      | succ f =>
        rw [usb_string_decode]
        rcases hstop with h | h
        · rw [if_neg h]
        · split_ifs <;> rfl
    rw [hres]
    exact ⟨hN, fun _ _ => rfl, fun k h1 h2 => absurd h2 (by omega), fun _ _ => rfl⟩
  | succ m ih =>
    intro idx fuel buf hidx hfuel
    obtain ⟨f, rfl⟩ : ∃ f, fuel = f + 1 := ⟨fuel - 1, by omega⟩
    have hlt : idx < min ((L - 2) / 2) size1 := by omega
    have h1 : 2 + 2 * idx < L := by
      have := Nat.lt_of_lt_of_le hlt (Nat.min_le_left _ _); omega
    have h2 : ¬ idx ≥ size1 := by
      have := Nat.lt_of_lt_of_le hlt (Nat.min_le_right _ _); omega
    have hu : 2 + 2 * idx + 2 = 2 + 2 * (idx + 1) := by omega
    rw [usb_string_decode, if_pos h1, if_neg h2]
    by_cases hz : t (2 + 2 * idx + 1) ≠ 0
    · rw [if_pos hz, hu]
      obtain ⟨r1, r2, r3, r4⟩ := ih (idx + 1) f (store buf idx 63) (by omega) (by omega)
      refine ⟨r1, ?_, ?_, ?_⟩
      · intro k hk
        rw [r2 k (by omega)]; simp [store, Nat.ne_of_lt hk]
      · intro k hk1 hk2
        rcases Nat.eq_or_lt_of_le hk1 with h | h
        · subst h
          rw [r2 idx (by omega)]
          simp [store, decoded_char, hz]
        · exact r3 k (by omega) hk2
      · intro k hk
        rw [r4 k hk]
        have : k ≠ idx := by omega
        simp [store, this]
    · rw [if_neg hz, hu]
      have hz0 : t (2 + 2 * idx + 1) = 0 := not_not.mp hz
      obtain ⟨r1, r2, r3, r4⟩ := ih (idx + 1) f (store buf idx (t (2 + 2 * idx))) (by omega)
        (by omega)
      refine ⟨r1, ?_, ?_, ?_⟩
      · intro k hk
        rw [r2 k (by omega)]; simp [store, Nat.ne_of_lt hk]
      · intro k hk1 hk2
        rcases Nat.eq_or_lt_of_le hk1 with h | h
        · subst h
          rw [r2 idx (by omega)]
          simp [store, decoded_char, hz0]
        · exact r3 k (by omega) hk2
      · intro k hk
        rw [r4 k hk]
        have : k ≠ idx := by omega
        simp [store, this]

theorem int_land_one (n : Nat) : Int.land (n : Int) 1 = ((n % 2 : Nat) : Int) := by
  show ((n &&& 1 : Nat) : Int) = _
  rw [Nat.and_one_is_mod]

/-- Forcing a non-negative length to a multiple of two: `rc - (rc & 1)`. -/
theorem force_even (rc : Int) (h : 0 ≤ rc) :
    0 ≤ rc - Int.land rc 1 ∧ (rc - Int.land rc 1) % 2 = 0 ∧ rc - Int.land rc 1 ≤ rc := by
  obtain ⟨n, rfl⟩ := Int.eq_ofNat_of_zero_le h
  rw [int_land_one]
  omega

theorem usb_try_string_workarounds_length (buf : Buf) (length : Int) (h : 2 ≤ length) :
    2 ≤ (usb_try_string_workarounds buf length).2 := by
  unfold usb_try_string_workarounds
  simp only
  split_ifs with hn
  · show (2 : Int) ≤ ((string_scan buf length length.toNat 2 : Nat) : Int)
    omega
  · exact h

/-- The result of `usb_string_sub` is `-EINVAL` or an even length of at least 2,
and the staging buffer comes back. -/
theorem usb_string_sub_ret {W : Type} (K : usb_defs) (P : platform W) (asynch_allowed : Int)
    (w : W) (dev : usb_device) (langid index : Nat) (buf : Buf) :
    ((usb_string_sub K P asynch_allowed w dev langid index buf).ret = - EINVAL ∨
      (2 ≤ (usb_string_sub K P asynch_allowed w dev langid index buf).ret ∧
       (usb_string_sub K P asynch_allowed w dev langid index buf).ret % 2 = 0)) ∧
    ∃ t, (usb_string_sub K P asynch_allowed w dev langid index buf).data = some t := by
  refine ⟨?_, ⟨_, rfl⟩⟩
  unfold usb_string_sub
  simp only
  split_ifs with h1 h2 h3 h4 h5 h6 h7 h8 h9 h10 h11 h12 <;>
    first
    | exact Or.inl rfl
    | (right
       refine ⟨by omega, ?_⟩
       first
       | exact (force_even _ (by omega)).2.1
       | exact (force_even _ (Int.natCast_nonneg _)).2.1
       | exact (force_even _ (le_trans (by decide)
           (usb_try_string_workarounds_length _ _ (by omega)))).2.1)
    | omega

theorem usb_string_of_langid {W : Type} (K : usb_defs) (P : platform W) (asynch_allowed : Int)
    (w w1 : W) (dev d1 : usb_device) (index : Int) (buf t1 : Buf) (size : Nat)
    (hidx : index ≠ 0) (hsize : size ≠ 0)
    (hlang : usb_string_langid K P asynch_allowed w dev = some (w1, d1, t1)) :
    usb_string K P asynch_allowed w dev index (some buf) size
      = usb_string_fetch K P asynch_allowed w1 d1 index t1 (store buf 0 0) size := by
  unfold usb_string_langid at hlang
  unfold usb_string
  have hg : ¬ (size = 0 ∨ index = 0) := by
    intro h; rcases h with h | h
    · exact hsize h
    · exact hidx h
  simp only [if_neg hg]
  by_cases h0 : dev.have_langid = 0
  · rw [if_pos h0] at hlang
    rw [if_pos h0]
    by_cases h1 : (usb_string_sub K P asynch_allowed w dev 0 0 (P.stack w)).ret < 0
    · rw [if_pos h1] at hlang; cases hlang
    · rw [if_neg h1] at hlang
      rw [if_neg h1]
      by_cases h2 : (((usb_string_sub K P asynch_allowed w dev 0 0 (P.stack w)).data.getD
          (P.stack w)) 0).val < 4
      · rw [if_pos h2] at hlang; cases hlang
      · rw [if_neg h2] at hlang
        rw [if_neg h2]
        simp only [Option.some.injEq, Prod.mk.injEq] at hlang
        obtain ⟨e1, e2, e3⟩ := hlang
        rw [← e1, ← e2, ← e3]
  · rw [if_neg h0] at hlang
    rw [if_neg h0]
    simp only [Option.some.injEq, Prod.mk.injEq] at hlang
    obtain ⟨e1, e2, e3⟩ := hlang
    rw [← e1, ← e2, ← e3]

theorem usb_string_fetch_decodes {W : Type} (K : usb_defs) (P : platform W)
    (asynch_allowed : Int) (w : W) (dev : usb_device) (index : Int) (tbuf buf : Buf) (size : Nat)
    (hok : 0 ≤ (usb_string_sub K P asynch_allowed w dev dev.string_langid
      (index % 4294967296).toNat tbuf).ret) :
    ∃ (t out : Buf) (L : Nat),
      (usb_string_sub K P asynch_allowed w dev dev.string_langid
        (index % 4294967296).toNat tbuf).data = some t ∧
      (usb_string_sub K P asynch_allowed w dev dev.string_langid
        (index % 4294967296).toNat tbuf).ret = (L : Int) ∧
      2 ≤ L ∧ L % 2 = 0 ∧
      (usb_string_fetch K P asynch_allowed w dev index tbuf buf size).data = some out ∧
      (usb_string_fetch K P asynch_allowed w dev index tbuf buf size).ret
        = ((min ((L - 2) / 2) (size - 1) : Nat) : Int) ∧
      (∀ k, k < min ((L - 2) / 2) (size - 1) → out k = decoded_char t k) ∧
      out (min ((L - 2) / 2) (size - 1)) = 0 ∧
      (∀ k, min ((L - 2) / 2) (size - 1) < k → out k = buf k) := by
  obtain ⟨hret, t, ht⟩ := usb_string_sub_ret K P asynch_allowed w dev dev.string_langid
    (index % 4294967296).toNat tbuf
  have hne : ¬ (usb_string_sub K P asynch_allowed w dev dev.string_langid
      (index % 4294967296).toNat tbuf).ret < 0 := by omega
  have h2 : 2 ≤ (usb_string_sub K P asynch_allowed w dev dev.string_langid
      (index % 4294967296).toNat tbuf).ret ∧
      (usb_string_sub K P asynch_allowed w dev dev.string_langid
      (index % 4294967296).toNat tbuf).ret % 2 = 0 := by
    rcases hret with h | h
    · rw [h] at hok; exact absurd hok (by decide)
    · exact h
  obtain ⟨L, hL⟩ := Int.eq_ofNat_of_zero_le hok
  have hL2 : 2 ≤ L := by have := h2.1; omega
  have hLe : L % 2 = 0 := by have := h2.2; omega
  obtain ⟨d1, d2, d3, d4⟩ := usb_string_decode_spec t L (size - 1) hLe hL2
    (min ((L - 2) / 2) (size - 1)) 0 L buf (by omega)
    (le_trans (Nat.min_le_left _ _) (by omega))
  have hfetch : usb_string_fetch K P asynch_allowed w dev index tbuf buf size =
      ⟨((usb_string_decode t L (size - 1) L 0 2 buf).1 : Int),
        (usb_string_sub K P asynch_allowed w dev dev.string_langid
          (index % 4294967296).toNat tbuf).world,
        (usb_string_sub K P asynch_allowed w dev dev.string_langid
          (index % 4294967296).toNat tbuf).dev,
        some (store (usb_string_decode t L (size - 1) L 0 2 buf).2
          (usb_string_decode t L (size - 1) L 0 2 buf).1 0)⟩ := by
    have hneL : ¬ ((L : Int) < 0) := by omega
    unfold usb_string_fetch
    simp only [ht, hL, Option.getD_some, Int.toNat_ofNat, if_neg hneL]
  refine ⟨t, _, L, ht, hL, hL2, hLe, by rw [hfetch], by rw [hfetch, d1], ?_, ?_, ?_⟩
  · intro k hk
    rw [d1]
    have hne2 : k ≠ min ((L - 2) / 2) (size - 1) := by omega
    simp only [store, if_neg hne2]
    exact d3 k (by omega) hk
  · rw [d1]; simp [store]
  · intro k hk
    rw [d1]
    have hne2 : k ≠ min ((L - 2) / 2) (size - 1) := by omega
    simp only [store, if_neg hne2]
    exact d4 k (by omega)

/-- The language ID stage followed by the fetch and the decoding loop. -/
theorem usb_string_after_langid {W : Type} (K : usb_defs) (P : platform W) (asynch_allowed : Int)
    (w w1 : W) (dev d1 : usb_device) (index : Int) (buf t1 : Buf) (size : Nat)
    (hidx : index ≠ 0) (hsize : 1 ≤ size)
    (hlang : usb_string_langid K P asynch_allowed w dev = some (w1, d1, t1))
    (hok : 0 ≤ (usb_string_sub K P asynch_allowed w1 d1 d1.string_langid
      (index % 4294967296).toNat t1).ret) :
    ∃ (t out : Buf) (L : Nat),
      (usb_string_sub K P asynch_allowed w1 d1 d1.string_langid
        (index % 4294967296).toNat t1).data = some t ∧
      (usb_string_sub K P asynch_allowed w1 d1 d1.string_langid
        (index % 4294967296).toNat t1).ret = (L : Int) ∧
      2 ≤ L ∧ L % 2 = 0 ∧
      (usb_string K P asynch_allowed w dev index (some buf) size).data = some out ∧
      (usb_string K P asynch_allowed w dev index (some buf) size).ret
        = ((min ((L - 2) / 2) (size - 1) : Nat) : Int) ∧
      (∀ k, k < min ((L - 2) / 2) (size - 1) → out k = decoded_char t k) ∧
      out (min ((L - 2) / 2) (size - 1)) = 0 := by
  rw [usb_string_of_langid K P asynch_allowed w w1 dev d1 index buf t1 size hidx (by omega) hlang]
  obtain ⟨t, out, L, h1, h2, h3, h4, h5, h6, h7, h8, _⟩ :=
    usb_string_fetch_decodes K P asynch_allowed w1 d1 index t1 (store buf 0 0) size hok
  exact ⟨t, out, L, h1, h2, h3, h4, h5, h6, h7, h8⟩

/-- Claim C12: a `usb_string` call with non-zero index, a buffer and capacity
`size >= 1`, whose language ID stage passes and whose descriptor fetch yields
the length `L` over descriptor bytes `t`.  `L` is even and at least 2; with
`n = min ((L - 2) / 2) (size - 1)` the call returns `n`, character `k < n` of
the output is `t[2+2k]` when `t[3+2k]` is zero and a question mark otherwise,
and position `n` holds NUL. -/
theorem usb_string_decodes {W : Type} (K : usb_defs) (P : platform W) (asynch_allowed : Int)
    (w w1 : W) (dev d1 : usb_device) (index : Int) (buf t1 : Buf) (size : Nat)
    (hidx : index ≠ 0) (hsize : 1 ≤ size)
    (hlang : usb_string_langid K P asynch_allowed w dev = some (w1, d1, t1))
    (hok : 0 ≤ (usb_string_sub K P asynch_allowed w1 d1 d1.string_langid
      (index % 4294967296).toNat t1).ret) :
    ∃ (t out : Buf) (L : Nat),
      (usb_string_sub K P asynch_allowed w1 d1 d1.string_langid
        (index % 4294967296).toNat t1).data = some t ∧
      (usb_string_sub K P asynch_allowed w1 d1 d1.string_langid
        (index % 4294967296).toNat t1).ret = (L : Int) ∧
      2 ≤ L ∧ L % 2 = 0 ∧
      (usb_string K P asynch_allowed w dev index (some buf) size).data = some out ∧
      (usb_string K P asynch_allowed w dev index (some buf) size).ret
        = ((min ((L - 2) / 2) (size - 1) : Nat) : Int) ∧
      (∀ k, k < min ((L - 2) / 2) (size - 1) → out k = decoded_char t k) ∧
      out (min ((L - 2) / 2) (size - 1)) = 0 :=
  usb_string_after_langid K P asynch_allowed w w1 dev d1 index buf t1 size hidx hsize hlang hok

theorem usb_string_decodes_witness :
    (usb_string sample_defs (string_platform [] [6, 3, 65, 0, 66, 1] zero_buf) 1 []
      langid_device 1 (some zero_buf) 8).ret = 2 := by
  obtain ⟨t, out, L, _, h2, _, _, _, h6, _, _⟩ :=
    usb_string_decodes sample_defs (string_platform [] [6, 3, 65, 0, 66, 1] zero_buf) 1 [] []
      langid_device langid_device 1 zero_buf zero_buf 8 (by decide) (by decide) rfl (by decide)
  have hL : (usb_string_sub sample_defs (string_platform [] [6, 3, 65, 0, 66, 1] zero_buf) 1 []
      langid_device langid_device.string_langid ((1 : Int) % 4294967296).toNat zero_buf).ret = 6 := by
    decide
  have : L = 6 := by rw [hL] at h2; omega
  subst this
  rw [h6]; rfl

/-- When the first fetch of `usb_string_sub` brings at least two bytes and the
descriptor does not start with two zero bytes, the result is the smaller of the
header length and the fetched length, forced even. -/
theorem usb_string_sub_plain {W : Type} (K : usb_defs) (P : platform W) (asynch_allowed : Int)
    (w : W) (dev : usb_device) (langid index : Nat) (buf t : Buf)
    (hret : 2 ≤ (usb_get_string K P asynch_allowed w dev langid index (some buf) 255).ret)
    (hdata : (usb_get_string K P asynch_allowed w dev langid index (some buf) 255).data = some t)
    (hnz : ¬ (t 0 = 0 ∧ t 1 = 0)) :
    (usb_string_sub K P asynch_allowed w dev langid index buf).data = some t ∧
    (usb_string_sub K P asynch_allowed w dev langid index buf).ret =
      (if (if (((t 0).val : Int) <
              (usb_get_string K P asynch_allowed w dev langid index (some buf) 255).ret)
            then ((t 0).val : Int)
            else (usb_get_string K P asynch_allowed w dev langid index (some buf) 255).ret)
          - Int.land (if (((t 0).val : Int) <
              (usb_get_string K P asynch_allowed w dev langid index (some buf) 255).ret)
            then ((t 0).val : Int)
            else (usb_get_string K P asynch_allowed w dev langid index (some buf) 255).ret) 1 < 2
       then - EINVAL
       else (if (((t 0).val : Int) <
              (usb_get_string K P asynch_allowed w dev langid index (some buf) 255).ret)
            then ((t 0).val : Int)
            else (usb_get_string K P asynch_allowed w dev langid index (some buf) 255).ret)
          - Int.land (if (((t 0).val : Int) <
              (usb_get_string K P asynch_allowed w dev langid index (some buf) 255).ret)
            then ((t 0).val : Int)
            else (usb_get_string K P asynch_allowed w dev langid index (some buf) 255).ret) 1) := by
  have h1 : ¬ ((usb_get_string K P asynch_allowed w dev langid index (some buf) 255).ret < 2) := by
    omega
  have h2 : (usb_get_string K P asynch_allowed w dev langid index (some buf) 255).ret ≥ 2 := hret
  unfold usb_string_sub
  simp only [if_neg h1, hdata, Option.getD_some, if_pos h2, if_neg hnz]
  exact ⟨trivial, trivial⟩

/-- Counterexample to claim C13 as written: a descriptor whose header carries
length 4, followed by the code units `A` and `B`, decodes to the one character
`A`: the header length counts the two header bytes. -/
theorem usb_string_header_four_one_character :
    (usb_string sample_defs (string_platform [] [4, 3, 65, 0, 66, 0] zero_buf) 1 []
      langid_device 1 (some zero_buf) 8).ret = 1 ∧
    ((usb_string sample_defs (string_platform [] [4, 3, 65, 0, 66, 0] zero_buf) 1 []
      langid_device 1 (some zero_buf) 8).data.map (fun out => (out 0, out 1)))
      = some (65, 0) := by
  decide

/-- Claim C13, amended: a string descriptor whose header carries length 6 (the
two header bytes and two code units), of which at least 6 bytes arrive, and
whose two code units have zero high bytes: `usb_string` with the language ID
resolved and capacity at least 3 returns 2, and the output is the two low
bytes followed by NUL. -/
theorem usb_string_two_code_units {W : Type} (K : usb_defs) (P : platform W)
    (asynch_allowed : Int) (w : W) (dev : usb_device) (index : Int) (buf t : Buf) (size : Nat)
    (hidx : index ≠ 0) (hsize : 3 ≤ size) (hlang : dev.have_langid ≠ 0)
    (hret : 6 ≤ (usb_get_string K P asynch_allowed w dev dev.string_langid
      (index % 4294967296).toNat (some (P.stack w)) 255).ret)
    (hdata : (usb_get_string K P asynch_allowed w dev dev.string_langid
      (index % 4294967296).toNat (some (P.stack w)) 255).data = some t)
    (h0 : t 0 = 6) (h3 : t 3 = 0) (h5 : t 5 = 0) :
    (usb_string K P asynch_allowed w dev index (some buf) size).ret = 2 ∧
    ∃ out, (usb_string K P asynch_allowed w dev index (some buf) size).data = some out ∧
      out 0 = t 2 ∧ out 1 = t 4 ∧ out 2 = 0 := by
  have hl : usb_string_langid K P asynch_allowed w dev = some (w, dev, P.stack w) := by
    unfold usb_string_langid
    rw [if_neg hlang]
  have hnz : ¬ (t 0 = 0 ∧ t 1 = 0) := by
    rw [h0]; intro h; exact absurd h.1 (by decide)
  obtain ⟨hd, hr⟩ := usb_string_sub_plain K P asynch_allowed w dev dev.string_langid
    (index % 4294967296).toNat (P.stack w) t (by omega) hdata hnz
  have h6 : (usb_string_sub K P asynch_allowed w dev dev.string_langid
      (index % 4294967296).toNat (P.stack w)).ret = 6 := by
    rw [hr, h0]
    have e : (if (((6 : Byte).val : Int) < (usb_get_string K P asynch_allowed w dev
        dev.string_langid (index % 4294967296).toNat (some (P.stack w)) 255).ret)
        then (((6 : Byte).val : Int))
        else (usb_get_string K P asynch_allowed w dev dev.string_langid
          (index % 4294967296).toNat (some (P.stack w)) 255).ret) = 6 := by
      have : ((6 : Byte).val : Int) = 6 := rfl
      rw [this]
      split_ifs <;> omega
    rw [e]
    decide
  obtain ⟨t2, out, L, e1, e2, _, _, e5, e6, e7, e8⟩ :=
    usb_string_after_langid K P asynch_allowed w w dev dev index buf (P.stack w) size hidx
      (by omega) hl (by rw [h6]; decide)
  have ht : t2 = t := by
    rw [hd] at e1; exact (Option.some.inj e1).symm
  have hL : L = 6 := by rw [h6] at e2; omega
  subst ht; subst hL
  have hn : min ((6 - 2) / 2) (size - 1) = 2 := by omega
  rw [hn] at e6 e7 e8
  refine ⟨e6, out, e5, ?_, ?_, e8⟩
  · rw [e7 0 (by decide)]; unfold decoded_char; rw [if_pos h3]
  · rw [e7 1 (by decide)]; unfold decoded_char; rw [if_pos h5]

theorem usb_string_two_code_units_witness :
    (usb_string sample_defs (string_platform [] [6, 3, 65, 0, 66, 0] zero_buf) 1 []
      langid_device 1 (some zero_buf) 3).ret = 2 ∧
    ∃ out, (usb_string sample_defs (string_platform [] [6, 3, 65, 0, 66, 0] zero_buf) 1 []
      langid_device 1 (some zero_buf) 3).data = some out ∧
      out 0 = (bytes [6, 3, 65, 0, 66, 0]) 2 ∧ out 1 = (bytes [6, 3, 65, 0, 66, 0]) 4 ∧
      out 2 = 0 :=
  usb_string_two_code_units sample_defs (string_platform [] [6, 3, 65, 0, 66, 0] zero_buf) 1 []
    langid_device 1 zero_buf (bytes [6, 3, 65, 0, 66, 0]) 3 (by decide) (by decide) (by decide)
    (by decide) (by
      show some (memcpy zero_buf (bytes [6, 3, 65, 0, 66, 0]) 6) = some (bytes [6, 3, 65, 0, 66, 0])
      congr 1
      funext k
      unfold memcpy bytes
      by_cases hk : k < 6
      · rw [if_pos hk]
      · rw [if_neg hk]
        have : ([6, 3, 65, 0, 66, 0] : List Byte).length ≤ k := by
          show 6 ≤ k
          omega
        rw [List.getD_eq_default _ _ this]
        rfl)
    rfl rfl rfl

/-- The decoding loop writes below the capacity only and stops at it. -/
theorem usb_string_decode_bound (t : Buf) (err size1 : Nat) :
    ∀ (fuel idx u : Nat) (buf : Buf), idx ≤ size1 →
      (usb_string_decode t err size1 fuel idx u buf).1 ≤ size1 ∧
      ∀ k, size1 ≤ k → (usb_string_decode t err size1 fuel idx u buf).2 k = buf k := by
  intro fuel
  induction fuel with
  | zero => intro idx u buf h; exact ⟨h, fun _ _ => rfl⟩
  | succ n ih =>
    intro idx u buf h
    unfold usb_string_decode
    split_ifs with h1 h2 h3
    · exact ⟨h, fun _ _ => rfl⟩
    · obtain ⟨a, b⟩ := ih (idx + 1) (u + 2) (store buf idx 63) (by omega)
      refine ⟨a, fun k hk => ?_⟩
      rw [b k hk]
      unfold store
      rw [if_neg (by omega)]
    · obtain ⟨a, b⟩ := ih (idx + 1) (u + 2) (store buf idx (t u)) (by omega)
      refine ⟨a, fun k hk => ?_⟩
      rw [b k hk]
      unfold store
      rw [if_neg (by omega)]
    · exact ⟨h, fun _ _ => rfl⟩

/-- The second half of `usb_string` leaves every output byte at or beyond the
capacity as it was; on success the length is below the capacity and the byte
at the length is NUL. -/
theorem usb_string_fetch_bound {W : Type} (K : usb_defs) (P : platform W)
    (asynch_allowed : Int) (w : W) (dev : usb_device) (index : Int) (tbuf buf : Buf) (size : Nat)
    (hsize : 1 ≤ size) :
    ∃ out, (usb_string_fetch K P asynch_allowed w dev index tbuf buf size).data = some out ∧
      (∀ k, size ≤ k → out k = buf k) ∧
      (0 ≤ (usb_string_fetch K P asynch_allowed w dev index tbuf buf size).ret →
        (usb_string_fetch K P asynch_allowed w dev index tbuf buf size).ret + 1 ≤ (size : Int) ∧
        out (usb_string_fetch K P asynch_allowed w dev index tbuf buf size).ret.toNat = 0) := by
  unfold usb_string_fetch
  simp only
  split_ifs with h
  · exact ⟨buf, rfl, fun _ _ => rfl, fun h0 => absurd
      (show 0 ≤ (usb_string_sub K P asynch_allowed w dev dev.string_langid
        (index % 4294967296).toNat tbuf).ret from h0) (by omega)⟩
  · obtain ⟨a, b⟩ := usb_string_decode_bound
      ((usb_string_sub K P asynch_allowed w dev dev.string_langid
        (index % 4294967296).toNat tbuf).data.getD tbuf)
      (usb_string_sub K P asynch_allowed w dev dev.string_langid
        (index % 4294967296).toNat tbuf).ret.toNat (size - 1)
      (usb_string_sub K P asynch_allowed w dev dev.string_langid
        (index % 4294967296).toNat tbuf).ret.toNat 0 2 buf (Nat.zero_le _)
    refine ⟨_, rfl, fun k hk => ?_, fun _ => ⟨?_, ?_⟩⟩
    · unfold store
      rw [if_neg (by omega)]
      exact b k (by omega)
    · show ((_ : Nat) : Int) + 1 ≤ (size : Int)
      omega
    · show store _ _ 0 (Int.toNat ((_ : Nat) : Int)) = 0
      rw [Int.toNat_ofNat]
      unfold store
      rw [if_pos rfl]

/-- The output bound of `usb_string`: it writes no output byte at an index
at or beyond the capacity, on success the length is below the capacity and the
byte at the length is NUL; with capacity 0 or string index 0 it returns
`-EINVAL` and the buffer is as it was, and so with a null buffer. -/
theorem usb_string_output_bound {W : Type} (K : usb_defs) (P : platform W)
    (asynch_allowed : Int) (w : W) (dev : usb_device) (index : Int) (buf : Buf) (size : Nat) :
    (∃ out, (usb_string K P asynch_allowed w dev index (some buf) size).data = some out ∧
      (∀ k, size ≤ k → out k = buf k) ∧
      (0 ≤ (usb_string K P asynch_allowed w dev index (some buf) size).ret →
        (usb_string K P asynch_allowed w dev index (some buf) size).ret + 1 ≤ (size : Int) ∧
        out (usb_string K P asynch_allowed w dev index (some buf) size).ret.toNat = 0) ∧
      (size = 0 ∨ index = 0 →
        (usb_string K P asynch_allowed w dev index (some buf) size).ret = - EINVAL ∧ out = buf)) ∧
    usb_string K P asynch_allowed w dev index none size = ⟨- EINVAL, w, dev, none⟩ := by
  refine ⟨?_, rfl⟩
  by_cases hg : size = 0 ∨ index = 0
  · refine ⟨buf, ?_, fun _ _ => rfl, ?_, fun _ => ⟨?_, rfl⟩⟩
    · unfold usb_string; simp only [if_pos hg]
    · unfold usb_string; simp only [if_pos hg]
      intro h; exact absurd h (by decide)
    · unfold usb_string; simp only [if_pos hg]
  · have hs : 1 ≤ size := by
      rcases Nat.eq_zero_or_pos size with h | h
      · exact absurd (Or.inl h) hg
      · exact h
    have hb : ∀ k, size ≤ k → store buf 0 (0 : Byte) k = buf k := by
      intro k hk; unfold store; rw [if_neg (by omega)]
    unfold usb_string
    simp only [if_neg hg]
    split_ifs with h0 h1 h2
    · exact ⟨_, rfl, hb, fun h => absurd (show (0 : Int) ≤ - EIO from h) (by decide),
        fun h => absurd h hg⟩
    · exact ⟨_, rfl, hb, fun h => absurd (show (0 : Int) ≤ - EIO from h) (by decide),
        fun h => absurd h hg⟩
    · obtain ⟨out, e1, e2, e3⟩ := usb_string_fetch_bound K P asynch_allowed
        (usb_string_sub K P asynch_allowed w dev 0 0 (P.stack w)).world
        { (usb_string_sub K P asynch_allowed w dev 0 0 (P.stack w)).dev with
          have_langid := -1,
          string_langid :=
            (((usb_string_sub K P asynch_allowed w dev 0 0 (P.stack w)).data.getD (P.stack w))
              2).val |||
            ((((usb_string_sub K P asynch_allowed w dev 0 0 (P.stack w)).data.getD (P.stack w))
              3).val <<< 8) }
        index ((usb_string_sub K P asynch_allowed w dev 0 0 (P.stack w)).data.getD (P.stack w))
        (store buf 0 0) size hs
      exact ⟨out, e1, fun k hk => (e2 k hk).trans (hb k hk), e3, fun h => absurd h hg⟩
    · obtain ⟨out, e1, e2, e3⟩ := usb_string_fetch_bound K P asynch_allowed w dev index
        (P.stack w) (store buf 0 0) size hs
      exact ⟨out, e1, fun k hk => (e2 k hk).trans (hb k hk), e3, fun h => absurd h hg⟩

/-- A control transfer changes `status` and `act_len` of the device record only:
the language ID fields are as before. -/
theorem usb_control_msg_langid {W : Type} (K : usb_defs) (P : platform W) (asynch_allowed : Int)
    (w : W) (dev : usb_device) (pipe request requesttype value index : Nat) (data : Option Buf)
    (size timeout : Nat) :
    (usb_control_msg K P asynch_allowed w dev pipe request requesttype value index data size
      timeout).dev.have_langid = dev.have_langid ∧
    (usb_control_msg K P asynch_allowed w dev pipe request requesttype value index data size
      timeout).dev.string_langid = dev.string_langid := by
  unfold usb_control_msg submit_control_msg
  simp only
  split_ifs <;> exact ⟨rfl, rfl⟩

theorem usb_get_string_langid {W : Type} (K : usb_defs) (P : platform W) (asynch_allowed : Int)
    (w : W) (dev : usb_device) (langid index : Nat) (buf : Option Buf) (size : Nat) :
    (usb_get_string K P asynch_allowed w dev langid index buf size).dev.have_langid
      = dev.have_langid ∧
    (usb_get_string K P asynch_allowed w dev langid index buf size).dev.string_langid
      = dev.string_langid := by
  have once : ∀ (w : W) (dev : usb_device) (buf : Option Buf),
      (usb_get_string_once K P asynch_allowed w dev (langid % 65536) (index % 256) buf
        size).dev.have_langid = dev.have_langid ∧
      (usb_get_string_once K P asynch_allowed w dev (langid % 65536) (index % 256) buf
        size).dev.string_langid = dev.string_langid := by
    intro w dev buf
    exact usb_control_msg_langid K P asynch_allowed w dev _ _ _ _ _ _ _ _
  unfold usb_get_string
  simp only
  split_ifs
  · exact once w dev buf
  · obtain ⟨a1, b1⟩ := once w dev buf
    obtain ⟨a2, b2⟩ := once
      (usb_get_string_once K P asynch_allowed w dev (langid % 65536) (index % 256) buf size).world
      (usb_get_string_once K P asynch_allowed w dev (langid % 65536) (index % 256) buf size).dev
      (usb_get_string_once K P asynch_allowed w dev (langid % 65536) (index % 256) buf size).data
    exact ⟨a2.trans a1, b2.trans b1⟩
  · obtain ⟨a1, b1⟩ := once w dev buf
    obtain ⟨a2, b2⟩ := once
      (usb_get_string_once K P asynch_allowed w dev (langid % 65536) (index % 256) buf size).world
      (usb_get_string_once K P asynch_allowed w dev (langid % 65536) (index % 256) buf size).dev
      (usb_get_string_once K P asynch_allowed w dev (langid % 65536) (index % 256) buf size).data
    obtain ⟨a3, b3⟩ := once _ _ _
    exact ⟨a3.trans (a2.trans a1), b3.trans (b2.trans b1)⟩

theorem usb_string_sub_langid {W : Type} (K : usb_defs) (P : platform W) (asynch_allowed : Int)
    (w : W) (dev : usb_device) (langid index : Nat) (buf : Buf) :
    (usb_string_sub K P asynch_allowed w dev langid index buf).dev.have_langid
      = dev.have_langid ∧
    (usb_string_sub K P asynch_allowed w dev langid index buf).dev.string_langid
      = dev.string_langid := by
  have g := usb_get_string_langid K P asynch_allowed
  unfold usb_string_sub
  simp only
  split_ifs
  · obtain ⟨a1, b1⟩ := g w dev langid index (some buf) 255
    obtain ⟨a2, b2⟩ := g (usb_get_string K P asynch_allowed w dev langid index (some buf) 255).world
      (usb_get_string K P asynch_allowed w dev langid index (some buf) 255).dev langid index
      (usb_get_string K P asynch_allowed w dev langid index (some buf) 255).data 2
    obtain ⟨a3, b3⟩ := g _ _ _ _ _ _
    exact ⟨a3.trans (a2.trans a1), b3.trans (b2.trans b1)⟩
  · obtain ⟨a1, b1⟩ := g w dev langid index (some buf) 255
    obtain ⟨a2, b2⟩ := g _ _ _ _ _ _
    exact ⟨a2.trans a1, b2.trans b1⟩
  · exact g w dev langid index (some buf) 255

theorem usb_string_fetch_langid {W : Type} (K : usb_defs) (P : platform W) (asynch_allowed : Int)
    (w : W) (dev : usb_device) (index : Int) (tbuf buf : Buf) (size : Nat) :
    (usb_string_fetch K P asynch_allowed w dev index tbuf buf size).dev.have_langid
      = dev.have_langid ∧
    (usb_string_fetch K P asynch_allowed w dev index tbuf buf size).dev.string_langid
      = dev.string_langid := by
  unfold usb_string_fetch
  simp only
  split_ifs <;> exact usb_string_sub_langid K P asynch_allowed w dev _ _ tbuf

/-- The result of the second half of `usb_string` is `-EINVAL` or a length. -/
theorem usb_string_fetch_ret {W : Type} (K : usb_defs) (P : platform W) (asynch_allowed : Int)
    (w : W) (dev : usb_device) (index : Int) (tbuf buf : Buf) (size : Nat) :
    (usb_string_fetch K P asynch_allowed w dev index tbuf buf size).ret = - EINVAL ∨
    0 ≤ (usb_string_fetch K P asynch_allowed w dev index tbuf buf size).ret := by
  unfold usb_string_fetch
  simp only
  split_ifs with h
  · rcases (usb_string_sub_ret K P asynch_allowed w dev dev.string_langid
      (index % 4294967296).toNat tbuf).1 with e | e
    · exact Or.inl e
    · exact absurd h (by omega)
  · exact Or.inr (Int.natCast_nonneg _)

set_option maxRecDepth 100000 in
/-- The language ID stage on a device that answers string index 0 with the two
bytes `04 03`: the stage passes and the ID is made of the bytes the staging
buffer held before. -/
theorem usb_string_langid_short_reply (g : Buf) :
    usb_string_langid sample_defs (string_platform [4, 3] [4, 3, 65, 0] g) 1 [] zero_device
      = some ([768],
          { zero_device with status := 0, act_len := 2, have_langid := -1,
                             string_langid := (g 2).val ||| ((g 3).val <<< 8) },
          memcpy g (bytes [4, 3]) 2) := by
  with_unfolding_all rfl

set_option maxRecDepth 100000 in
/-- Claim C14 (the bound on reads of the staging buffer fails): on a device that
answers string index 0 with the two bytes `04 03`, `usb_string_sub` reports 2
bytes, and `usb_string` takes the language ID from bytes 2 and 3 of the staging
buffer, which hold whatever `g` the stack held before the call. -/
theorem usb_string_langid_reads_beyond_reported_length (g : Buf) :
    (usb_string_sub sample_defs (string_platform [4, 3] [4, 3, 65, 0] g) 1 [] zero_device 0 0
      g).ret = 2 ∧
    (usb_string sample_defs (string_platform [4, 3] [4, 3, 65, 0] g) 1 [] zero_device 1
      (some zero_buf) 8).dev.string_langid = (g 2).val ||| ((g 3).val <<< 8) ∧
    (usb_string sample_defs (string_platform [4, 3] [4, 3, 65, 0] (bytes [0, 0, 9, 4])) 1 []
      zero_device 1 (some zero_buf) 8).ret = 1 := by
  refine ⟨by with_unfolding_all rfl, ?_, by decide⟩
  rw [usb_string_of_langid sample_defs (string_platform [4, 3] [4, 3, 65, 0] g) 1 [] _
    zero_device _ 1 zero_buf _ 8 (by decide) (by decide) (usb_string_langid_short_reply g)]
  exact (usb_string_fetch_langid _ _ _ _ _ _ _ _ _).2

/-- Claim C15 (a short index-0 result is not rejected): when the language ID is
not resolved, the index-0 fetch does not fail and the first byte of the staging
buffer is at least 4, `usb_string` does not return `-EIO`, marks the language
ID resolved and takes it from bytes 2 and 3 of the staging buffer, whatever
number of bytes the fetch reported. -/
theorem usb_string_accepts_short_langid_result {W : Type} (K : usb_defs) (P : platform W)
    (asynch_allowed : Int) (w : W) (dev : usb_device) (index : Int) (buf : Buf) (size : Nat)
    (hidx : index ≠ 0) (hsize : size ≠ 0) (h0 : dev.have_langid = 0)
    (hret : 0 ≤ (usb_string_sub K P asynch_allowed w dev 0 0 (P.stack w)).ret)
    (hhdr : 4 ≤ (((usb_string_sub K P asynch_allowed w dev 0 0 (P.stack w)).data.getD
      (P.stack w)) 0).val) :
    (usb_string K P asynch_allowed w dev index (some buf) size).ret ≠ - EIO ∧
    (usb_string K P asynch_allowed w dev index (some buf) size).dev.have_langid = -1 ∧
    (usb_string K P asynch_allowed w dev index (some buf) size).dev.string_langid
      = (((usb_string_sub K P asynch_allowed w dev 0 0 (P.stack w)).data.getD (P.stack w))
          2).val |||
        ((((usb_string_sub K P asynch_allowed w dev 0 0 (P.stack w)).data.getD (P.stack w))
          3).val <<< 8) := by
  have hl : usb_string_langid K P asynch_allowed w dev = some
      ((usb_string_sub K P asynch_allowed w dev 0 0 (P.stack w)).world,
        { (usb_string_sub K P asynch_allowed w dev 0 0 (P.stack w)).dev with
          have_langid := -1,
          string_langid :=
            (((usb_string_sub K P asynch_allowed w dev 0 0 (P.stack w)).data.getD (P.stack w))
              2).val |||
            ((((usb_string_sub K P asynch_allowed w dev 0 0 (P.stack w)).data.getD (P.stack w))
              3).val <<< 8) },
        (usb_string_sub K P asynch_allowed w dev 0 0 (P.stack w)).data.getD (P.stack w)) := by
    unfold usb_string_langid
    rw [if_pos h0, if_neg (by omega), if_neg (by omega)]
  rw [usb_string_of_langid K P asynch_allowed w _ dev _ index buf _ size hidx hsize hl]
  refine ⟨?_, (usb_string_fetch_langid _ _ _ _ _ _ _ _ _).1,
    (usb_string_fetch_langid _ _ _ _ _ _ _ _ _).2⟩
  rcases usb_string_fetch_ret K P asynch_allowed
    (usb_string_sub K P asynch_allowed w dev 0 0 (P.stack w)).world
    { (usb_string_sub K P asynch_allowed w dev 0 0 (P.stack w)).dev with
      have_langid := -1,
      string_langid :=
        (((usb_string_sub K P asynch_allowed w dev 0 0 (P.stack w)).data.getD (P.stack w))
          2).val |||
        ((((usb_string_sub K P asynch_allowed w dev 0 0 (P.stack w)).data.getD (P.stack w))
          3).val <<< 8) }
    index ((usb_string_sub K P asynch_allowed w dev 0 0 (P.stack w)).data.getD (P.stack w))
    (store buf 0 0) size with e | e
  · rw [e]; decide
  · intro h
    rw [h] at e
    exact absurd e (by decide)

theorem usb_string_accepts_short_langid_result_witness :
    (usb_string_sub sample_defs (string_platform [4, 3] [4, 3, 65, 0] zero_buf) 1 [] zero_device
      0 0 zero_buf).ret = 2 ∧
    (usb_string sample_defs (string_platform [4, 3] [4, 3, 65, 0] zero_buf) 1 [] zero_device 1
      (some zero_buf) 8).ret ≠ - EIO ∧
    (usb_string sample_defs (string_platform [4, 3] [4, 3, 65, 0] zero_buf) 1 [] zero_device 1
      (some zero_buf) 8).dev.have_langid = -1 :=
  ⟨by decide,
   (usb_string_accepts_short_langid_result sample_defs
      (string_platform [4, 3] [4, 3, 65, 0] zero_buf) 1 [] zero_device 1 zero_buf 8
      (by decide) (by decide) (by decide) (by decide) (by decide)).1,
   (usb_string_accepts_short_langid_result sample_defs
      (string_platform [4, 3] [4, 3, 65, 0] zero_buf) 1 [] zero_device 1 zero_buf 8
      (by decide) (by decide) (by decide) (by decide) (by decide)).2.1⟩

/-! ## Theorems: interface slots and their users -/

theorem parse_loop_ss_ep_comp (K : usb_defs) (buffer : Buf) (fuel : Nat) (s : parse_state)
    (ht : bDescriptorType (at_offset buffer s.index) = USB_DT_SS_ENDPOINT_COMP)
    (hlen : bLength (at_offset buffer s.index) = USB_DT_SS_EP_COMP_SIZE)
    (hfit : s.index + USB_DT_SS_EP_COMP_SIZE
      ≤ usb_config_descriptor.wTotalLength s.dev.config.desc)
    (hif : 0 ≤ s.ifno) (hep : 0 ≤ s.epno) :
    parse_loop K buffer (fuel + 1) s = parse_loop K buffer fuel { s with
      dev := set_if_desc s.dev s.ifno.toNat { s.dev.config.if_desc s.ifno.toNat with
        ss_ep_comp_desc := store (s.dev.config.if_desc s.ifno.toNat).ss_ep_comp_desc
          s.epno.toNat
          (memcpy ((s.dev.config.if_desc s.ifno.toNat).ss_ep_comp_desc s.epno.toNat)
            (at_offset buffer s.index) USB_DT_SS_EP_COMP_SIZE) },
      index := s.index + USB_DT_SS_EP_COMP_SIZE } := by
  have h1 : ¬ (s.index + USB_DT_SS_EP_COMP_SIZE >
      usb_config_descriptor.wTotalLength s.dev.config.desc) := by omega
  have h2 : ¬ (s.ifno < 0 ∨ s.epno < 0) := by omega
  have hg : parse_guard buffer s := by
    refine ⟨?_, by rw [hlen]; decide⟩
    have : USB_DT_SS_EP_COMP_SIZE = 6 := rfl
    omega
  have hty : ¬ (USB_DT_SS_ENDPOINT_COMP = USB_DT_INTERFACE) := by decide
  have hty2 : ¬ (USB_DT_SS_ENDPOINT_COMP = USB_DT_INTERFACE_ASSOCIATION) := by decide
  have hty3 : ¬ (USB_DT_SS_ENDPOINT_COMP = USB_DT_CS_INTERFACE ∨
      USB_DT_SS_ENDPOINT_COMP = USB_DT_CS_ENDPOINT) := by decide
  have hty4 : ¬ (USB_DT_SS_ENDPOINT_COMP = USB_DT_ENDPOINT) := by decide
  rw [parse_loop, if_pos hg]
  simp only [parse_record, ht, if_neg hty, if_neg hty2, if_neg hty3, if_neg hty4, if_true,
    parse_ss_ep_comp, hlen, ne_eq, not_true_eq_false, if_false, if_neg h1, if_neg h2]

/-- The search of `usb_set_interface` finds nothing when none of the first
`bNumInterfaces` slots carries the interface number. -/
theorem usb_set_interface_find_none (dev : usb_device) (interface : Int)
    (h : ∀ i, i < usb_config_descriptor.bNumInterfaces dev.config.desc →
      (usb_interface_descriptor.bInterfaceNumber (dev.config.if_desc i).desc : Int) ≠ interface) :
    usb_set_interface_find dev interface = none := by
  unfold usb_set_interface_find
  rw [List.find?_eq_none]
  intro i hi
  rw [List.mem_range] at hi
  simpa using h i hi

/-- Claim C16 (as the code behaves, at the failing input): with room for three
interface slots, `second_interface_config` is parsed with status 0 into three
slots, of which slot 2 holds interface number 1 with exactly one alternate
setting; yet `usb_set_interface` on interface number 1 returns `-EINVAL`: its
search covers the `bNumInterfaces = 2` first slots only. -/
theorem usb_set_interface_misses_slot (K : usb_defs) {W : Type} (P : platform W)
    (asynch_allowed : Int) (w : W) (dev : usb_device) (alternate : Int)
    (hK : 3 ≤ K.USB_MAXINTERFACES) :
    ∃ d, usb_parse_config K dev second_interface_config 0 = some (0, d) ∧
      d.config.no_of_if = 3 ∧
      usb_interface_descriptor.bInterfaceNumber (d.config.if_desc 2).desc = 1 ∧
      (d.config.if_desc 2).num_altsetting = 1 ∧
      usb_set_interface K P asynch_allowed w d 1 alternate = (- EINVAL, w, d) := by
  have ht : bDescriptorType second_interface_config = USB_DT_CONFIG := rfl
  have hl : bLength second_interface_config = USB_DT_CONFIG_SIZE := rfl
  simp only [usb_parse_config, ht, hl, ne_eq, not_true_eq_false, if_false]
  rw [show usb_config_descriptor.wTotalLength
      (parse_init dev second_interface_config 0).dev.config.desc + 1 = 36 + 1 from rfl]
  rw [parse_loop_interface_primary]
  rotate_left
  · rfl
  · rfl
  · exact Nat.le_of_ble_eq_true rfl
  · show ((0 : Nat) : Int) ≠ -1
    decide
  · show 0 < K.USB_MAXINTERFACES
    omega
  rw [parse_loop_interface_alternate]
  rotate_left
  · exact 0
  · rfl
  · rfl
  · exact Nat.le_of_ble_eq_true rfl
  · rfl
  · show 0 + 1 < K.USB_MAXINTERFACES
    omega
  · rfl
  rw [parse_loop_interface_primary]
  rotate_left
  · rfl
  · rfl
  · exact Nat.le_of_ble_eq_true rfl
  · show ((1 : Nat) : Int) ≠ ((0 : Nat) : Int)
    decide
  · show 0 + 1 + 1 < K.USB_MAXINTERFACES
    omega
  rw [parse_loop_end]
  rotate_left
  · exact Nat.le_of_ble_eq_true rfl
  refine ⟨_, rfl, rfl, rfl, rfl, ?_⟩
  unfold usb_set_interface
  rw [usb_set_interface_find_none]
  intro i hi
  have hi2 : i < 2 := hi
  interval_cases i
  · show ((0 : Nat) : Int) ≠ 1
    decide
  · show ((0 : Nat) : Int) ≠ 1
    decide

theorem usb_set_interface_misses_slot_witness :
    ∃ d, usb_parse_config sample_defs zero_device second_interface_config 0 = some (0, d) ∧
      d.config.no_of_if = 3 ∧
      usb_interface_descriptor.bInterfaceNumber (d.config.if_desc 2).desc = 1 ∧
      (d.config.if_desc 2).num_altsetting = 1 ∧
      usb_set_interface sample_defs stuck_platform 1 () d 1 0 = (- EINVAL, (), d) :=
  usb_set_interface_misses_slot sample_defs stuck_platform 1 () zero_device 0 (by decide)

/-- When the search of `usb_set_interface` ends at a slot with one alternate
setting, the function returns 0 and submits nothing. -/
theorem usb_set_interface_single_setting {W : Type} (K : usb_defs) (P : platform W)
    (asynch_allowed : Int) (w : W) (dev : usb_device) (interface alternate : Int) (i : Nat)
    (hfind : usb_set_interface_find dev interface = some i)
    (hone : (dev.config.if_desc i).num_altsetting = 1) :
    usb_set_interface K P asynch_allowed w dev interface alternate = (0, w, dev) := by
  unfold usb_set_interface
  rw [hfind]
  simp only [hone, if_true]

/-- Claim C18 (as the code behaves, at the failing input): with room for two
interface slots, `stray_companion_config` is parsed with status 0; slot 1, the
current interface when the companion record is met, holds no endpoint, yet the
six bytes of the record are stored in its companion slot 0: the arm tests the
local `epno`, which still holds the endpoint index of the interface before. -/
theorem usb_parse_config_stores_stray_companion (K : usb_defs) (dev : usb_device)
    (hK : 2 ≤ K.USB_MAXINTERFACES) :
    ∃ d, usb_parse_config K dev stray_companion_config 0 = some (0, d) ∧
      d.config.no_of_if = 2 ∧
      (d.config.if_desc 1).no_of_ep = 0 ∧
      ∀ i, i < 6 → (d.config.if_desc 1).ss_ep_comp_desc 0 i = stray_companion_config (34 + i) := by
  have ht : bDescriptorType stray_companion_config = USB_DT_CONFIG := rfl
  have hl : bLength stray_companion_config = USB_DT_CONFIG_SIZE := rfl
  simp only [usb_parse_config, ht, hl, ne_eq, not_true_eq_false, if_false]
  rw [show usb_config_descriptor.wTotalLength
      (parse_init dev stray_companion_config 0).dev.config.desc + 1 = 40 + 1 from rfl]
  rw [parse_loop_interface_primary]
  rotate_left
  · rfl
  · rfl
  · exact Nat.le_of_ble_eq_true rfl
  · show ((0 : Nat) : Int) ≠ -1
    decide
  · show 0 < K.USB_MAXINTERFACES
    omega
  rw [parse_loop_endpoint]
  rotate_left
  · rfl
  · exact Or.inl rfl
  · exact Nat.le_of_ble_eq_true rfl
  · show (0 : Int) ≤ ((0 : Nat) : Int)
    decide
  · show 0 ≤ K.USB_MAXENDPOINTS
    omega
  rw [parse_loop_interface_primary]
  rotate_left
  · rfl
  · rfl
  · exact Nat.le_of_ble_eq_true rfl
  · show ((1 : Nat) : Int) ≠ ((0 : Nat) : Int)
    decide
  · show 0 + 1 < K.USB_MAXINTERFACES
    omega
  rw [parse_loop_ss_ep_comp]
  rotate_left
  · rfl
  · rfl
  · exact Nat.le_of_ble_eq_true rfl
  · show (0 : Int) ≤ ((0 + 1 : Nat) : Int)
    decide
  · show (0 : Int) ≤ ((0 : Nat) : Int)
    decide
  rw [parse_loop_end]
  rotate_left
  · exact Nat.le_of_ble_eq_true rfl
  refine ⟨_, rfl, rfl, rfl, ?_⟩
  intro i hi
  show memcpy _ (at_offset stray_companion_config 34) 6 i = _
  unfold memcpy
  rw [if_pos hi]
  rfl

theorem usb_parse_config_stores_stray_companion_witness :
    ∃ d, usb_parse_config sample_defs zero_device stray_companion_config 0 = some (0, d) ∧
      d.config.no_of_if = 2 ∧
      (d.config.if_desc 1).no_of_ep = 0 ∧
      ∀ i, i < 6 → (d.config.if_desc 1).ss_ep_comp_desc 0 i = stray_companion_config (34 + i) :=
  usb_parse_config_stores_stray_companion sample_defs zero_device (by decide)

/-! ## Theorems: the interface slots the parser fills -/

theorem same_interfaces_refl (s : parse_state) : same_interfaces s s :=
  ⟨rfl, rfl, rfl, rfl, fun _ => ⟨rfl, rfl⟩, fun _ _ => rfl, fun h => h⟩

/-- Storing into the current slot a value with the old interface descriptor and
`num_altsetting` leaves the interface bookkeeping alone. -/
theorem same_interfaces_set (s : parse_state) (v : usb_interface) (e : Int) (hif : 0 ≤ s.ifno)
    (h1 : v.num_altsetting = (s.dev.config.if_desc s.ifno.toNat).num_altsetting)
    (h2 : v.desc = (s.dev.config.if_desc s.ifno.toNat).desc) :
    same_interfaces s { s with dev := set_if_desc s.dev s.ifno.toNat v, epno := e } := by
  refine ⟨rfl, rfl, rfl, rfl, fun j => ?_, fun j hj => ?_, fun h => h⟩
  · show (store s.dev.config.if_desc s.ifno.toNat v j).num_altsetting = _ ∧
      (store s.dev.config.if_desc s.ifno.toNat v j).desc = _
    unfold store
    by_cases hj : j = s.ifno.toNat
    · rw [if_pos hj, hj]; exact ⟨h1, h2⟩
    · rw [if_neg hj]; exact ⟨rfl, rfl⟩
  · show store s.dev.config.if_desc s.ifno.toNat v j = _
    unfold store
    rw [if_neg (by omega)]

/-- A record that is not a valid interface record, and with which the loop goes
on, leaves the interface bookkeeping alone. -/
theorem parse_record_other (K : usb_defs) (buffer : Buf) (s s1 : parse_state)
    (hv : ¬ valid_interface buffer (usb_config_descriptor.wTotalLength s.dev.config.desc)
      s.index)
    (h : parse_record K buffer s = flow.next s1) : same_interfaces s s1 := by
  unfold parse_record at h
  simp only at h
  split_ifs at h with t1 t2 t3 t4 t5
  · simp only [parse_interface] at h
    split_ifs at h with a b
    · cases h; exact same_interfaces_refl s
    · cases h; exact same_interfaces_refl s
    all_goals exact absurd ⟨t1, not_not.mp a, by omega⟩ hv
  · simp only [parse_interface_assoc] at h
    split_ifs at h
    · cases h; exact same_interfaces_refl s
    · cases h
      exact ⟨rfl, rfl, rfl, rfl, fun _ => ⟨rfl, rfl⟩, fun _ _ => rfl, fun h => h⟩
  · simp only [parse_class_specific] at h
    split_ifs at h
    split at h
    · cases h
    · cases h
      exact ⟨rfl, rfl, rfl, rfl, fun _ => ⟨rfl, rfl⟩, fun _ _ => rfl,
        fun _ => Option.some_ne_none _⟩
  · simp only [parse_endpoint] at h
    split_ifs at h with a b c d
    · cases h; exact same_interfaces_refl s
    · cases h; exact same_interfaces_refl s
    · cases h; exact same_interfaces_refl s
    · cases h
      exact same_interfaces_set s _ _ (by omega) rfl rfl
  · simp only [parse_ss_ep_comp] at h
    split_ifs at h with a b c
    · cases h; exact same_interfaces_refl s
    · cases h; exact same_interfaces_refl s
    · cases h; exact same_interfaces_refl s
    · cases h
      have := same_interfaces_set s { s.dev.config.if_desc s.ifno.toNat with
        ss_ep_comp_desc := store (s.dev.config.if_desc s.ifno.toNat).ss_ep_comp_desc
          s.epno.toNat
          (memcpy ((s.dev.config.if_desc s.ifno.toNat).ss_ep_comp_desc s.epno.toNat)
            (at_offset buffer s.index) USB_DT_SS_EP_COMP_SIZE) } s.epno (by omega) rfl rfl
      exact this
  · simp only [parse_default] at h
    split_ifs at h
    cases h; exact same_interfaces_refl s

/-- The interface number in a slot filled from the record `head`. -/
theorem bInterfaceNumber_memcpy (old head : Buf) :
    usb_interface_descriptor.bInterfaceNumber (memcpy old head USB_DT_INTERFACE_SIZE)
      = usb_interface_descriptor.bInterfaceNumber head := rfl

theorem parse_record_interface_full (K : usb_defs) (buffer : Buf) (s : parse_state)
    (hv : valid_interface buffer (usb_config_descriptor.wTotalLength s.dev.config.desc) s.index)
    (hfull : K.USB_MAXINTERFACES ≤ s.dev.config.no_of_if) :
    parse_record K buffer s = flow.ret (- EINVAL) { s with ifno := s.dev.config.no_of_if } := by
  obtain ⟨ht, hlen, hfit⟩ := hv
  have h1 : ¬ (s.index + USB_DT_INTERFACE_SIZE >
      usb_config_descriptor.wTotalLength s.dev.config.desc) := by omega
  have h2 : s.dev.config.no_of_if ≥ K.USB_MAXINTERFACES := hfull
  simp only [parse_record, ht, if_true, parse_interface, hlen, ne_eq, not_true_eq_false,
    if_false, h1, h2, ite_self]

theorem parse_record_interface_primary (K : usb_defs) (buffer : Buf) (s : parse_state)
    (hv : valid_interface buffer (usb_config_descriptor.wTotalLength s.dev.config.desc) s.index)
    (hnum : (usb_interface_descriptor.bInterfaceNumber (at_offset buffer s.index) : Int)
      ≠ s.curr_if_num)
    (hroom : s.dev.config.no_of_if < K.USB_MAXINTERFACES) :
    parse_record K buffer s = flow.next (interface_opened s (at_offset buffer s.index)) := by
  obtain ⟨ht, hlen, hfit⟩ := hv
  have h1 : ¬ (s.index + USB_DT_INTERFACE_SIZE >
      usb_config_descriptor.wTotalLength s.dev.config.desc) := by omega
  have h2 : ¬ (s.dev.config.no_of_if ≥ K.USB_MAXINTERFACES) := by omega
  simp only [parse_record, ht, if_true, parse_interface, hlen, ne_eq, not_true_eq_false,
    if_false, h1, hnum, not_false_eq_true, h2, interface_opened]

theorem parse_record_interface_alternate (K : usb_defs) (buffer : Buf) (s : parse_state)
    (p : Nat)
    (hv : valid_interface buffer (usb_config_descriptor.wTotalLength s.dev.config.desc) s.index)
    (hnum : (usb_interface_descriptor.bInterfaceNumber (at_offset buffer s.index) : Int)
      = s.curr_if_num)
    (hroom : s.dev.config.no_of_if < K.USB_MAXINTERFACES)
    (hpri : s.pri_if = some p) :
    parse_record K buffer s = flow.next (alternate_added s (at_offset buffer s.index) p) := by
  obtain ⟨ht, hlen, hfit⟩ := hv
  have h1 : ¬ (s.index + USB_DT_INTERFACE_SIZE >
      usb_config_descriptor.wTotalLength s.dev.config.desc) := by omega
  have h2 : ¬ (s.dev.config.no_of_if ≥ K.USB_MAXINTERFACES) := by omega
  simp only [parse_record, ht, if_true, parse_interface, hlen, ne_eq, not_true_eq_false,
    if_false, h1, hnum, h2, hpri, alternate_added]
  rfl

/-- Every arm that leaves the function returns `-EINVAL` and has not touched the
device record. -/
theorem parse_record_ret (K : usb_defs) (buffer : Buf) (s s1 : parse_state) (e : Int)
    (h : parse_record K buffer s = flow.ret e s1) : e = - EINVAL ∧ s1.dev = s.dev := by
  unfold parse_record at h
  simp only at h
  split_ifs at h
  · simp only [parse_interface] at h
    split_ifs at h
    · cases h; exact ⟨rfl, rfl⟩
    · cases h; exact ⟨rfl, rfl⟩
    · split at h <;> cases h
  · simp only [parse_interface_assoc] at h
    split_ifs at h
  · simp only [parse_class_specific] at h
    split_ifs at h
    · cases h; exact ⟨rfl, rfl⟩
    · split at h <;> cases h
  · simp only [parse_endpoint] at h
    split_ifs at h
    cases h; exact ⟨rfl, rfl⟩
  · simp only [parse_ss_ep_comp] at h
    split_ifs at h
  · simp only [parse_default] at h
    split_ifs at h
    cases h; exact ⟨rfl, rfl⟩

/-- With a buffer for the class specific records and a primary slot whenever an
interface number is current, no arm runs into undefined behaviour. -/
theorem parse_record_defined (K : usb_defs) (buffer : Buf) (s : parse_state)
    (hcs : s.dev.config.pClassSpecificInterfaces ≠ none)
    (hpri : s.pri_if = none → s.curr_if_num = -1) :
    parse_record K buffer s ≠ flow.undef := by
  intro h
  unfold parse_record at h
  simp only at h
  split_ifs at h
  · simp only [parse_interface] at h
    split_ifs at h with a b c d
    split at h
    · rename_i hp
      have := hpri hp
      rw [this] at c
      have hc : (usb_interface_descriptor.bInterfaceNumber (at_offset buffer s.index) : Int)
          = -1 := not_not.mp c
      omega
    · cases h
  · simp only [parse_interface_assoc] at h
    split_ifs at h
  · simp only [parse_class_specific] at h
    split_ifs at h
    split at h
    · rename_i hp
      exact hcs hp
    · cases h
  · simp only [parse_endpoint] at h
    split_ifs at h
  · simp only [parse_ss_ep_comp] at h
    split_ifs at h
  · simp only [parse_default] at h
    split_ifs at h

theorem interface_opened_slot (s : parse_state) (head : Buf) (j : Nat)
    (hj : j ≠ s.dev.config.no_of_if) :
    (interface_opened s head).dev.config.if_desc j = s.dev.config.if_desc j := by
  show store s.dev.config.if_desc s.dev.config.no_of_if _ j = _
  unfold store
  rw [if_neg hj]

theorem interface_opened_new (s : parse_state) (head : Buf) :
    usb_interface_descriptor.bInterfaceNumber
        ((interface_opened s head).dev.config.if_desc s.dev.config.no_of_if).desc
      = usb_interface_descriptor.bInterfaceNumber head ∧
    ((interface_opened s head).dev.config.if_desc s.dev.config.no_of_if).num_altsetting = 1 := by
  have h : (interface_opened s head).dev.config.if_desc s.dev.config.no_of_if =
      { s.dev.config.if_desc s.dev.config.no_of_if with
        desc := memcpy (s.dev.config.if_desc s.dev.config.no_of_if).desc head
          USB_DT_INTERFACE_SIZE,
        no_of_ep := 0,
        num_altsetting := 1 } := by
    show store s.dev.config.if_desc s.dev.config.no_of_if _ s.dev.config.no_of_if = _
    unfold store
    rw [if_pos rfl]
  rw [h]
  exact ⟨rfl, rfl⟩

theorem alternate_added_slot (s : parse_state) (head : Buf) (p j : Nat)
    (hj : j ≠ s.dev.config.no_of_if) (hp : j ≠ p) :
    (alternate_added s head p).dev.config.if_desc j = s.dev.config.if_desc j := by
  show store (store s.dev.config.if_desc s.dev.config.no_of_if _) p _ j = _
  unfold store
  rw [if_neg hp, if_neg hj]

theorem alternate_added_primary (s : parse_state) (head : Buf) (p : Nat)
    (hp : p ≠ s.dev.config.no_of_if) :
    ((alternate_added s head p).dev.config.if_desc p).desc = (s.dev.config.if_desc p).desc ∧
    ((alternate_added s head p).dev.config.if_desc p).num_altsetting
      = (s.dev.config.if_desc p).num_altsetting + 1 := by
  have h : (alternate_added s head p).dev.config.if_desc p =
      { s.dev.config.if_desc p with
        num_altsetting := (s.dev.config.if_desc p).num_altsetting + 1 } := by
    show store (store s.dev.config.if_desc s.dev.config.no_of_if _) p _ p = _
    unfold store
    rw [if_pos rfl]
    simp only [if_neg hp]
  rw [h]
  exact ⟨rfl, rfl⟩

theorem alternate_added_new (s : parse_state) (head : Buf) (p : Nat)
    (hp : p ≠ s.dev.config.no_of_if) :
    usb_interface_descriptor.bInterfaceNumber
        ((alternate_added s head p).dev.config.if_desc s.dev.config.no_of_if).desc
      = usb_interface_descriptor.bInterfaceNumber head ∧
    ((alternate_added s head p).dev.config.if_desc s.dev.config.no_of_if).num_altsetting = 0 := by
  have h : (alternate_added s head p).dev.config.if_desc s.dev.config.no_of_if =
      { s.dev.config.if_desc s.dev.config.no_of_if with
        desc := memcpy (s.dev.config.if_desc s.dev.config.no_of_if).desc head
          USB_DT_INTERFACE_SIZE,
        no_of_ep := 0,
        num_altsetting := 0 } := by
    show store (store s.dev.config.if_desc s.dev.config.no_of_if _) p _
      s.dev.config.no_of_if = _
    unfold store
    rw [if_neg (Ne.symm hp), if_pos rfl]
  rw [h]
  exact ⟨rfl, rfl⟩

/-- Sums over the first `c` slots agree when the summands do. -/
theorem slot_sum_congr (g g1 : Nat → Nat) (c : Nat) (h : ∀ j, j < c → g1 j = g j) :
    ((List.range c).map g1).sum = ((List.range c).map g).sum := by
  induction c with
  | zero => rfl
  | succ n ih =>
    rw [List.sum_range_succ, List.sum_range_succ, ih (fun j hj => h j (by omega)),
      h n (by omega)]

/-- Raising one summand below `c` by one raises the sum by one. -/
theorem slot_sum_bump (g g1 : Nat → Nat) (p : Nat) (h1 : g1 p = g p + 1) :
    ∀ c, p < c → (∀ j, j < c → j ≠ p → g1 j = g j) →
      ((List.range c).map g1).sum = ((List.range c).map g).sum + 1 := by
  intro c
  induction c with
  | zero => intro h; omega
  | succ n ih =>
    intro hp h2
    rw [List.sum_range_succ, List.sum_range_succ]
    by_cases hn : p = n
    · subst hn
      rw [slot_sum_congr g g1 p (fun j hj => h2 j (by omega) (by omega)), h1]
      omega
    · rw [ih (by omega) (fun j hj hjp => h2 j (by omega) hjp),
        h2 n (by omega) (fun h => hn h.symm)]
      omega

theorem altsetting_sum_opened (s : parse_state) (head : Buf) :
    altsetting_sum (interface_opened s head).dev.config = altsetting_sum s.dev.config + 1 := by
  unfold altsetting_sum
  show ((List.range (s.dev.config.no_of_if + 1)).map _).sum = _
  rw [List.sum_range_succ, (interface_opened_new s head).2]
  rw [slot_sum_congr (fun j => (s.dev.config.if_desc j).num_altsetting)
    (fun j => ((interface_opened s head).dev.config.if_desc j).num_altsetting)
    s.dev.config.no_of_if
    (fun j hj => by
      show ((interface_opened s head).dev.config.if_desc j).num_altsetting = _
      rw [interface_opened_slot s head j (by omega)])]

theorem altsetting_sum_alternate (s : parse_state) (head : Buf) (p : Nat)
    (hp : p < s.dev.config.no_of_if) :
    altsetting_sum (alternate_added s head p).dev.config = altsetting_sum s.dev.config + 1 := by
  unfold altsetting_sum
  show ((List.range (s.dev.config.no_of_if + 1)).map _).sum = _
  rw [List.sum_range_succ, (alternate_added_new s head p (by omega)).2]
  rw [slot_sum_bump (fun j => (s.dev.config.if_desc j).num_altsetting)
    (fun j => ((alternate_added s head p).dev.config.if_desc j).num_altsetting) p
    (alternate_added_primary s head p (by omega)).2
    s.dev.config.no_of_if hp
    (fun j hj hjp => by
      show ((alternate_added s head p).dev.config.if_desc j).num_altsetting = _
      rw [alternate_added_slot s head p j (by omega) hjp])]

theorem parse_inv_other (K : usb_defs) (total : Nat) (base : usb_device) (s s1 : parse_state)
    (k : Nat) (hI : parse_inv K total base s) (hs : same_interfaces s s1)
    (hd : s1.dev.config.desc = s.dev.config.desc) :
    parse_inv K total base { s1 with index := k } := by
  obtain ⟨i1, i2, i3, i4, i5, i6, i7⟩ := hI
  obtain ⟨e1, e2, e3, e4, e5, e6, _⟩ := hs
  refine ⟨?_, ?_, ?_, ?_, ?_, ?_, ?_⟩
  · show usb_config_descriptor.wTotalLength s1.dev.config.desc = total
    rw [hd]; exact i1
  · show s1.dev.config.no_of_if ≤ K.USB_MAXINTERFACES
    rw [e1]; exact i2
  · intro i hi
    show s1.dev.config.if_desc i = _
    rw [e6 i (by omega)]
    exact i3 i hi
  · show s1.ifno < (s1.dev.config.no_of_if : Int)
    rw [e1, e4]; exact i4
  · intro p hp
    show p < s1.dev.config.no_of_if
    rw [e1]
    exact i5 p (e2 ▸ hp)
  · intro hp
    show s1.curr_if_num = -1
    rw [e3]
    exact i6 (e2 ▸ hp)
  · show altsetting_sum s1.dev.config = s1.dev.config.no_of_if
    rw [e1, ← i7]
    unfold altsetting_sum
    rw [e1]
    exact slot_sum_congr _ _ _ (fun j _ => (e5 j).1)

theorem parse_inv_opened (K : usb_defs) (total : Nat) (base : usb_device) (s : parse_state)
    (head : Buf) (k : Nat) (hI : parse_inv K total base s)
    (hroom : s.dev.config.no_of_if < K.USB_MAXINTERFACES) :
    parse_inv K total base { interface_opened s head with index := k } := by
  obtain ⟨i1, i2, i3, i4, i5, i6, i7⟩ := hI
  refine ⟨i1, ?_, ?_, ?_, ?_, ?_, ?_⟩
  · show s.dev.config.no_of_if + 1 ≤ K.USB_MAXINTERFACES
    omega
  · intro i hi
    show (interface_opened s head).dev.config.if_desc i = _
    rw [interface_opened_slot s head i (by omega)]
    exact i3 i hi
  · show (s.dev.config.no_of_if : Int) < ((s.dev.config.no_of_if + 1 : Nat) : Int)
    omega
  · intro p hp
    show p < s.dev.config.no_of_if + 1
    have : some s.dev.config.no_of_if = some p := hp
    have := Option.some.inj this
    omega
  · intro hp
    exact absurd (show some s.dev.config.no_of_if = none from hp) (Option.some_ne_none _)
  · show altsetting_sum (interface_opened s head).dev.config = s.dev.config.no_of_if + 1
    rw [altsetting_sum_opened, i7]

theorem parse_inv_alternate (K : usb_defs) (total : Nat) (base : usb_device) (s : parse_state)
    (head : Buf) (p k : Nat) (hI : parse_inv K total base s)
    (hroom : s.dev.config.no_of_if < K.USB_MAXINTERFACES) (hpri : s.pri_if = some p) :
    parse_inv K total base { alternate_added s head p with index := k } := by
  obtain ⟨i1, i2, i3, i4, i5, i6, i7⟩ := hI
  have hp := i5 p hpri
  refine ⟨i1, ?_, ?_, ?_, ?_, ?_, ?_⟩
  · show s.dev.config.no_of_if + 1 ≤ K.USB_MAXINTERFACES
    omega
  · intro i hi
    show (alternate_added s head p).dev.config.if_desc i = _
    rw [alternate_added_slot s head p i (by omega) (by omega)]
    exact i3 i hi
  · show (s.dev.config.no_of_if : Int) < ((s.dev.config.no_of_if + 1 : Nat) : Int)
    omega
  · intro q hq
    show q < s.dev.config.no_of_if + 1
    have := i5 q hq
    omega
  · intro hq
    have hq1 : s.pri_if = none := hq
    rw [hpri] at hq1
    exact absurd hq1 (Option.some_ne_none _)
  · show altsetting_sum (alternate_added s head p).dev.config = s.dev.config.no_of_if + 1
    rw [altsetting_sum_alternate s head p hp, i7]

/-- The parser enters its loop with the invariant. -/
theorem parse_inv_init (K : usb_defs) (dev : usb_device) (buffer : Buf) (cfgno : Int) :
    parse_inv K (usb_config_descriptor.wTotalLength buffer) dev (parse_init dev buffer cfgno) := by
  refine ⟨rfl, Nat.zero_le _, fun _ _ => rfl, ?_, ?_, fun _ => rfl, rfl⟩
  · show (-1 : Int) < ((0 : Nat) : Int)
    decide
  · intro p hp
    exact absurd (show (none : Option Nat) = some p from hp) (Option.noConfusion)

/-- One record under the invariant: the loop goes on with the invariant and the
cursor where it was, or the function is left with `-EINVAL` and the device
record untouched, or, without a buffer for class specific records, the
behaviour is undefined. -/
theorem parse_record_cases (K : usb_defs) (buffer : Buf) (total : Nat) (base : usb_device)
    (s : parse_state) (hI : parse_inv K total base s) :
    (∃ s1, parse_record K buffer s = flow.next s1 ∧ s1.index = s.index ∧
      (∀ k, parse_inv K total base { s1 with index := k }) ∧
      (s.dev.config.pClassSpecificInterfaces ≠ none →
        s1.dev.config.pClassSpecificInterfaces ≠ none)) ∨
    (∃ s1, parse_record K buffer s = flow.ret (- EINVAL) s1 ∧ s1.dev = s.dev) ∨
    (parse_record K buffer s = flow.undef ∧ s.dev.config.pClassSpecificInterfaces = none) := by
  have htot := hI.1
  cases h : parse_record K buffer s with
  | next s1 =>
    left
    refine ⟨s1, rfl, (parse_record_next K buffer s s1 h).1, ?_, ?_⟩
    · intro k
      by_cases hv : valid_interface buffer
          (usb_config_descriptor.wTotalLength s.dev.config.desc) s.index
      · by_cases hroom : s.dev.config.no_of_if < K.USB_MAXINTERFACES
        · by_cases hnum : (usb_interface_descriptor.bInterfaceNumber
              (at_offset buffer s.index) : Int) = s.curr_if_num
          · cases hp : s.pri_if with
            | none =>
              have := hI.2.2.2.2.2.1 hp
              omega
            | some p =>
              rw [parse_record_interface_alternate K buffer s p hv hnum hroom hp] at h
              cases h
              exact parse_inv_alternate K total base s _ p k hI hroom hp
          · rw [parse_record_interface_primary K buffer s hv hnum hroom] at h
            cases h
            exact parse_inv_opened K total base s _ k hI hroom
        · rw [parse_record_interface_full K buffer s hv (by omega)] at h
          cases h
      · exact parse_inv_other K total base s s1 k hI (parse_record_other K buffer s s1 hv h)
          (parse_record_next K buffer s s1 h).2
    · by_cases hv : valid_interface buffer
          (usb_config_descriptor.wTotalLength s.dev.config.desc) s.index
      · by_cases hroom : s.dev.config.no_of_if < K.USB_MAXINTERFACES
        · by_cases hnum : (usb_interface_descriptor.bInterfaceNumber
              (at_offset buffer s.index) : Int) = s.curr_if_num
          · cases hp : s.pri_if with
            | none =>
              have := hI.2.2.2.2.2.1 hp
              omega
            | some p =>
              rw [parse_record_interface_alternate K buffer s p hv hnum hroom hp] at h
              cases h
              exact fun hc => hc
          · rw [parse_record_interface_primary K buffer s hv hnum hroom] at h
            cases h
            exact fun hc => hc
        · rw [parse_record_interface_full K buffer s hv (by omega)] at h
          cases h
      · exact (parse_record_other K buffer s s1 hv h).2.2.2.2.2.2
  | ret e s1 =>
    right; left
    obtain ⟨he, hd⟩ := parse_record_ret K buffer s s1 e h
    subst he
    exact ⟨s1, rfl, hd⟩
  | undef =>
    right; right
    refine ⟨rfl, ?_⟩
    by_contra hc
    exact parse_record_defined K buffer s hc hI.2.2.2.2.2.1 h

/-- Whatever the loop returns, the status is 0 or `-EINVAL`, at most
`USB_MAXINTERFACES` slots are in use, no slot from `USB_MAXINTERFACES` on has
been written, and the `num_altsetting` of the slots in use sum to their number. -/
theorem parse_loop_inv (K : usb_defs) (buffer : Buf) (total : Nat) (base : usb_device) :
    ∀ (fuel : Nat) (s : parse_state) (r : Int) (s2 : parse_state),
      parse_inv K total base s → parse_loop K buffer fuel s = some (r, s2) →
      (r = 0 ∨ r = - EINVAL) ∧
      s2.dev.config.no_of_if ≤ K.USB_MAXINTERFACES ∧
      (∀ i, K.USB_MAXINTERFACES ≤ i → s2.dev.config.if_desc i = base.config.if_desc i) ∧
      altsetting_sum s2.dev.config = s2.dev.config.no_of_if := by
  intro fuel
  induction fuel with
  | zero =>
    intro s r s2 _ h
    simp only [parse_loop] at h
    cases h
  | succ n ih =>
    intro s r s2 hI h
    rw [parse_loop] at h
    by_cases hg : parse_guard buffer s
    · rw [if_pos hg] at h
      rcases parse_record_cases K buffer total base s hI with
        ⟨s1, e1, _, e3, _⟩ | ⟨s1, e1, e2⟩ | ⟨e1, _⟩
      · rw [e1] at h
        exact ih _ r s2 (e3 _) h
      · rw [e1] at h
        simp only [Option.some.injEq, Prod.mk.injEq] at h
        obtain ⟨h1, h2⟩ := h
        subst h1; subst h2
        rw [e2]
        exact ⟨Or.inr rfl, hI.2.1, hI.2.2.1, hI.2.2.2.2.2.2⟩
      · rw [e1] at h
        cases h
    · rw [if_neg hg] at h
      simp only [Option.some.injEq, Prod.mk.injEq] at h
      obtain ⟨h1, h2⟩ := h
      subst h1; subst h2
      exact ⟨Or.inl rfl, hI.2.1, hI.2.2.1, hI.2.2.2.2.2.2⟩

/-- With a buffer for the class specific records, the loop returns once the
fuel covers the rest of the declared length. -/
theorem parse_loop_returns (K : usb_defs) (buffer : Buf) (total : Nat) (base : usb_device) :
    ∀ (fuel : Nat) (s : parse_state),
      parse_inv K total base s → s.dev.config.pClassSpecificInterfaces ≠ none →
      0 < fuel → total ≤ s.index + fuel →
      ∃ r s2, parse_loop K buffer fuel s = some (r, s2) := by
  intro fuel
  induction fuel with
  | zero => intro s _ _ h; omega
  | succ n ih =>
    intro s hI hcs _ hfuel
    rw [parse_loop]
    by_cases hg : parse_guard buffer s
    · rw [if_pos hg]
      rcases parse_record_cases K buffer total base s hI with
        ⟨s1, e1, e2, e3, e4⟩ | ⟨s1, e1, _⟩ | ⟨_, e2⟩
      · rw [e1]
        have hlen : 0 < bLength (at_offset buffer s.index) := Nat.pos_of_ne_zero hg.2
        have hlt : s.index + 1 < total := by
          have := hg.1
          rw [hI.1] at this
          exact this
        exact ih _ (e3 _) (e4 hcs) (by omega) (by show total ≤ s1.index + _ + n; omega)
      · rw [e1]
        exact ⟨_, _, rfl⟩
      · exact absurd e2 hcs
    · rw [if_neg hg]
      exact ⟨_, _, rfl⟩

theorem interface_records_stop (buffer : Buf) (total fuel index : Nat)
    (h : ¬ (index + 1 < total ∧ bLength (at_offset buffer index) ≠ 0)) :
    interface_records buffer total (fuel + 1) index = [] := by
  rw [interface_records, if_neg h]

theorem interface_records_valid (buffer : Buf) (total fuel index : Nat)
    (h : index + 1 < total ∧ bLength (at_offset buffer index) ≠ 0)
    (hv : valid_interface buffer total index) :
    interface_records buffer total (fuel + 1) index
      = usb_interface_descriptor.bInterfaceNumber (at_offset buffer index) ::
          interface_records buffer total fuel (index + bLength (at_offset buffer index)) := by
  rw [interface_records, if_pos h, if_pos hv]

theorem interface_records_other (buffer : Buf) (total fuel index : Nat)
    (h : index + 1 < total ∧ bLength (at_offset buffer index) ≠ 0)
    (hv : ¬ valid_interface buffer total index) :
    interface_records buffer total (fuel + 1) index
      = interface_records buffer total fuel (index + bLength (at_offset buffer index)) := by
  rw [interface_records, if_pos h, if_neg hv]

/-- The slots a successful run of the loop fills, from the state `s` on: one
slot per valid interface record from the cursor on, in stream order, with the
`num_altsetting` the records call for; of the slots in use before, the
interface numbers stay and the primary slot's `num_altsetting` grows by the
number of records that repeat the current interface number. -/
theorem parse_loop_trace (K : usb_defs) (buffer : Buf) (total : Nat) (base : usb_device) :
    ∀ (fuel : Nat) (s s2 : parse_state),
      parse_inv K total base s → parse_loop K buffer fuel s = some (0, s2) →
      s2.dev.config.no_of_if
        = s.dev.config.no_of_if + (interface_records buffer total fuel s.index).length ∧
      (∀ j, j < s.dev.config.no_of_if →
        usb_interface_descriptor.bInterfaceNumber (s2.dev.config.if_desc j).desc
          = usb_interface_descriptor.bInterfaceNumber (s.dev.config.if_desc j).desc ∧
        (s2.dev.config.if_desc j).num_altsetting
          = (s.dev.config.if_desc j).num_altsetting +
            (if s.pri_if = some j then
              repeats_of s.curr_if_num (interface_records buffer total fuel s.index)
             else 0)) ∧
      (∀ j, j < (interface_records buffer total fuel s.index).length →
        usb_interface_descriptor.bInterfaceNumber
            (s2.dev.config.if_desc (s.dev.config.no_of_if + j)).desc
          = (interface_records buffer total fuel s.index).getD j 0 ∧
        (s2.dev.config.if_desc (s.dev.config.no_of_if + j)).num_altsetting
          = (expected_altsettings s.curr_if_num
              (interface_records buffer total fuel s.index)).getD j 0) := by
  intro fuel
  induction fuel with
  | zero =>
    intro s s2 _ h
    simp only [parse_loop] at h
    cases h
  | succ n ih =>
    intro s s2 hI h
    have htot := hI.1
    rw [parse_loop] at h
    by_cases hg : parse_guard buffer s
    · rw [if_pos hg] at h
      have hg1 : s.index + 1 < total ∧ bLength (at_offset buffer s.index) ≠ 0 := by
        have := hg
        unfold parse_guard at this
        rw [htot] at this
        exact this
      by_cases hv : valid_interface buffer total s.index
      · have hv1 : valid_interface buffer
            (usb_config_descriptor.wTotalLength s.dev.config.desc) s.index := by
          rw [htot]; exact hv
        rw [interface_records_valid buffer total n s.index hg1 hv]
        by_cases hroom : s.dev.config.no_of_if < K.USB_MAXINTERFACES
        · by_cases hnum : (usb_interface_descriptor.bInterfaceNumber
              (at_offset buffer s.index) : Int) = s.curr_if_num
          · cases hp : s.pri_if with
            | none =>
              have := hI.2.2.2.2.2.1 hp
              omega
            | some p =>
              have hpc : p < s.dev.config.no_of_if := hI.2.2.2.2.1 p hp
              rw [parse_record_interface_alternate K buffer s p hv1 hnum hroom hp] at h
              obtain ⟨a1, a2, a3⟩ := ih _ s2
                (parse_inv_alternate K total base s (at_offset buffer s.index) p _ hI hroom hp) h
              have b1 : ∀ j, j < s.dev.config.no_of_if + 1 →
                  usb_interface_descriptor.bInterfaceNumber (s2.dev.config.if_desc j).desc
                    = usb_interface_descriptor.bInterfaceNumber
                        ((alternate_added s (at_offset buffer s.index) p).dev.config.if_desc
                          j).desc ∧
                  (s2.dev.config.if_desc j).num_altsetting
                    = ((alternate_added s (at_offset buffer s.index) p).dev.config.if_desc
                        j).num_altsetting +
                      (if s.pri_if = some j then
                        repeats_of (usb_interface_descriptor.bInterfaceNumber
                            (at_offset buffer s.index))
                          (interface_records buffer total n
                            (s.index + bLength (at_offset buffer s.index)))
                       else 0) := a2
              rw [hp] at b1
              have b2 : ∀ j, j < (interface_records buffer total n
                    (s.index + bLength (at_offset buffer s.index))).length →
                  usb_interface_descriptor.bInterfaceNumber
                      (s2.dev.config.if_desc (s.dev.config.no_of_if + 1 + j)).desc
                    = (interface_records buffer total n
                        (s.index + bLength (at_offset buffer s.index))).getD j 0 ∧
                  (s2.dev.config.if_desc (s.dev.config.no_of_if + 1 + j)).num_altsetting
                    = (expected_altsettings (usb_interface_descriptor.bInterfaceNumber
                            (at_offset buffer s.index))
                        (interface_records buffer total n
                          (s.index + bLength (at_offset buffer s.index)))).getD j 0 := a3
              refine ⟨?_, ?_, ?_⟩
              · have : s2.dev.config.no_of_if = s.dev.config.no_of_if + 1 +
                    (interface_records buffer total n
                      (s.index + bLength (at_offset buffer s.index))).length := a1
                rw [this, List.length_cons]
                omega
              · intro j hj
                obtain ⟨c1, c2⟩ := b1 j (by omega)
                by_cases hjp : j = p
                · subst hjp
                  obtain ⟨d1, d2⟩ := alternate_added_primary s (at_offset buffer s.index) j
                    (by omega)
                  rw [c1, c2, d1, d2, if_pos rfl, if_pos rfl]
                  refine ⟨rfl, ?_⟩
                  simp only [repeats_of, hnum, if_true]
                  rw [← hnum]
                  omega
                · rw [c1, c2, alternate_added_slot s _ p j (by omega) hjp,
                    if_neg (fun h => hjp (Option.some.inj h).symm),
                    if_neg (fun h => hjp (Option.some.inj h).symm)]
                  exact ⟨rfl, rfl⟩
              · intro j hj
                cases j with
                | zero =>
                  obtain ⟨c1, c2⟩ := b1 s.dev.config.no_of_if (by omega)
                  obtain ⟨d1, d2⟩ := alternate_added_new s (at_offset buffer s.index) p
                    (by omega)
                  rw [Nat.add_zero, c1, c2, d1, d2,
                    if_neg (fun h => absurd (Option.some.inj h) (by omega))]
                  refine ⟨rfl, ?_⟩
                  simp only [expected_altsettings, hnum, if_true, List.getD_cons_zero]
                | succ k =>
                  rw [List.length_cons] at hj
                  obtain ⟨c1, c2⟩ := b2 k (by omega)
                  rw [show s.dev.config.no_of_if + (k + 1) = s.dev.config.no_of_if + 1 + k
                    by omega, c1, c2]
                  exact ⟨rfl, rfl⟩
          · rw [parse_record_interface_primary K buffer s hv1 hnum hroom] at h
            obtain ⟨a1, a2, a3⟩ := ih _ s2
              (parse_inv_opened K total base s (at_offset buffer s.index) _ hI hroom) h
            have b1 : ∀ j, j < s.dev.config.no_of_if + 1 →
                usb_interface_descriptor.bInterfaceNumber (s2.dev.config.if_desc j).desc
                  = usb_interface_descriptor.bInterfaceNumber
                      ((interface_opened s (at_offset buffer s.index)).dev.config.if_desc
                        j).desc ∧
                (s2.dev.config.if_desc j).num_altsetting
                  = ((interface_opened s (at_offset buffer s.index)).dev.config.if_desc
                      j).num_altsetting +
                    (if some s.dev.config.no_of_if = some j then
                      repeats_of (usb_interface_descriptor.bInterfaceNumber
                          (at_offset buffer s.index))
                        (interface_records buffer total n
                          (s.index + bLength (at_offset buffer s.index)))
                     else 0) := a2
            have b2 : ∀ j, j < (interface_records buffer total n
                  (s.index + bLength (at_offset buffer s.index))).length →
                usb_interface_descriptor.bInterfaceNumber
                    (s2.dev.config.if_desc (s.dev.config.no_of_if + 1 + j)).desc
                  = (interface_records buffer total n
                      (s.index + bLength (at_offset buffer s.index))).getD j 0 ∧
                (s2.dev.config.if_desc (s.dev.config.no_of_if + 1 + j)).num_altsetting
                  = (expected_altsettings (usb_interface_descriptor.bInterfaceNumber
                          (at_offset buffer s.index))
                      (interface_records buffer total n
                        (s.index + bLength (at_offset buffer s.index)))).getD j 0 := a3
            refine ⟨?_, ?_, ?_⟩
            · have : s2.dev.config.no_of_if = s.dev.config.no_of_if + 1 +
                  (interface_records buffer total n
                    (s.index + bLength (at_offset buffer s.index))).length := a1
              rw [this, List.length_cons]
              omega
            · intro j hj
              obtain ⟨c1, c2⟩ := b1 j (by omega)
              rw [c1, c2, interface_opened_slot s _ j (by omega),
                if_neg (fun h => absurd (Option.some.inj h) (by omega))]
              refine ⟨rfl, ?_⟩
              simp only [repeats_of, hnum, if_false, ite_self]
            · intro j hj
              cases j with
              | zero =>
                obtain ⟨c1, c2⟩ := b1 s.dev.config.no_of_if (by omega)
                obtain ⟨d1, d2⟩ := interface_opened_new s (at_offset buffer s.index)
                rw [Nat.add_zero, c1, c2, d1, d2, if_pos rfl]
                refine ⟨rfl, ?_⟩
                simp only [expected_altsettings, hnum, if_false, List.getD_cons_zero]
                omega
              | succ k =>
                rw [List.length_cons] at hj
                obtain ⟨c1, c2⟩ := b2 k (by omega)
                rw [show s.dev.config.no_of_if + (k + 1) = s.dev.config.no_of_if + 1 + k
                  by omega, c1, c2]
                exact ⟨rfl, rfl⟩
        · rw [parse_record_interface_full K buffer s hv1 (by omega)] at h
          simp only [Option.some.injEq, Prod.mk.injEq] at h
          exact absurd h.1 (by decide)
      · have hv1 : ¬ valid_interface buffer
            (usb_config_descriptor.wTotalLength s.dev.config.desc) s.index := by
          rw [htot]; exact hv
        rw [interface_records_other buffer total n s.index hg1 hv]
        cases hrec : parse_record K buffer s with
        | next s1 =>
          rw [hrec] at h
          have hs := parse_record_other K buffer s s1 hv1 hrec
          obtain ⟨hi, hd⟩ := parse_record_next K buffer s s1 hrec
          obtain ⟨a1, a2, a3⟩ := ih _ s2
            (parse_inv_other K total base s s1 _ hI hs hd) h
          obtain ⟨e1, e2, e3, e4, e5, e6, _⟩ := hs
          have b1 : ∀ j, j < s1.dev.config.no_of_if →
              usb_interface_descriptor.bInterfaceNumber (s2.dev.config.if_desc j).desc
                = usb_interface_descriptor.bInterfaceNumber (s1.dev.config.if_desc j).desc ∧
              (s2.dev.config.if_desc j).num_altsetting
                = (s1.dev.config.if_desc j).num_altsetting +
                  (if s1.pri_if = some j then
                    repeats_of s1.curr_if_num
                      (interface_records buffer total n
                        (s1.index + bLength (at_offset buffer s.index)))
                   else 0) := a2
          have b2 : ∀ j, j < (interface_records buffer total n
                (s1.index + bLength (at_offset buffer s.index))).length →
              usb_interface_descriptor.bInterfaceNumber
                  (s2.dev.config.if_desc (s1.dev.config.no_of_if + j)).desc
                = (interface_records buffer total n
                    (s1.index + bLength (at_offset buffer s.index))).getD j 0 ∧
              (s2.dev.config.if_desc (s1.dev.config.no_of_if + j)).num_altsetting
                = (expected_altsettings s1.curr_if_num
                    (interface_records buffer total n
                      (s1.index + bLength (at_offset buffer s.index)))).getD j 0 := a3
          have b0 : s2.dev.config.no_of_if = s1.dev.config.no_of_if +
              (interface_records buffer total n
                (s1.index + bLength (at_offset buffer s.index))).length := a1
          rw [hi, e1] at b0
          rw [hi, e1, e2, e3] at b1
          rw [hi, e1, e3] at b2
          refine ⟨b0, fun j hj => ?_, b2⟩
          obtain ⟨c1, c2⟩ := b1 j hj
          rw [c1, c2, (e5 j).1, (e5 j).2]
          exact ⟨rfl, rfl⟩
        | ret e s1 =>
          rw [hrec] at h
          obtain ⟨he, _⟩ := parse_record_ret K buffer s s1 e hrec
          simp only [Option.some.injEq, Prod.mk.injEq] at h
          rw [he] at h
          exact absurd h.1 (by decide)
        | undef =>
          rw [hrec] at h
          cases h
    · rw [if_neg hg] at h
      simp only [Option.some.injEq, Prod.mk.injEq] at h
      obtain ⟨_, h2⟩ := h
      subst h2
      have hg1 : ¬ (s.index + 1 < total ∧ bLength (at_offset buffer s.index) ≠ 0) := by
        intro hc
        apply hg
        unfold parse_guard
        rw [htot]
        exact hc
      rw [interface_records_stop buffer total n s.index hg1]
      refine ⟨rfl, fun j _ => ⟨rfl, ?_⟩, fun j hj => absurd hj (by simp)⟩
      simp only [repeats_of, ite_self, Nat.add_zero]

/-- A parse of a buffer with a valid header is a run of the loop from the
initial state. -/
theorem usb_parse_config_loop (K : usb_defs) (dev : usb_device) (buffer : Buf) (cfgno : Int)
    (r : Int) (d : usb_device)
    (htype : bDescriptorType buffer = USB_DT_CONFIG)
    (hlen : bLength buffer = USB_DT_CONFIG_SIZE)
    (h : usb_parse_config K dev buffer cfgno = some (r, d)) :
    ∃ s2, parse_loop K buffer (usb_config_descriptor.wTotalLength buffer + 1)
      (parse_init dev buffer cfgno) = some (r, s2) ∧ s2.dev = d := by
  simp only [usb_parse_config, htype, hlen, ne_eq, not_true_eq_false, if_false] at h
  have h1 : (parse_loop K buffer (usb_config_descriptor.wTotalLength buffer + 1)
      (parse_init dev buffer cfgno)).map (fun x => (x.1, x.2.dev)) = some (r, d) := h
  cases hl : parse_loop K buffer (usb_config_descriptor.wTotalLength buffer + 1)
      (parse_init dev buffer cfgno) with
  | none => rw [hl] at h1; cases h1
  | some x =>
    rw [hl] at h1
    simp only [Option.map_some', Option.some.injEq, Prod.mk.injEq] at h1
    obtain ⟨e1, e2⟩ := h1
    refine ⟨x.2, ?_, e2⟩
    rw [← e1]

/-- Counterexample to claim C17 as written: `nine_interfaces_config` holds nine
valid interface records, yet with eight interface slots the parse ends with
`-EINVAL` and eight slots in use: the ninth record has no slot. -/
theorem usb_parse_config_record_without_slot :
    (stream_interfaces nine_interfaces_config).length = 9 ∧
    (usb_parse_config sample_defs zero_device nine_interfaces_config 0).map
      (fun r => (r.1, r.2.config.no_of_if)) = some (- EINVAL, 8) := by
  decide

/-- Claim C17, amended: for every buffer with a valid configuration header,
whatever `usb_parse_config` returns, the `num_altsetting` of the slots in use
sum to `no_of_if`; and if it returns 0, the slots in use are the valid
interface records of the stream, one slot each and in stream order: slot `j`
holds the interface number of record `j`, and its `num_altsetting` is 0 if the
record repeats the number of the interface record before it and otherwise 1
plus the number of records that repeat its number. -/
theorem usb_parse_config_interface_slots (K : usb_defs) (dev : usb_device) (buffer : Buf)
    (cfgno : Int) (r : Int) (d : usb_device)
    (htype : bDescriptorType buffer = USB_DT_CONFIG)
    (hlen : bLength buffer = USB_DT_CONFIG_SIZE)
    (h : usb_parse_config K dev buffer cfgno = some (r, d)) :
    altsetting_sum d.config = d.config.no_of_if ∧
    (r = 0 →
      d.config.no_of_if = (stream_interfaces buffer).length ∧
      ∀ j, j < (stream_interfaces buffer).length →
        usb_interface_descriptor.bInterfaceNumber (d.config.if_desc j).desc
          = (stream_interfaces buffer).getD j 0 ∧
        (d.config.if_desc j).num_altsetting
          = (expected_altsettings (-1) (stream_interfaces buffer)).getD j 0) := by
  obtain ⟨s2, hl, hd⟩ := usb_parse_config_loop K dev buffer cfgno r d htype hlen h
  have hI := parse_inv_init K dev buffer cfgno
  obtain ⟨_, _, _, b4⟩ := parse_loop_inv K buffer (usb_config_descriptor.wTotalLength buffer) dev
    _ _ r s2 hI hl
  rw [← hd]
  refine ⟨b4, fun hr => ?_⟩
  subst hr
  obtain ⟨a1, _, a3⟩ := parse_loop_trace K buffer (usb_config_descriptor.wTotalLength buffer) dev
    _ _ s2 hI hl
  have c1 : s2.dev.config.no_of_if = 0 + (stream_interfaces buffer).length := a1
  have c3 : ∀ j, j < (stream_interfaces buffer).length →
      usb_interface_descriptor.bInterfaceNumber (s2.dev.config.if_desc (0 + j)).desc
        = (stream_interfaces buffer).getD j 0 ∧
      (s2.dev.config.if_desc (0 + j)).num_altsetting
        = (expected_altsettings (-1) (stream_interfaces buffer)).getD j 0 := a3
  refine ⟨by rw [c1]; omega, fun j hj => ?_⟩
  have := c3 j hj
  rw [Nat.zero_add] at this
  exact this

theorem usb_parse_config_interface_slots_witness :
    ∃ d, usb_parse_config sample_defs zero_device second_interface_config 0 = some (0, d) ∧
      d.config.no_of_if = 3 ∧
      (d.config.if_desc 0).num_altsetting = 2 ∧
      (d.config.if_desc 1).num_altsetting = 0 ∧
      (d.config.if_desc 2).num_altsetting = 1 ∧
      altsetting_sum d.config = 3 := by
  have hd : ∃ d, usb_parse_config sample_defs zero_device second_interface_config 0
      = some (0, d) := ⟨_, rfl⟩
  obtain ⟨d, hd⟩ := hd
  have hs : stream_interfaces second_interface_config = [0, 0, 1] := by decide
  obtain ⟨h3, h12⟩ := usb_parse_config_interface_slots sample_defs zero_device
    second_interface_config 0 0 d rfl rfl hd
  obtain ⟨h1, h2⟩ := h12 rfl
  rw [hs] at h1 h2
  refine ⟨d, hd, h1, (h2 0 (by decide)).2, (h2 1 (by decide)).2, (h2 2 (by decide)).2, ?_⟩
  rw [h3, h1]
  rfl

/-- The interface arm keeps to its limit: for every buffer and every device
record with a buffer for class specific records and at most `USB_MAXINTERFACES`
slots in use, `usb_parse_config` returns, `no_of_if` is at most
`USB_MAXINTERFACES` afterwards whether it succeeds or fails, and a stream with
more than `USB_MAXINTERFACES` valid interface records makes it return
`-EINVAL`. -/
theorem usb_parse_config_interface_count (K : usb_defs) (dev : usb_device) (buffer : Buf)
    (cfgno : Int)
    (hcs : dev.config.pClassSpecificInterfaces ≠ none)
    (hdev : dev.config.no_of_if ≤ K.USB_MAXINTERFACES) :
    ∃ r d, usb_parse_config K dev buffer cfgno = some (r, d) ∧
      d.config.no_of_if ≤ K.USB_MAXINTERFACES ∧
      (K.USB_MAXINTERFACES < (stream_interfaces buffer).length → r = - EINVAL) := by
  by_cases htype : bDescriptorType buffer = USB_DT_CONFIG
  · by_cases hlen : bLength buffer = USB_DT_CONFIG_SIZE
    · have hI := parse_inv_init K dev buffer cfgno
      obtain ⟨r, s2, hl⟩ := parse_loop_returns K buffer (usb_config_descriptor.wTotalLength buffer)
        dev (usb_config_descriptor.wTotalLength buffer + 1) (parse_init dev buffer cfgno) hI hcs
        (Nat.succ_pos _) (by omega)
      obtain ⟨b1, b2, _, _⟩ := parse_loop_inv K buffer
        (usb_config_descriptor.wTotalLength buffer) dev _ _ r s2 hI hl
      refine ⟨r, s2.dev, ?_, b2, fun hmore => ?_⟩
      · simp only [usb_parse_config, htype, hlen, ne_eq, not_true_eq_false, if_false]
        show (parse_loop K buffer (usb_config_descriptor.wTotalLength buffer + 1)
          (parse_init dev buffer cfgno)).map (fun x => (x.1, x.2.dev)) = _
        rw [hl]
        rfl
      · rcases b1 with e | e
        · subst e
          obtain ⟨a1, _, _⟩ := parse_loop_trace K buffer
            (usb_config_descriptor.wTotalLength buffer) dev _ _ s2 hI hl
          have c1 : s2.dev.config.no_of_if = 0 + (stream_interfaces buffer).length := a1
          omega
        · exact e
    · refine ⟨- EINVAL, { dev with configno := cfgno }, ?_, hdev, fun _ => rfl⟩
      simp only [usb_parse_config, htype, hlen, ne_eq, not_true_eq_false, if_false,
        not_false_eq_true, if_true]
  · refine ⟨- EINVAL, { dev with configno := cfgno }, ?_, hdev, fun _ => rfl⟩
    simp only [usb_parse_config, htype, ne_eq, not_false_eq_true, if_true]

/-- Nine interface records against eight slots: the parse returns `-EINVAL`. -/
theorem usb_parse_config_interface_count_sample :
    ∃ r d, usb_parse_config sample_defs fresh_device nine_interfaces_config 0 = some (r, d) ∧
      d.config.no_of_if ≤ 8 ∧ r = - EINVAL := by
  obtain ⟨r, d, h1, h2, h4⟩ := usb_parse_config_interface_count sample_defs fresh_device
    nine_interfaces_config 0 (Option.some_ne_none zero_buf) (by decide)
  exact ⟨r, d, h1, h2, h4 (by decide)⟩

/-- Counterexample to claim C23 as written: for a null device the wrappers that
return a status return -1, which is not `-EINVAL`. -/
theorem submit_null_device_is_not_einval :
    (submit_control_msg stuck_platform () none 0 none 0 ⟨0, 0, 0, 0, 0⟩).1 = -1 ∧
    (submit_bulk_msg failing_ops () none 0 none 0).1 = -1 ∧
    (submit_int_msg failing_ops () none 0 none 0 0).1 = -1 ∧
    (destroy_int_queue failing_ops () none none).1 = -1 ∧
    (-1 : Int) ≠ - EINVAL := by
  decide

/-- Claim C23, amended: for a null device argument each controller binding that
returns a status returns -1, and `create_int_queue` and `poll_int_queue` return
no object; the world and the data buffer are as before whatever the
controller's operations would do, for none of them is called. -/
theorem submit_null_device {W : Type} (P : platform W) (C : ctrl_ops W) (w : W) (pipe : Nat)
    (buffer : Option Buf) (transfer_len : Nat) (setup : devrequest) (len interval : Int)
    (queuesize elementsize : Int) (queue : Option Nat) :
    submit_control_msg P w none pipe buffer transfer_len setup = (-1, w, none, buffer) ∧
    submit_bulk_msg C w none pipe buffer len = (-1, w, none, buffer) ∧
    submit_int_msg C w none pipe buffer len interval = (-1, w, none, buffer) ∧
    destroy_int_queue C w none queue = (-1, w) ∧
    create_int_queue C w none pipe queuesize elementsize buffer interval = (none, w) ∧
    poll_int_queue C w none queue = (none, w) :=
  ⟨rfl, rfl, rfl, rfl, rfl, rfl⟩

theorem lnot_lnot (f : Int) (h : f = 0 ∨ f = 1) : lnot (lnot f) = f := by
  rcases h with h | h <;> subst h <;> rfl

theorem asynch_run_restores (a : asynch_code) :
    ∀ f : Int, (f = 0 ∨ f = 1) → asynch_run a f = f := by
  induction a with
  | other => intro f _; rfl
  | seq a b iha ihb =>
    intro f hf
    show asynch_run b (asynch_run a f) = f
    rw [iha f hf, ihb f hf]
  | exclusive a ih =>
    intro f hf
    show lnot (lnot f) = f
    exact lnot_lnot f hf

/-- Claim C24: `usb_disable_asynch(d)` returns the flag as it was and sets it to
1 when `d` is 0 and to 0 otherwise, so the flag is 0 or 1 after every call; and
from a flag that is 0 or 1, any code built from
`old = usb_disable_asynch(1); ...; usb_disable_asynch(!old)` sections, nested
or one after the other, leaves the flag as it found it. -/
theorem usb_disable_asynch_restores (f d : Int) :
    (usb_disable_asynch f d).1 = f ∧
    (d = 0 → (usb_disable_asynch f d).2 = 1) ∧
    (d ≠ 0 → (usb_disable_asynch f d).2 = 0) ∧
    ((usb_disable_asynch f d).2 = 0 ∨ (usb_disable_asynch f d).2 = 1) ∧
    ((f = 0 ∨ f = 1) → ∀ a : asynch_code, asynch_run a f = f) := by
  refine ⟨rfl, fun h => ?_, fun h => ?_, ?_, fun hf a => asynch_run_restores a f hf⟩
  · show lnot d = 1
    unfold lnot; rw [if_pos h]
  · show lnot d = 0
    unfold lnot; rw [if_neg h]
  · show lnot d = 0 ∨ lnot d = 1
    unfold lnot
    split_ifs
    · exact Or.inr rfl
    · exact Or.inl rfl

theorem usb_disable_asynch_restores_witness :
    asynch_run (asynch_code.exclusive (asynch_code.seq asynch_code.other
      (asynch_code.exclusive asynch_code.other))) 1 = 1 ∧
    (usb_disable_asynch 1 1).2 = 0 :=
  ⟨(usb_disable_asynch_restores 1 1).2.2.2.2 (Or.inr rfl) _,
   (usb_disable_asynch_restores 1 1).2.2.1 (by decide)⟩

/-- A control transfer changes `status` and `act_len` of the device record and
nothing else. -/
theorem usb_control_msg_dev {W : Type} (K : usb_defs) (P : platform W) (asynch_allowed : Int)
    (w : W) (dev : usb_device) (pipe request requesttype value index : Nat) (data : Option Buf)
    (size timeout : Nat) :
    ∃ st al, (usb_control_msg K P asynch_allowed w dev pipe request requesttype value index data
      size timeout).dev = { dev with status := st, act_len := al } := by
  unfold usb_control_msg submit_control_msg
  simp only
  split_ifs
  · exact ⟨dev.status, dev.act_len, rfl⟩
  · exact ⟨_, _, rfl⟩
  · exact ⟨_, _, rfl⟩
  · exact ⟨_, _, rfl⟩
  · exact ⟨_, _, rfl⟩

/-- Claim C25: a `usb_control_msg` call that passes the asynchronous guard hands
the controller the device record with `status` set to `USB_ST_NOT_PROC`; if the
submission returns a negative status, that status is the result; otherwise, if
`timeout` is 0, the result is the requested length `size` (an
`unsigned short`), whatever status and `act_len` the controller has left. -/
theorem usb_control_msg_submission {W : Type} (K : usb_defs) (P : platform W)
    (asynch_allowed : Int) (w : W) (dev : usb_device)
    (pipe request requesttype value index : Nat) (data : Option Buf) (size timeout : Nat)
    (hguard : ¬ (timeout = 0 ∧ asynch_allowed = 0)) :
    submitted K P w dev pipe request requesttype value index data size
      = P.ctrlOps_submit_control_msg w { dev with status := K.USB_ST_NOT_PROC } pipe data
          (size % 65536)
          { requesttype := requesttype % 256, request := request % 256,
            value := value % 65536, index := index % 65536, length := size % 65536 } ∧
    ((submitted K P w dev pipe request requesttype value index data size).1 < 0 →
      (usb_control_msg K P asynch_allowed w dev pipe request requesttype value index data size
        timeout).ret = (submitted K P w dev pipe request requesttype value index data size).1) ∧
    (0 ≤ (submitted K P w dev pipe request requesttype value index data size).1 →
      timeout = 0 →
      (usb_control_msg K P asynch_allowed w dev pipe request requesttype value index data size
        timeout).ret = ((size % 65536 : Nat) : Int)) := by
  refine ⟨rfl, fun h => ?_, fun h ht => ?_⟩
  · have h1 : (P.ctrlOps_submit_control_msg w { dev with status := K.USB_ST_NOT_PROC } pipe data
        (size % 65536) ⟨requesttype % 256, request % 256, value % 65536, index % 65536,
          size % 65536⟩).1 < 0 := h
    simp only [usb_control_msg, submit_control_msg, if_neg hguard, if_pos h1]
    rfl
  · have h1 : ¬ (P.ctrlOps_submit_control_msg w { dev with status := K.USB_ST_NOT_PROC } pipe data
        (size % 65536) ⟨requesttype % 256, request % 256, value % 65536, index % 65536,
          size % 65536⟩).1 < 0 := by
      have := h
      simp only [submitted] at this
      omega
    simp only [usb_control_msg, submit_control_msg, if_neg hguard, if_neg h1, if_pos ht]

theorem usb_control_msg_submission_witness :
    (usb_control_msg sample_defs (demo_platform []) 1 [] zero_device 0 0 0 0 0 none 7 0).ret
      = 7 :=
  (usb_control_msg_submission sample_defs (demo_platform []) 1 [] zero_device 0 0 0 0 0 none 7 0
    (by decide)).2.2 (by decide) rfl

/-- Claim C26: `get_descriptor_len(dev, len, expect_len)`, with `r` the result
of its device descriptor fetch.  A negative `r` is returned, a count in
`[0, expect_len)` gives `-EIO`, and in both cases the stored device descriptor
is as before; a count of at least `expect_len` gives 0 and the stored
descriptor is overwritten with what the staging buffer holds.  In the probe of
`usb_setup_descriptor` a count below 8 makes the function return `-EIO`. -/
theorem get_descriptor_len_short_read {W : Type} (K : usb_defs) (P : platform W)
    (asynch_allowed : Int) (w : W) (dev : usb_device) (len : Nat) (expect_len : Int)
    (hexp : 0 ≤ expect_len) :
    ((usb_get_descriptor K P asynch_allowed w dev USB_DT_DEVICE 0 (some (P.stack w)) len).ret < 0 →
      (get_descriptor_len K P asynch_allowed w dev len expect_len).1
        = (usb_get_descriptor K P asynch_allowed w dev USB_DT_DEVICE 0 (some (P.stack w))
            len).ret) ∧
    (0 ≤ (usb_get_descriptor K P asynch_allowed w dev USB_DT_DEVICE 0 (some (P.stack w)) len).ret →
      (usb_get_descriptor K P asynch_allowed w dev USB_DT_DEVICE 0 (some (P.stack w)) len).ret
        < expect_len →
      (get_descriptor_len K P asynch_allowed w dev len expect_len).1 = - EIO) ∧
    ((usb_get_descriptor K P asynch_allowed w dev USB_DT_DEVICE 0 (some (P.stack w)) len).ret
        < expect_len →
      (get_descriptor_len K P asynch_allowed w dev len expect_len).2.2.descriptor
        = dev.descriptor) ∧
    (expect_len ≤
        (usb_get_descriptor K P asynch_allowed w dev USB_DT_DEVICE 0 (some (P.stack w)) len).ret →
      (get_descriptor_len K P asynch_allowed w dev len expect_len).1 = 0 ∧
      (get_descriptor_len K P asynch_allowed w dev len expect_len).2.2.descriptor
        = memcpy dev.descriptor
            ((usb_get_descriptor K P asynch_allowed w dev USB_DT_DEVICE 0 (some (P.stack w))
              len).data.getD (P.stack w)) USB_DT_DEVICE_SIZE) ∧
    (0 ≤ (usb_get_descriptor K P asynch_allowed w (usb_setup_descriptor_provisional K dev)
        USB_DT_DEVICE 0 (some (P.stack w)) 64).ret →
      (usb_get_descriptor K P asynch_allowed w (usb_setup_descriptor_provisional K dev)
        USB_DT_DEVICE 0 (some (P.stack w)) 64).ret < 8 →
      (usb_setup_descriptor K P asynch_allowed w dev true).1 = - EIO) := by
  have hd : ∀ (d : usb_device) (n : Nat),
      (usb_get_descriptor K P asynch_allowed w d USB_DT_DEVICE 0 (some (P.stack w)) n).dev.descriptor
        = d.descriptor := by
    intro d n
    obtain ⟨st, al, h⟩ := usb_control_msg_dev K P asynch_allowed w d (P.usb_rcvctrlpipe d 0)
      USB_REQ_GET_DESCRIPTOR USB_DIR_IN ((USB_DT_DEVICE <<< 8) + 0) 0 (some (P.stack w)) n
      K.USB_CNTL_TIMEOUT
    show (usb_control_msg K P asynch_allowed w d (P.usb_rcvctrlpipe d 0)
      USB_REQ_GET_DESCRIPTOR USB_DIR_IN ((USB_DT_DEVICE <<< 8) + 0) 0 (some (P.stack w)) n
      K.USB_CNTL_TIMEOUT).dev.descriptor = _
    rw [h]
  refine ⟨fun h => ?_, fun h0 h => ?_, fun h => ?_, fun h => ?_, fun h0 h => ?_⟩
  · have h1 : (usb_get_descriptor K P asynch_allowed w dev USB_DT_DEVICE 0 (some (P.stack w))
        len).ret < expect_len := by omega
    simp only [get_descriptor_len, if_pos h1, if_pos h]
  · have hn : ¬ ((usb_get_descriptor K P asynch_allowed w dev USB_DT_DEVICE 0 (some (P.stack w))
        len).ret < 0) := by omega
    simp only [get_descriptor_len, if_pos h, if_neg hn]
  · simp only [get_descriptor_len, if_pos h]
    split_ifs <;> exact hd dev len
  · have hn : ¬ ((usb_get_descriptor K P asynch_allowed w dev USB_DT_DEVICE 0 (some (P.stack w))
        len).ret < expect_len) := by omega
    simp only [get_descriptor_len, if_neg hn]
    refine ⟨trivial, ?_⟩
    rw [hd dev len]
  · have h1 : (usb_get_descriptor K P asynch_allowed w (usb_setup_descriptor_provisional K dev)
        USB_DT_DEVICE 0 (some (P.stack w)) 64).ret < (8 : Int) := h
    have hn : ¬ ((usb_get_descriptor K P asynch_allowed w (usb_setup_descriptor_provisional K dev)
        USB_DT_DEVICE 0 (some (P.stack w)) 64).ret < 0) := by omega
    have hp : (get_descriptor_len K P asynch_allowed w (usb_setup_descriptor_provisional K dev)
        64 8).1 = - EIO := by
      simp only [get_descriptor_len, if_pos h1, if_neg hn]
    have hne : (get_descriptor_len K P asynch_allowed w (usb_setup_descriptor_provisional K dev)
        64 8).1 ≠ 0 := by
      rw [hp]; decide
    unfold usb_setup_descriptor
    unfold usb_setup_descriptor_provisional at hp hne
    simp only [if_true, if_pos hne]
    exact hp

theorem get_descriptor_len_short_read_witness :
    (get_descriptor_len sample_defs (demo_platform []) 1 [] zero_device 64 32).1 = - EIO ∧
    (get_descriptor_len sample_defs (demo_platform []) 1 [] zero_device 64 32).2.2.descriptor
      = zero_device.descriptor :=
  ⟨(get_descriptor_len_short_read sample_defs (demo_platform []) 1 [] zero_device 64 32
      (by decide)).2.1 (by decide) (by decide),
   (get_descriptor_len_short_read sample_defs (demo_platform []) 1 [] zero_device 64 32
      (by decide)).2.2.1 (by decide)⟩

/-- The guards of `usb_get_configuration_no`, with `r` the result of its 9-byte
header fetch.  It returns no buffer when `r` is below 9 and when the header's
`wTotalLength` exceeds 2048.  A buffer it returns is the one `aligned_malloc`
gave for exactly `wTotalLength` bytes, filled by the second fetch and with the
two bytes of the field `wTotalLength` stored at the offsets 2 and 3; the length
is at most 2048, and when it is at least 4, so that the field lies inside the
allocation, the field holds it. -/
theorem usb_get_configuration_no_cases {W : Type} (K : usb_defs) (P : platform W)
    (asynch_allowed : Int) (w : W) (dev : usb_device) (cfgno : Nat) :
    ((usb_get_descriptor K P asynch_allowed w dev USB_DT_CONFIG (cfgno % 256)
        (some (P.stack w)) 9).ret < 9 →
      (usb_get_configuration_no K P asynch_allowed w dev cfgno).1 = none) ∧
    (2048 < usb_config_descriptor.wTotalLength
        ((usb_get_descriptor K P asynch_allowed w dev USB_DT_CONFIG (cfgno % 256)
          (some (P.stack w)) 9).data.getD (P.stack w)) →
      (usb_get_configuration_no K P asynch_allowed w dev cfgno).1 = none) ∧
    (∀ buf, (usb_get_configuration_no K P asynch_allowed w dev cfgno).1 = some buf →
      usb_config_descriptor.wTotalLength
        ((usb_get_descriptor K P asynch_allowed w dev USB_DT_CONFIG (cfgno % 256)
          (some (P.stack w)) 9).data.getD (P.stack w)) ≤ 2048 ∧
      (∃ w2 config, P.aligned_malloc
        (usb_get_descriptor K P asynch_allowed w dev USB_DT_CONFIG (cfgno % 256)
          (some (P.stack w)) 9).world
        (usb_config_descriptor.wTotalLength
          ((usb_get_descriptor K P asynch_allowed w dev USB_DT_CONFIG (cfgno % 256)
            (some (P.stack w)) 9).data.getD (P.stack w))) = (w2, some config) ∧
        buf = store (store
          ((usb_get_descriptor K P asynch_allowed w2
            (usb_get_descriptor K P asynch_allowed w dev USB_DT_CONFIG (cfgno % 256)
              (some (P.stack w)) 9).dev USB_DT_CONFIG (cfgno % 256) (some config)
            (usb_config_descriptor.wTotalLength
              ((usb_get_descriptor K P asynch_allowed w dev USB_DT_CONFIG (cfgno % 256)
                (some (P.stack w)) 9).data.getD (P.stack w)))).data.getD config)
          2 (Fin.ofNat (usb_config_descriptor.wTotalLength
              ((usb_get_descriptor K P asynch_allowed w dev USB_DT_CONFIG (cfgno % 256)
                (some (P.stack w)) 9).data.getD (P.stack w)) % 256)))
          3 (Fin.ofNat (usb_config_descriptor.wTotalLength
              ((usb_get_descriptor K P asynch_allowed w dev USB_DT_CONFIG (cfgno % 256)
                (some (P.stack w)) 9).data.getD (P.stack w)) / 256))) ∧
      (4 ≤ usb_config_descriptor.wTotalLength
          ((usb_get_descriptor K P asynch_allowed w dev USB_DT_CONFIG (cfgno % 256)
            (some (P.stack w)) 9).data.getD (P.stack w)) →
        usb_config_descriptor.wTotalLength buf
          = usb_config_descriptor.wTotalLength
              ((usb_get_descriptor K P asynch_allowed w dev USB_DT_CONFIG (cfgno % 256)
                (some (P.stack w)) 9).data.getD (P.stack w)))) := by
  refine ⟨fun h => ?_, fun h => ?_, fun buf hb => ?_⟩
  · simp only [usb_get_configuration_no, if_pos h]
  · unfold usb_get_configuration_no
    simp only
    split_ifs with h1
    · rfl
    · rfl
  · by_cases h1 : (usb_get_descriptor K P asynch_allowed w dev USB_DT_CONFIG (cfgno % 256)
        (some (P.stack w)) 9).ret < 9
    · simp only [usb_get_configuration_no, if_pos h1] at hb
      cases hb
    · by_cases h2 : usb_config_descriptor.wTotalLength
          ((usb_get_descriptor K P asynch_allowed w dev USB_DT_CONFIG (cfgno % 256)
            (some (P.stack w)) 9).data.getD (P.stack w)) > 2048
      · simp only [usb_get_configuration_no, if_neg h1, if_pos h2] at hb
        cases hb
      · simp only [usb_get_configuration_no, if_neg h1, if_neg h2] at hb
        cases hm : P.aligned_malloc
          (usb_get_descriptor K P asynch_allowed w dev USB_DT_CONFIG (cfgno % 256)
            (some (P.stack w)) 9).world
          (usb_config_descriptor.wTotalLength
            ((usb_get_descriptor K P asynch_allowed w dev USB_DT_CONFIG (cfgno % 256)
              (some (P.stack w)) 9).data.getD (P.stack w))) with
        | mk w2 oc =>
          rw [hm] at hb
          cases oc with
          | none => cases hb
          | some config =>
            simp only at hb
            split_ifs at hb with h3
            cases hb
            refine ⟨by omega, ⟨w2, config, rfl, rfl⟩, fun _ => ?_⟩
            unfold usb_config_descriptor.wTotalLength store
            simp only [if_true, Nat.reduceEqDiff, if_false]
            show (Fin.ofNat _ : Fin 256).val + 256 * (Fin.ofNat _ : Fin 256).val = _
            simp only [Fin.ofNat, Fin.val_mk]
            omega

/-- A header that declares 9 bytes: the buffer comes back with the field set. -/
theorem usb_get_configuration_no_cases_sample :
    ∃ buf, (usb_get_configuration_no sample_defs (demo_platform [9, 2, 9, 0, 1, 1, 0, 0x80, 50]) 1
        [] zero_device 0).1 = some buf ∧
      usb_config_descriptor.wTotalLength buf = 9 := by
  have hb : ∃ buf, (usb_get_configuration_no sample_defs
      (demo_platform [9, 2, 9, 0, 1, 1, 0, 0x80, 50]) 1 [] zero_device 0).1 = some buf :=
    ⟨_, rfl⟩
  obtain ⟨buf, hb⟩ := hb
  obtain ⟨_, _, h3⟩ := (usb_get_configuration_no_cases sample_defs
    (demo_platform [9, 2, 9, 0, 1, 1, 0, 0x80, 50]) 1 [] zero_device 0).2.2 buf hb
  exact ⟨buf, hb, by rw [h3 (by decide)]; decide⟩

/-- Claim C27 (as the code behaves): when the header fetch brings its 9 bytes
and the header declares a total length `L` below 4, `usb_get_configuration_no`
has no lower bound to stop it: `aligned_malloc` is asked for `L` bytes, and when
it gives a buffer and the second fetch does not fail, the function returns that
buffer after storing the field `wTotalLength` at the byte offsets 2 and 3, of
which offset 3 (and for `L` up to 2 also offset 2) lies past the `L` bytes
allocated.  Byte 2 holds `L` and byte 3 holds 0 afterwards. -/
theorem usb_get_configuration_no_stores_past_allocation {W : Type} (K : usb_defs)
    (P : platform W) (asynch_allowed : Int) (w w2 : W) (dev : usb_device) (cfgno : Nat)
    (config : Buf)
    (h9 : 9 ≤ (usb_get_descriptor K P asynch_allowed w dev USB_DT_CONFIG (cfgno % 256)
        (some (P.stack w)) 9).ret)
    (hL : usb_config_descriptor.wTotalLength
        ((usb_get_descriptor K P asynch_allowed w dev USB_DT_CONFIG (cfgno % 256)
          (some (P.stack w)) 9).data.getD (P.stack w)) < 4)
    (hm : P.aligned_malloc
        (usb_get_descriptor K P asynch_allowed w dev USB_DT_CONFIG (cfgno % 256)
          (some (P.stack w)) 9).world
        (usb_config_descriptor.wTotalLength
          ((usb_get_descriptor K P asynch_allowed w dev USB_DT_CONFIG (cfgno % 256)
            (some (P.stack w)) 9).data.getD (P.stack w))) = (w2, some config))
    (h2 : 0 ≤ (usb_get_descriptor K P asynch_allowed w2
        (usb_get_descriptor K P asynch_allowed w dev USB_DT_CONFIG (cfgno % 256)
          (some (P.stack w)) 9).dev USB_DT_CONFIG (cfgno % 256) (some config)
        (usb_config_descriptor.wTotalLength
          ((usb_get_descriptor K P asynch_allowed w dev USB_DT_CONFIG (cfgno % 256)
            (some (P.stack w)) 9).data.getD (P.stack w)))).ret) :
    ∃ buf, (usb_get_configuration_no K P asynch_allowed w dev cfgno).1 = some buf ∧
      buf = store (store
          ((usb_get_descriptor K P asynch_allowed w2
            (usb_get_descriptor K P asynch_allowed w dev USB_DT_CONFIG (cfgno % 256)
              (some (P.stack w)) 9).dev USB_DT_CONFIG (cfgno % 256) (some config)
            (usb_config_descriptor.wTotalLength
              ((usb_get_descriptor K P asynch_allowed w dev USB_DT_CONFIG (cfgno % 256)
                (some (P.stack w)) 9).data.getD (P.stack w)))).data.getD config)
          2 (Fin.ofNat (usb_config_descriptor.wTotalLength
              ((usb_get_descriptor K P asynch_allowed w dev USB_DT_CONFIG (cfgno % 256)
                (some (P.stack w)) 9).data.getD (P.stack w)) % 256)))
          3 (Fin.ofNat (usb_config_descriptor.wTotalLength
              ((usb_get_descriptor K P asynch_allowed w dev USB_DT_CONFIG (cfgno % 256)
                (some (P.stack w)) 9).data.getD (P.stack w)) / 256)) ∧
      usb_config_descriptor.wTotalLength
          ((usb_get_descriptor K P asynch_allowed w dev USB_DT_CONFIG (cfgno % 256)
            (some (P.stack w)) 9).data.getD (P.stack w)) ≤ 3 ∧
      (buf 2).val = usb_config_descriptor.wTotalLength
          ((usb_get_descriptor K P asynch_allowed w dev USB_DT_CONFIG (cfgno % 256)
            (some (P.stack w)) 9).data.getD (P.stack w)) ∧
      (buf 3).val = 0 := by
  refine ⟨_, ?_, rfl, by omega, ?_, ?_⟩
  · unfold usb_get_configuration_no
    simp only
    rw [if_neg (not_lt.mpr h9), if_neg (by omega), hm]
    simp only
    rw [if_neg (not_lt.mpr h2)]
  · unfold store
    simp only [if_true, Nat.reduceEqDiff, if_false]
    show (Fin.ofNat _ : Fin 256).val = _
    simp only [Fin.ofNat, Fin.val_mk]
    omega
  · unfold store
    simp only [if_true]
    show (Fin.ofNat _ : Fin 256).val = _
    simp only [Fin.ofNat, Fin.val_mk]
    omega

/-- A witness of claim C27: a device whose header declares a total length of 2.
The buffer of 2 bytes comes back with byte 2 set to 2, where the memory behind
the allocation held 0. -/
theorem usb_get_configuration_no_stores_past_allocation_witness :
    (demo_platform short_total_header).aligned_malloc [6] 2 = ([6], some zero_buf) ∧
    (zero_buf 2).val = 0 ∧
    ∃ buf, (usb_get_configuration_no sample_defs (demo_platform short_total_header) 1 []
        zero_device 0).1 = some buf ∧ (buf 2).val = 2 ∧ (buf 3).val = 0 := by
  obtain ⟨buf, h1, _, _, h4, h5⟩ := usb_get_configuration_no_stores_past_allocation sample_defs
    (demo_platform short_total_header) 1 [] [6] zero_device 0 zero_buf
    (by decide) (by decide) rfl (by decide)
  exact ⟨rfl, rfl, buf, h1, h4, h5⟩

/-- Claim C28: `usb_set_configuration` returns 0 exactly when its
SET_CONFIGURATION control transfer returns 0, and then `toggle[0]` and
`toggle[1]` are 0; in every other case it returns `-EIO` and the toggle words
are as before. -/
theorem usb_set_configuration_toggle {W : Type} (K : usb_defs) (P : platform W)
    (asynch_allowed : Int) (w : W) (dev : usb_device) (configuration : Nat) :
    ((usb_set_configuration K P asynch_allowed w dev configuration).1 = 0 ↔
      (usb_control_msg K P asynch_allowed w dev (P.usb_sndctrlpipe dev 0)
        USB_REQ_SET_CONFIGURATION 0 configuration 0 none 0 K.USB_CNTL_TIMEOUT).ret = 0) ∧
    ((usb_control_msg K P asynch_allowed w dev (P.usb_sndctrlpipe dev 0)
        USB_REQ_SET_CONFIGURATION 0 configuration 0 none 0 K.USB_CNTL_TIMEOUT).ret = 0 →
      (usb_set_configuration K P asynch_allowed w dev configuration).2.2.toggle 0 = 0 ∧
      (usb_set_configuration K P asynch_allowed w dev configuration).2.2.toggle 1 = 0) ∧
    ((usb_control_msg K P asynch_allowed w dev (P.usb_sndctrlpipe dev 0)
        USB_REQ_SET_CONFIGURATION 0 configuration 0 none 0 K.USB_CNTL_TIMEOUT).ret ≠ 0 →
      (usb_set_configuration K P asynch_allowed w dev configuration).1 = - EIO ∧
      (usb_set_configuration K P asynch_allowed w dev configuration).2.2.toggle = dev.toggle) := by
  have hne : (- EIO : Int) ≠ 0 := by decide
  refine ⟨?_, fun h => ?_, fun h => ?_⟩
  · by_cases h : (usb_control_msg K P asynch_allowed w dev (P.usb_sndctrlpipe dev 0)
        USB_REQ_SET_CONFIGURATION 0 configuration 0 none 0 K.USB_CNTL_TIMEOUT).ret = 0
    · simp only [usb_set_configuration, if_pos h]
      exact ⟨fun _ => h, fun _ => trivial⟩
    · simp only [usb_set_configuration, if_neg h]
      exact ⟨fun e => absurd e hne, fun e => absurd e h⟩
  · simp only [usb_set_configuration, if_pos h]
    exact ⟨rfl, rfl⟩
  · simp only [usb_set_configuration, if_neg h]
    refine ⟨trivial, ?_⟩
    obtain ⟨st, al, e⟩ := usb_control_msg_dev K P asynch_allowed w dev (P.usb_sndctrlpipe dev 0)
      USB_REQ_SET_CONFIGURATION 0 configuration 0 none 0 K.USB_CNTL_TIMEOUT
    rw [e]

theorem usb_set_configuration_toggle_witness :
    (usb_set_configuration sample_defs (demo_platform []) 1 []
      { zero_device with toggle := fun _ => 5 } 1).1 = 0 ∧
    (usb_set_configuration sample_defs (demo_platform []) 1 []
      { zero_device with toggle := fun _ => 5 } 1).2.2.toggle 0 = 0 ∧
    (usb_set_configuration sample_defs (demo_platform []) 1 []
      { zero_device with toggle := fun _ => 5 } 1).2.2.toggle 1 = 0 :=
  ⟨(usb_set_configuration_toggle sample_defs (demo_platform []) 1 []
      { zero_device with toggle := fun _ => 5 } 1).1.mpr (by decide),
   ((usb_set_configuration_toggle sample_defs (demo_platform []) 1 []
      { zero_device with toggle := fun _ => 5 } 1).2.1 (by decide)).1,
   ((usb_set_configuration_toggle sample_defs (demo_platform []) 1 []
      { zero_device with toggle := fun _ => 5 } 1).2.1 (by decide)).2⟩

/-- Two little-endian 32-bit words are equal exactly when their bytes are. -/
theorem load32_eq (a b : Buf) (off : Nat) :
    load32 a off = load32 b off ↔
      a off = b off ∧ a (off + 1) = b (off + 1) ∧ a (off + 2) = b (off + 2) ∧
      a (off + 3) = b (off + 3) := by
  unfold load32
  constructor
  · intro h
    have h0 := (a off).isLt
    have h1 := (a (off + 1)).isLt
    have h2 := (a (off + 2)).isLt
    have h3 := (a (off + 3)).isLt
    have g0 := (b off).isLt
    have g1 := (b (off + 1)).isLt
    have g2 := (b (off + 2)).isLt
    have g3 := (b (off + 3)).isLt
    refine ⟨Fin.ext ?_, Fin.ext ?_, Fin.ext ?_, Fin.ext ?_⟩ <;> omega
  · rintro ⟨e0, e1, e2, e3⟩
    rw [e0, e1, e2, e3]

theorem load16_eq (a b : Buf) (off : Nat) :
    load16 a off = load16 b off ↔ a off = b off ∧ a (off + 1) = b (off + 1) := by
  unfold load16
  constructor
  · intro h
    have h0 := (a off).isLt
    have h1 := (a (off + 1)).isLt
    have g0 := (b off).isLt
    have g1 := (b (off + 1)).isLt
    refine ⟨Fin.ext ?_, Fin.ext ?_⟩ <;> omega
  · rintro ⟨e0, e1⟩
    rw [e0, e1]

/-- Claim C29 (as the code behaves): for non-null addresses `Eth_MAC_Match`
returns `TRUE` when the six bytes agree and `FALSE` otherwise, whatever the
values of the two macros; with the values 1 and 0 two equal addresses give 1,
not 0, and two different addresses give 0, not -1. -/
theorem Eth_MAC_Match_returns_bool (TRUE FALSE : Int) (a b : Buf) :
    ((∀ i, i < 6 → a i = b i) → Eth_MAC_Match TRUE FALSE (some a) (some b) = TRUE) ∧
    (¬ (∀ i, i < 6 → a i = b i) → Eth_MAC_Match TRUE FALSE (some a) (some b) = FALSE) ∧
    Eth_MAC_Match 1 0 (some (bytes [0, 1, 2, 3, 4, 5])) (some (bytes [0, 1, 2, 3, 4, 5])) = 1 ∧
    Eth_MAC_Match 1 0 (some (bytes [0, 1, 2, 3, 4, 5])) (some (bytes [0, 1, 2, 3, 4, 6])) = 0 := by
  refine ⟨fun h => ?_, fun h => ?_, by decide, by decide⟩
  · have h4 : load32 a 0 = load32 b 0 :=
      (load32_eq a b 0).mpr ⟨h 0 (by decide), h 1 (by decide), h 2 (by decide), h 3 (by decide)⟩
    have h2 : load16 a 4 = load16 b 4 :=
      (load16_eq a b 4).mpr ⟨h 4 (by decide), h 5 (by decide)⟩
    simp only [Eth_MAC_Match, h4, h2, ne_eq, not_true_eq_false, if_false]
  · show (if load32 a 0 ≠ load32 b 0 then FALSE
      else if load16 a 4 ≠ load16 b 4 then FALSE else TRUE) = FALSE
    by_cases h4 : load32 a 0 = load32 b 0
    · by_cases h2 : load16 a 4 = load16 b 4
      · exfalso
        apply h
        obtain ⟨e0, e1, e2, e3⟩ := (load32_eq a b 0).mp h4
        obtain ⟨e4, e5⟩ := (load16_eq a b 4).mp h2
        intro i hi
        interval_cases i
        · exact e0
        · exact e1
        · exact e2
        · exact e3
        · exact e4
        · exact e5
      · rw [if_neg (not_not.mpr h4), if_pos h2]
    · rw [if_pos h4]

theorem Eth_MAC_Match_returns_bool_witness :
    Eth_MAC_Match 1 0 (some zero_buf) (some zero_buf) = 1 :=
  (Eth_MAC_Match_returns_bool 1 0 zero_buf zero_buf).1 (fun _ _ => rfl)

/-! ## Theorems: what the max-packet resolver reads -/

/-- With one interface of two endpoints in the descriptors' counts,
`usb_set_maxpacket` is two resolver steps on slot 0. -/
theorem usb_set_maxpacket_pair (d : usb_device)
    (h1 : usb_config_descriptor.bNumInterfaces d.config.desc = 1)
    (h2 : usb_interface_descriptor.bNumEndpoints (d.config.if_desc 0).desc = 2) :
    usb_set_maxpacket d = usb_set_maxpacket_ep (usb_set_maxpacket_ep d 0 0) 0 1 := by
  simp [usb_set_maxpacket, h1, h2, List.range_succ]

/-- A resolver step does not touch the configuration tree. -/
theorem usb_set_maxpacket_ep_config (d : usb_device) (i e : Nat) :
    (usb_set_maxpacket_ep d i e).config = d.config := by
  unfold usb_set_maxpacket_ep
  simp only
  split_ifs <;> rfl

/-- A resolver step on a control endpoint sets both table entries of its number. -/
theorem usb_set_maxpacket_ep_control (d : usb_device) (i e b : Nat) (v : Int)
    (hb : usb_endpoint_descriptor.bEndpointAddress ((d.config.if_desc i).ep_desc e)
      &&& USB_ENDPOINT_NUMBER_MASK = b)
    (hv : (usb_endpoint_descriptor.wMaxPacketSize ((d.config.if_desc i).ep_desc e) : Int) = v)
    (hctl : usb_endpoint_descriptor.bmAttributes ((d.config.if_desc i).ep_desc e)
      &&& USB_ENDPOINT_XFERTYPE_MASK = USB_ENDPOINT_XFER_CONTROL) :
    (usb_set_maxpacket_ep d i e).epmaxpacketin b = v ∧
    (usb_set_maxpacket_ep d i e).epmaxpacketout b = v := by
  subst hb hv
  simp only [usb_set_maxpacket_ep, if_pos hctl, store, if_true, and_self]

/-- Claim C30 (as the code behaves, at the failing input): whatever the limits
(at least one interface slot), for a record whose endpoint slot 1 of interface
slot 0 is zeroed, as in a fresh record, `missing_endpoint_config` is parsed
with status 0 into one slot with `no_of_ep = 1`; `usb_set_maxpacket` then runs
its inner loop to `bNumEndpoints = 2`, visits endpoint index 1, which the
parser has not filled, takes the zeroed slot for control endpoint 0 with max
packet size 0, and sets both endpoint-0 table entries to 0, whatever they held. -/
theorem usb_set_maxpacket_reads_unparsed_endpoint (K : usb_defs) (dev : usb_device)
    (hK : 1 ≤ K.USB_MAXINTERFACES)
    (hfresh : (dev.config.if_desc 0).ep_desc 1 = zero_buf) :
    ∃ d, usb_parse_config K dev missing_endpoint_config 0 = some (0, d) ∧
      d.config.no_of_if = 1 ∧
      (d.config.if_desc 0).no_of_ep = 1 ∧
      usb_interface_descriptor.bNumEndpoints (d.config.if_desc 0).desc = 2 ∧
      (usb_set_maxpacket d).epmaxpacketin 0 = 0 ∧
      (usb_set_maxpacket d).epmaxpacketout 0 = 0 := by
  have ht : bDescriptorType missing_endpoint_config = USB_DT_CONFIG := rfl
  have hl : bLength missing_endpoint_config = USB_DT_CONFIG_SIZE := rfl
  simp only [usb_parse_config, ht, hl, ne_eq, not_true_eq_false, if_false]
  rw [show usb_config_descriptor.wTotalLength
      (parse_init dev missing_endpoint_config 0).dev.config.desc + 1 = 25 + 1 from rfl]
  rw [parse_loop_interface_primary]
  rotate_left
  · rfl
  · rfl
  · exact Nat.le_of_ble_eq_true rfl
  · show ((0 : Nat) : Int) ≠ -1
    decide
  · show 0 < K.USB_MAXINTERFACES
    omega
  rw [parse_loop_endpoint]
  rotate_left
  · rfl
  · exact Or.inl rfl
  · exact Nat.le_of_ble_eq_true rfl
  · show (0 : Int) ≤ ((0 : Nat) : Int)
    decide
  · show 0 ≤ K.USB_MAXENDPOINTS
    omega
  rw [parse_loop_end]
  rotate_left
  · exact Nat.le_of_ble_eq_true rfl
  refine ⟨_, rfl, rfl, rfl, rfl, ?_⟩
  rw [usb_set_maxpacket_pair]
  rotate_left
  · rfl
  · rfl
  refine usb_set_maxpacket_ep_control _ 0 1 0 0 ?_ ?_ ?_
  · rw [usb_set_maxpacket_ep_config]
    show usb_endpoint_descriptor.bEndpointAddress ((dev.config.if_desc 0).ep_desc 1)
      &&& USB_ENDPOINT_NUMBER_MASK = 0
    rw [hfresh]
    decide
  · rw [usb_set_maxpacket_ep_config]
    show (usb_endpoint_descriptor.wMaxPacketSize ((dev.config.if_desc 0).ep_desc 1) : Int) = 0
    rw [hfresh]
    decide
  · rw [usb_set_maxpacket_ep_config]
    show usb_endpoint_descriptor.bmAttributes ((dev.config.if_desc 0).ep_desc 1)
      &&& USB_ENDPOINT_XFERTYPE_MASK = USB_ENDPOINT_XFER_CONTROL
    rw [hfresh]
    decide

theorem usb_set_maxpacket_reads_unparsed_endpoint_witness :
    addressed_device.epmaxpacketin 0 = 64 ∧
    ∃ d, usb_parse_config sample_defs addressed_device missing_endpoint_config 0
        = some (0, d) ∧
      d.config.no_of_if = 1 ∧
      (d.config.if_desc 0).no_of_ep = 1 ∧
      usb_interface_descriptor.bNumEndpoints (d.config.if_desc 0).desc = 2 ∧
      (usb_set_maxpacket d).epmaxpacketin 0 = 0 ∧
      (usb_set_maxpacket d).epmaxpacketout 0 = 0 :=
  ⟨rfl, usb_set_maxpacket_reads_unparsed_endpoint sample_defs addressed_device (by decide) rfl⟩

/-! ## Theorems: the class specific scratch buffer -/

/-- A record that is not class specific, and with which the loop goes on, leaves
the scratch buffer and its fill level alone. -/
theorem parse_record_not_cs (K : usb_defs) (buffer : Buf) (s s1 : parse_state)
    (hcs : ¬ cs_record buffer s.index)
    (h : parse_record K buffer s = flow.next s1) :
    s1.cs_int_len = s.cs_int_len ∧
    s1.dev.config.pClassSpecificInterfaces = s.dev.config.pClassSpecificInterfaces := by
  unfold parse_record at h
  simp only at h
  split_ifs at h with t1 t2 t3 t4 t5
  · simp only [parse_interface] at h
    split_ifs at h
    · cases h; exact ⟨rfl, rfl⟩
    · cases h; exact ⟨rfl, rfl⟩
    · cases h; exact ⟨rfl, rfl⟩
    · split at h
      · cases h
      · cases h; exact ⟨rfl, rfl⟩
  · simp only [parse_interface_assoc] at h
    split_ifs at h <;> (cases h; exact ⟨rfl, rfl⟩)
  · exact absurd t3 hcs
  · simp only [parse_endpoint] at h
    split_ifs at h <;> (cases h; exact ⟨rfl, rfl⟩)
  · simp only [parse_ss_ep_comp] at h
    split_ifs at h <;> (cases h; exact ⟨rfl, rfl⟩)
  · simp only [parse_default] at h
    split_ifs at h; cases h; exact ⟨rfl, rfl⟩

/-- A class specific record is handled by the class specific arm. -/
theorem parse_record_cs (K : usb_defs) (buffer : Buf) (s : parse_state)
    (hcs : cs_record buffer s.index) :
    parse_record K buffer s = parse_class_specific K buffer s := by
  have h1 : bDescriptorType (at_offset buffer s.index) ≠ USB_DT_INTERFACE := by
    rcases hcs with h | h <;> rw [h] <;> decide
  have h2 : bDescriptorType (at_offset buffer s.index) ≠ USB_DT_INTERFACE_ASSOCIATION := by
    rcases hcs with h | h <;> rw [h] <;> decide
  have h3 : bDescriptorType (at_offset buffer s.index) = USB_DT_CS_INTERFACE ∨
      bDescriptorType (at_offset buffer s.index) = USB_DT_CS_ENDPOINT := hcs
  simp only [parse_record, if_neg h1, if_neg h2, if_pos h3]

theorem record_bytes_length (buffer : Buf) (index : Nat) :
    (record_bytes buffer index).length = bLength (at_offset buffer index) := by
  unfold record_bytes
  rw [List.length_map, List.length_range]

theorem record_bytes_getD (buffer : Buf) (index i : Nat)
    (hi : i < bLength (at_offset buffer index)) :
    (record_bytes buffer index).getD i 0 = at_offset buffer index i := by
  unfold record_bytes
  rw [List.getD_eq_getElem _ _ (by rw [List.length_map, List.length_range]; exact hi)]
  rw [List.getElem_map, List.getElem_range]
  rfl

theorem parse_class_specific_full (K : usb_defs) (buffer : Buf) (s : parse_state)
    (hover : (bLength (at_offset buffer s.index) : Int)
      > (K.USB_MAX_CSINTERFACE_LEN : Int) - (s.cs_int_len : Int)) :
    parse_class_specific K buffer s = flow.ret (- EINVAL) s := by
  simp only [parse_class_specific, if_pos hover]

theorem parse_class_specific_null (K : usb_defs) (buffer : Buf) (s : parse_state)
    (hfit : ¬ (bLength (at_offset buffer s.index) : Int)
      > (K.USB_MAX_CSINTERFACE_LEN : Int) - (s.cs_int_len : Int))
    (hp : s.dev.config.pClassSpecificInterfaces = none) :
    parse_class_specific K buffer s = flow.undef := by
  simp only [parse_class_specific, if_neg hfit, hp]

theorem parse_class_specific_store (K : usb_defs) (buffer : Buf) (s : parse_state) (p : Buf)
    (hfit : ¬ (bLength (at_offset buffer s.index) : Int)
      > (K.USB_MAX_CSINTERFACE_LEN : Int) - (s.cs_int_len : Int))
    (hp : s.dev.config.pClassSpecificInterfaces = some p) :
    parse_class_specific K buffer s = flow.next { s with
      dev := { s.dev with config := { s.dev.config with
        pClassSpecificInterfaces := some (memcpy_at p s.cs_int_len (at_offset buffer s.index)
          (bLength (at_offset buffer s.index))) } },
      cs_int_len := s.cs_int_len + bLength (at_offset buffer s.index) } := by
  simp only [parse_class_specific, if_neg hfit, hp]

/-- The scratch buffer a successful run of the loop leaves, from the state `s`
on: what it held below the fill level of `s` stays, the class specific records
from the cursor on follow byte for byte, and whenever there is such a record
the fill level stays within `USB_MAX_CSINTERFACE_LEN`. -/
theorem parse_loop_class_specific (K : usb_defs) (buffer : Buf) (total : Nat) :
    ∀ (fuel : Nat) (s s2 : parse_state),
      usb_config_descriptor.wTotalLength s.dev.config.desc = total →
      parse_loop K buffer fuel s = some (0, s2) →
      (cs_stream buffer total fuel s.index = [] ∨
        s.cs_int_len + (cs_stream buffer total fuel s.index).length
          ≤ K.USB_MAX_CSINTERFACE_LEN) ∧
      (s.dev.config.pClassSpecificInterfaces = none →
        cs_stream buffer total fuel s.index = []) ∧
      (∀ p, s.dev.config.pClassSpecificInterfaces = some p →
        ∃ p2, s2.dev.config.pClassSpecificInterfaces = some p2 ∧
          (∀ i, i < s.cs_int_len → p2 i = p i) ∧
          ∀ i, i < (cs_stream buffer total fuel s.index).length →
            p2 (s.cs_int_len + i) = (cs_stream buffer total fuel s.index).getD i 0) := by
  intro fuel
  induction fuel with
  | zero =>
    intro s s2 _ h
    simp only [parse_loop] at h
    cases h
  | succ n ih =>
    intro s s2 htot h
    rw [parse_loop] at h
    by_cases hg : parse_guard buffer s
    · rw [if_pos hg] at h
      have hg1 : s.index + 1 < total ∧ bLength (at_offset buffer s.index) ≠ 0 := by
        have := hg
        unfold parse_guard at this
        rw [htot] at this
        exact this
      by_cases hcs : cs_record buffer s.index
      · have hL : cs_stream buffer total (n + 1) s.index = record_bytes buffer s.index ++
            cs_stream buffer total n (s.index + bLength (at_offset buffer s.index)) := by
          rw [cs_stream, if_pos hg1, if_pos hcs]
        rw [hL]
        rw [parse_record_cs K buffer s hcs] at h
        by_cases hover : (bLength (at_offset buffer s.index) : Int)
            > (K.USB_MAX_CSINTERFACE_LEN : Int) - (s.cs_int_len : Int)
        · rw [parse_class_specific_full K buffer s hover] at h
          simp only [Option.some.injEq, Prod.mk.injEq] at h
          exact absurd h.1 (by decide)
        · cases hp : s.dev.config.pClassSpecificInterfaces with
          | none =>
            rw [parse_class_specific_null K buffer s hover hp] at h
            cases h
          | some p =>
            rw [parse_class_specific_store K buffer s p hover hp] at h
            simp only at h
            obtain ⟨a1, _, a3⟩ := ih _ s2 (by exact htot) h
            obtain ⟨p2, b1, b2, b3⟩ := a3
              (memcpy_at p s.cs_int_len (at_offset buffer s.index)
                (bLength (at_offset buffer s.index))) rfl
            have c2 : ∀ i, i < s.cs_int_len + bLength (at_offset buffer s.index) →
                p2 i = memcpy_at p s.cs_int_len (at_offset buffer s.index)
                  (bLength (at_offset buffer s.index)) i := b2
            have c3 : ∀ i, i < (cs_stream buffer total n
                  (s.index + bLength (at_offset buffer s.index))).length →
                p2 (s.cs_int_len + bLength (at_offset buffer s.index) + i)
                  = (cs_stream buffer total n
                      (s.index + bLength (at_offset buffer s.index))).getD i 0 := b3
            have c1 : cs_stream buffer total n
                  (s.index + bLength (at_offset buffer s.index)) = [] ∨
                s.cs_int_len + bLength (at_offset buffer s.index) +
                  (cs_stream buffer total n
                    (s.index + bLength (at_offset buffer s.index))).length
                  ≤ K.USB_MAX_CSINTERFACE_LEN := a1
            refine ⟨Or.inr ?_, fun hn => absurd hn (Option.some_ne_none _), ?_⟩
            · rw [List.length_append, record_bytes_length]
              rcases c1 with e | e
              · rw [e, List.length_nil]
                omega
              · omega
            · intro q hq
              have hq1 : p = q := Option.some.inj hq
              subst hq1
              refine ⟨p2, b1, fun i hi => ?_, fun i hi => ?_⟩
              · rw [c2 i (by omega)]
                unfold memcpy_at
                rw [if_neg (by omega)]
              · rw [List.length_append, record_bytes_length] at hi
                by_cases hlt : i < bLength (at_offset buffer s.index)
                · rw [List.getD_append _ _ _ _ (by rw [record_bytes_length]; exact hlt),
                    record_bytes_getD buffer s.index i hlt, c2 (s.cs_int_len + i) (by omega)]
                  unfold memcpy_at
                  rw [if_pos ⟨by omega, by omega⟩]
                  congr 1
                  omega
                · rw [List.getD_append_right _ _ _ _ (by rw [record_bytes_length]; omega),
                    record_bytes_length]
                  have := c3 (i - bLength (at_offset buffer s.index)) (by omega)
                  rw [← this]
                  congr 1
                  omega
      · have hL : cs_stream buffer total (n + 1) s.index =
            cs_stream buffer total n (s.index + bLength (at_offset buffer s.index)) := by
          rw [cs_stream, if_pos hg1, if_neg hcs]
        rw [hL]
        cases hrec : parse_record K buffer s with
        | next s1 =>
          rw [hrec] at h
          obtain ⟨hi, hd⟩ := parse_record_next K buffer s s1 hrec
          obtain ⟨e1, e2⟩ := parse_record_not_cs K buffer s s1 hcs hrec
          have htot1 : usb_config_descriptor.wTotalLength s1.dev.config.desc = total := by
            rw [hd]; exact htot
          obtain ⟨a1, a2, a3⟩ := ih _ s2 (by exact htot1) h
          have c1 : cs_stream buffer total n
                (s1.index + bLength (at_offset buffer s.index)) = [] ∨
              s1.cs_int_len + (cs_stream buffer total n
                  (s1.index + bLength (at_offset buffer s.index))).length
                ≤ K.USB_MAX_CSINTERFACE_LEN := a1
          have c2 : s1.dev.config.pClassSpecificInterfaces = none →
              cs_stream buffer total n (s1.index + bLength (at_offset buffer s.index)) = [] := a2
          have c3 : ∀ p, s1.dev.config.pClassSpecificInterfaces = some p →
              ∃ p2, s2.dev.config.pClassSpecificInterfaces = some p2 ∧
                (∀ i, i < s1.cs_int_len → p2 i = p i) ∧
                ∀ i, i < (cs_stream buffer total n
                    (s1.index + bLength (at_offset buffer s.index))).length →
                  p2 (s1.cs_int_len + i) = (cs_stream buffer total n
                    (s1.index + bLength (at_offset buffer s.index))).getD i 0 := a3
          rw [hi, e1] at c1
          rw [hi, e2] at c2
          rw [hi, e1, e2] at c3
          exact ⟨c1, c2, c3⟩
        | ret e s1 =>
          rw [hrec] at h
          obtain ⟨he, _⟩ := parse_record_ret K buffer s s1 e hrec
          simp only [Option.some.injEq, Prod.mk.injEq] at h
          rw [he] at h
          exact absurd h.1 (by decide)
        | undef =>
          rw [hrec] at h
          cases h
    · rw [if_neg hg] at h
      simp only [Option.some.injEq, Prod.mk.injEq] at h
      obtain ⟨_, h2⟩ := h
      subst h2
      have hg1 : ¬ (s.index + 1 < total ∧ bLength (at_offset buffer s.index) ≠ 0) := by
        intro hc
        apply hg
        unfold parse_guard
        rw [htot]
        exact hc
      have hL : cs_stream buffer total (n + 1) s.index = [] := by
        rw [cs_stream, if_neg hg1]
      rw [hL]
      exact ⟨Or.inl rfl, fun _ => rfl, fun p hp => ⟨p, hp, fun _ _ => rfl,
        fun i hi => absurd hi (by simp)⟩⟩

/-- A successful parse has met a valid header. -/
theorem usb_parse_config_header (K : usb_defs) (dev : usb_device) (buffer : Buf) (cfgno : Int)
    (d : usb_device) (h : usb_parse_config K dev buffer cfgno = some (0, d)) :
    bDescriptorType buffer = USB_DT_CONFIG ∧ bLength buffer = USB_DT_CONFIG_SIZE := by
  by_cases a : bDescriptorType buffer = USB_DT_CONFIG
  · by_cases b : bLength buffer = USB_DT_CONFIG_SIZE
    · exact ⟨a, b⟩
    · simp only [usb_parse_config, a, b, ne_eq, not_true_eq_false, if_false, not_false_eq_true,
        if_true, Option.some.injEq, Prod.mk.injEq] at h
      exact absurd h.1 (by decide)
  · simp only [usb_parse_config, a, ne_eq, not_false_eq_true, if_true, Option.some.injEq,
      Prod.mk.injEq] at h
    exact absurd h.1 (by decide)

/-- Whatever the header, a parse that starts with a buffer for the class specific
records returns, with status 0 or `-EINVAL`. -/
theorem usb_parse_config_returns (K : usb_defs) (dev : usb_device) (buffer : Buf) (cfgno : Int)
    (hcs : dev.config.pClassSpecificInterfaces ≠ none) :
    ∃ r d, usb_parse_config K dev buffer cfgno = some (r, d) ∧ (r = 0 ∨ r = - EINVAL) := by
  by_cases htype : bDescriptorType buffer = USB_DT_CONFIG
  · by_cases hlen : bLength buffer = USB_DT_CONFIG_SIZE
    · have hI := parse_inv_init K dev buffer cfgno
      obtain ⟨r, s2, hl⟩ := parse_loop_returns K buffer (usb_config_descriptor.wTotalLength buffer)
        dev (usb_config_descriptor.wTotalLength buffer + 1) (parse_init dev buffer cfgno) hI hcs
        (Nat.succ_pos _) (by omega)
      obtain ⟨b1, _⟩ := parse_loop_inv K buffer
        (usb_config_descriptor.wTotalLength buffer) dev _ _ r s2 hI hl
      refine ⟨r, s2.dev, ?_, b1⟩
      simp only [usb_parse_config, htype, hlen, ne_eq, not_true_eq_false, if_false]
      show (parse_loop K buffer (usb_config_descriptor.wTotalLength buffer + 1)
        (parse_init dev buffer cfgno)).map (fun x => (x.1, x.2.dev)) = _
      rw [hl]
      rfl
    · refine ⟨- EINVAL, { dev with configno := cfgno }, ?_, Or.inr rfl⟩
      simp only [usb_parse_config, htype, hlen, ne_eq, not_true_eq_false, if_false,
        not_false_eq_true, if_true]
  · refine ⟨- EINVAL, { dev with configno := cfgno }, ?_, Or.inr rfl⟩
    simp only [usb_parse_config, htype, ne_eq, not_false_eq_true, if_true]

/-- The scratch buffer after a successful parse. -/
theorem usb_parse_config_scratch (K : usb_defs) (dev : usb_device) (buffer : Buf) (cfgno : Int)
    (d : usb_device) (h : usb_parse_config K dev buffer cfgno = some (0, d)) :
    (stream_class_specific buffer).length ≤ K.USB_MAX_CSINTERFACE_LEN ∧
    (dev.config.pClassSpecificInterfaces = none → stream_class_specific buffer = []) ∧
    (∀ p, dev.config.pClassSpecificInterfaces = some p →
      ∃ p2, d.config.pClassSpecificInterfaces = some p2 ∧
        ∀ i, i < (stream_class_specific buffer).length →
          p2 i = (stream_class_specific buffer).getD i 0) := by
  obtain ⟨htype, hlen⟩ := usb_parse_config_header K dev buffer cfgno d h
  obtain ⟨s2, hl, hd⟩ := usb_parse_config_loop K dev buffer cfgno 0 d htype hlen h
  obtain ⟨a1, a2, a3⟩ := parse_loop_class_specific K buffer
    (usb_config_descriptor.wTotalLength buffer) _ (parse_init dev buffer cfgno) s2 rfl hl
  have c1 : stream_class_specific buffer = [] ∨
      0 + (stream_class_specific buffer).length ≤ K.USB_MAX_CSINTERFACE_LEN := a1
  have c2 : dev.config.pClassSpecificInterfaces = none → stream_class_specific buffer = [] := a2
  have c3 : ∀ p, dev.config.pClassSpecificInterfaces = some p →
      ∃ p2, s2.dev.config.pClassSpecificInterfaces = some p2 ∧
        (∀ i, i < 0 → p2 i = p i) ∧
        ∀ i, i < (stream_class_specific buffer).length →
          p2 (0 + i) = (stream_class_specific buffer).getD i 0 := a3
  rw [← hd]
  refine ⟨?_, c2, fun p hp => ?_⟩
  · rcases c1 with e | e
    · rw [e]; exact Nat.zero_le _
    · omega
  · obtain ⟨p2, e1, _, e3⟩ := c3 p hp
    refine ⟨p2, e1, fun i hi => ?_⟩
    have := e3 i hi
    rw [Nat.zero_add] at this
    exact this

/-- Claim C21: for every buffer on which `usb_parse_config` succeeds, the class
specific records the cursor visited are together at most
`USB_MAX_CSINTERFACE_LEN` bytes long and the scratch buffer
`pClassSpecificInterfaces` begins with their bytes, record after record in
encounter order; with a scratch buffer, a stream whose class specific records
are longer than that makes the parse return `-EINVAL`. -/
theorem usb_parse_config_class_specific (K : usb_defs) (dev : usb_device) (buffer : Buf)
    (cfgno : Int) :
    (∀ d, usb_parse_config K dev buffer cfgno = some (0, d) →
      (stream_class_specific buffer).length ≤ K.USB_MAX_CSINTERFACE_LEN ∧
      (dev.config.pClassSpecificInterfaces = none → stream_class_specific buffer = []) ∧
      (∀ p, dev.config.pClassSpecificInterfaces = some p →
        ∃ p2, d.config.pClassSpecificInterfaces = some p2 ∧
          ∀ i, i < (stream_class_specific buffer).length →
            p2 i = (stream_class_specific buffer).getD i 0)) ∧
    (dev.config.pClassSpecificInterfaces ≠ none →
      K.USB_MAX_CSINTERFACE_LEN < (stream_class_specific buffer).length →
      ∃ d, usb_parse_config K dev buffer cfgno = some (- EINVAL, d)) := by
  refine ⟨fun d h => usb_parse_config_scratch K dev buffer cfgno d h, fun hcs hlong => ?_⟩
  obtain ⟨r, d, h, hr⟩ := usb_parse_config_returns K dev buffer cfgno hcs
  rcases hr with e | e
  · subst e
    have := (usb_parse_config_scratch K dev buffer cfgno d h).1
    omega
  · subst e
    exact ⟨d, h⟩

theorem usb_parse_config_class_specific_witness :
    ∃ d p2, usb_parse_config sample_defs fresh_device class_specific_config 0 = some (0, d) ∧
      d.config.pClassSpecificInterfaces = some p2 ∧
      ∀ i, i < 9 → p2 i = ([5, 0x24, 0xaa, 0xbb, 0xcc, 4, 0x25, 0xdd, 0xee] : List Byte).getD i 0 := by
  have hd : ∃ d, usb_parse_config sample_defs fresh_device class_specific_config 0
      = some (0, d) := ⟨_, rfl⟩
  obtain ⟨d, hd⟩ := hd
  have hs : stream_class_specific class_specific_config
      = [5, 0x24, 0xaa, 0xbb, 0xcc, 4, 0x25, 0xdd, 0xee] := by decide
  obtain ⟨_, _, h3⟩ := (usb_parse_config_class_specific sample_defs fresh_device
    class_specific_config 0).1 d hd
  obtain ⟨p2, e1, e2⟩ := h3 zero_buf rfl
  rw [hs] at e2
  exact ⟨d, p2, hd, e1, e2⟩

/-! ## Theorems: two runs of the parser on one buffer -/

theorem parse_agree_index (s t : parse_state) (h : parse_agree s t) (k : Nat) :
    parse_agree { s with index := k } { t with index := k } := by
  obtain ⟨_, e2, e3, e4, e5, e6, e7, e8, e9, e10, i1, i2⟩ := h
  exact ⟨rfl, e2, e3, e4, e5, e6, e7, e8, e9, e10, i1, i2⟩

theorem flow_agree_same (s t : parse_state) (h : parse_agree s t) :
    flow_agree (flow.next s) (flow.next t) :=
  fun k => parse_agree_index s t h k

/-- Storing agreeing slots at one index keeps the slots in agreement. -/
theorem slot_agree_store (f g : Nat → usb_interface) (n j0 : Nat) (v v1 : usb_interface)
    (h : ∀ j, j < n → j ≠ j0 → slot_agree (f j) (g j)) (hv : slot_agree v v1) :
    ∀ j, j < n → slot_agree (store f j0 v j) (store g j0 v1 j) := by
  intro j hj
  unfold store
  by_cases e : j = j0
  · rw [if_pos e, if_pos e]; exact hv
  · rw [if_neg e, if_neg e]; exact h j hj e

/-- Two slots freshly filled from the same interface record agree. -/
theorem slot_agree_new (x y : usb_interface) (head : Buf) (a : Nat) :
    slot_agree
      { x with desc := memcpy x.desc head USB_DT_INTERFACE_SIZE, no_of_ep := 0,
               num_altsetting := a }
      { y with desc := memcpy y.desc head USB_DT_INTERFACE_SIZE, no_of_ep := 0,
               num_altsetting := a } := by
  refine ⟨fun i hi => ?_, rfl, rfl, fun e he => absurd he (Nat.not_lt_zero e)⟩
  show memcpy x.desc head USB_DT_INTERFACE_SIZE i = memcpy y.desc head USB_DT_INTERFACE_SIZE i
  unfold memcpy
  rw [if_pos hi, if_pos hi]

/-- Counting one more alternate setting in agreeing slots keeps them in agreement. -/
theorem slot_agree_bump (x y : usb_interface) (h : slot_agree x y) :
    slot_agree { x with num_altsetting := x.num_altsetting + 1 }
      { y with num_altsetting := y.num_altsetting + 1 } := by
  obtain ⟨a, b, c, d⟩ := h
  refine ⟨a, b, ?_, d⟩
  show x.num_altsetting + 1 = y.num_altsetting + 1
  rw [c]

theorem parse_interface_agree (K : usb_defs) (buffer : Buf) (s t : parse_state)
    (h : parse_agree s t) :
    flow_agree (parse_interface K buffer s) (parse_interface K buffer t) := by
  have h0 := h
  obtain ⟨e1, e2, e3, e4, e5, e6, e7, e8, e9, ⟨n1, n2, n3⟩, i1, i2⟩ := h
  unfold parse_interface
  simp only [← e1, ← e4, ← e7, ← e8, ← n1]
  split_ifs with c1 c2 c3 c4 c5
  · exact flow_agree_same s t h0
  · exact flow_agree_same s t h0
  · exact ⟨rfl, n1, n2, n3⟩
  · intro k
    refine ⟨rfl, rfl, e3, rfl, e5, e6, rfl, e8, e9, ⟨rfl, n2, ?_⟩, ?_, ?_⟩
    · exact slot_agree_store _ _ _ _ _ _ (fun j hj hne => n3 j (by
        have : j < s.dev.config.no_of_if + 1 := hj
        omega)) (slot_agree_new _ _ _ 1)
    · show (s.dev.config.no_of_if : Int) < ((s.dev.config.no_of_if + 1 : Nat) : Int)
      omega
    · intro p hp
      have : some s.dev.config.no_of_if = some p := hp
      have := Option.some.inj this
      show p < s.dev.config.no_of_if + 1
      omega
  · exact ⟨rfl, n1, n2, n3⟩
  · cases hp : s.pri_if with
    | none => exact trivial
    | some p =>
      have hpc := i2 p hp
      intro k
      refine ⟨rfl, rfl, e3, rfl, e5, e6, ?_, e8, e9, ⟨rfl, n2, ?_⟩, ?_, ?_⟩
      · rfl
      · refine slot_agree_store _ _ _ p _ _ (fun j hj hne =>
          slot_agree_store _ _ _ s.dev.config.no_of_if _ _ (fun i hi hne2 => n3 i (by
            have : i < s.dev.config.no_of_if + 1 := hi
            omega)) (slot_agree_new _ _ _ 0) j hj) ?_
        refine slot_agree_bump _ _ ?_
        show slot_agree (store s.dev.config.if_desc s.dev.config.no_of_if _ p)
          (store t.dev.config.if_desc s.dev.config.no_of_if _ p)
        unfold store
        rw [if_neg (by omega), if_neg (by omega)]
        exact n3 p hpc
      · show (s.dev.config.no_of_if : Int) < ((s.dev.config.no_of_if + 1 : Nat) : Int)
        omega
      · intro q hq
        have hq1 : q < s.dev.config.no_of_if := i2 q (hp.trans hq)
        show q < s.dev.config.no_of_if + 1
        omega

theorem parse_interface_assoc_agree (K : usb_defs) (buffer : Buf) (s t : parse_state)
    (h : parse_agree s t) :
    flow_agree (parse_interface_assoc K buffer s) (parse_interface_assoc K buffer t) := by
  have h0 := h
  obtain ⟨e1, e2, e3, e4, e5, e6, e7, e8, e9, ⟨n1, n2, n3⟩, i1, i2⟩ := h
  unfold parse_interface_assoc
  simp only [← e1, ← e6]
  split_ifs with c1
  · exact flow_agree_same s t h0
  · intro k
    refine ⟨rfl, e2, e3, e4, e5, rfl, e7, e8, e9, ⟨n1, ?_, n3⟩, i1, i2⟩
    show s.dev.config.no_of_if_assoc + 1 = t.dev.config.no_of_if_assoc + 1
    rw [n2]

theorem parse_class_specific_agree (K : usb_defs) (buffer : Buf) (s t : parse_state)
    (h : parse_agree s t) :
    flow_agree (parse_class_specific K buffer s) (parse_class_specific K buffer t) := by
  have h0 := h
  obtain ⟨e1, e2, e3, e4, e5, e6, e7, e8, e9, ⟨n1, n2, n3⟩, i1, i2⟩ := h
  unfold parse_class_specific
  simp only [← e1, ← e5]
  split_ifs with c1
  · exact ⟨rfl, n1, n2, n3⟩
  · cases hs : s.dev.config.pClassSpecificInterfaces with
    | none =>
      rw [e9.mp hs]
      exact trivial
    | some p =>
      cases ht : t.dev.config.pClassSpecificInterfaces with
      | none =>
        have := e9.mpr ht
        rw [hs] at this
        cases this
      | some q =>
        intro k
        refine ⟨rfl, e2, e3, e4, rfl, e6, e7, e8, ?_, ⟨n1, n2, n3⟩, i1, i2⟩
        exact ⟨fun hc => absurd hc (Option.some_ne_none _),
          fun hc => absurd hc (Option.some_ne_none _)⟩

theorem parse_default_agree (buffer : Buf) (s t : parse_state) (h : parse_agree s t) :
    flow_agree (parse_default buffer s) (parse_default buffer t) := by
  have h0 := h
  obtain ⟨e1, e2, e3, e4, e5, e6, e7, e8, e9, ⟨n1, n2, n3⟩, i1, i2⟩ := h
  unfold parse_default
  simp only [← e1]
  split_ifs with c1
  · exact ⟨rfl, n1, n2, n3⟩
  · exact flow_agree_same s t h0

/-- Appending the same endpoint record to agreeing slots keeps them in agreement. -/
theorem slot_agree_endpoint (x y : usb_interface) (h : slot_agree x y) (head : Buf)
    (hlen : 0 < bLength head) :
    slot_agree
      { x with no_of_ep := x.no_of_ep + 1,
               ep_desc := store x.ep_desc x.no_of_ep
                 (memcpy (x.ep_desc x.no_of_ep) head (bLength head)) }
      { y with no_of_ep := y.no_of_ep + 1,
               ep_desc := store y.ep_desc y.no_of_ep
                 (memcpy (y.ep_desc y.no_of_ep) head (bLength head)) } := by
  obtain ⟨a, b, c, d⟩ := h
  have hb : ∀ old : Buf, bLength (memcpy old head (bLength head)) = bLength head := by
    intro old
    have hl : 0 < (head 0).val := hlen
    unfold bLength memcpy
    rw [if_pos hl]
  refine ⟨a, ?_, c, fun e he => ?_⟩
  · show x.no_of_ep + 1 = y.no_of_ep + 1
    rw [b]
  · have he1 : e < x.no_of_ep + 1 := he
    show bLength (store x.ep_desc x.no_of_ep _ e) = bLength (store y.ep_desc y.no_of_ep _ e) ∧
      ∀ i, i < bLength (store x.ep_desc x.no_of_ep _ e) →
        store x.ep_desc x.no_of_ep _ e i = store y.ep_desc y.no_of_ep _ e i
    unfold store
    by_cases hx : e = x.no_of_ep
    · rw [if_pos hx, if_pos (by rw [← b]; exact hx), hb, hb]
      refine ⟨rfl, fun i hi => ?_⟩
      unfold memcpy
      rw [if_pos hi, if_pos hi]
    · rw [if_neg hx, if_neg (by rw [← b]; exact hx)]
      exact d e (by omega)

/-- Writing companion descriptors does not touch what agreement is about. -/
theorem slot_agree_companion (x y : usb_interface) (h : slot_agree x y)
    (f g : Nat → Buf) :
    slot_agree { x with ss_ep_comp_desc := f } { y with ss_ep_comp_desc := g } := h

theorem parse_endpoint_agree (K : usb_defs) (buffer : Buf) (s t : parse_state)
    (h : parse_agree s t) :
    flow_agree (parse_endpoint K buffer s) (parse_endpoint K buffer t) := by
  have h0 := h
  obtain ⟨e1, e2, e3, e4, e5, e6, e7, e8, e9, ⟨n1, n2, n3⟩, i1, i2⟩ := h
  unfold parse_endpoint
  simp only [← e1, ← e2, ← e8]
  by_cases c1 : bLength (at_offset buffer s.index) ≠ USB_DT_ENDPOINT_SIZE ∧
      bLength (at_offset buffer s.index) ≠ USB_DT_ENDPOINT_AUDIO_SIZE
  · rw [if_pos c1, if_pos c1]
    exact flow_agree_same s t h0
  · rw [if_neg c1, if_neg c1]
    by_cases c2 : s.index + USB_DT_ENDPOINT_SIZE >
        usb_config_descriptor.wTotalLength s.dev.config.desc
    · rw [if_pos c2, if_pos c2]
      exact flow_agree_same s t h0
    · rw [if_neg c2, if_neg c2]
      by_cases c3 : s.ifno < 0
      · rw [if_pos c3, if_pos c3]
        exact flow_agree_same s t h0
      · rw [if_neg c3, if_neg c3]
        have hslot := n3 s.ifno.toNat (by omega)
        have hep := hslot.2.1
        simp only [← hep]
        by_cases c4 : (s.dev.config.if_desc s.ifno.toNat).no_of_ep > K.USB_MAXENDPOINTS
        · rw [if_pos c4, if_pos c4]
          exact ⟨rfl, n1, n2, n3⟩
        · rw [if_neg c4, if_neg c4]
          have hlen : 0 < bLength (at_offset buffer s.index) := by
            have h7 : USB_DT_ENDPOINT_SIZE = 7 := rfl
            have h9 : USB_DT_ENDPOINT_AUDIO_SIZE = 9 := rfl
            by_contra hc
            apply c1
            constructor <;> omega
          intro k
          refine ⟨rfl, rfl, rfl, e4, e5, e6, e7, e8, e9, ⟨n1, n2, ?_⟩, i1, i2⟩
          have := slot_agree_endpoint _ _ hslot (at_offset buffer s.index) hlen
          rw [← hep] at this
          exact slot_agree_store _ _ _ _ _ _ (fun j hj _ => n3 j hj) this

theorem parse_ss_ep_comp_agree (buffer : Buf) (s t : parse_state) (h : parse_agree s t) :
    flow_agree (parse_ss_ep_comp buffer s) (parse_ss_ep_comp buffer t) := by
  have h0 := h
  obtain ⟨e1, e2, e3, e4, e5, e6, e7, e8, e9, ⟨n1, n2, n3⟩, i1, i2⟩ := h
  unfold parse_ss_ep_comp
  simp only [← e1, ← e2, ← e3, ← e8]
  split_ifs with c1 c2 c3
  · exact flow_agree_same s t h0
  · exact flow_agree_same s t h0
  · exact flow_agree_same s t h0
  · have hslot := n3 s.ifno.toNat (by omega)
    intro k
    refine ⟨rfl, rfl, rfl, e4, e5, e6, e7, e8, e9, ⟨n1, n2, ?_⟩, i1, i2⟩
    exact slot_agree_store _ _ _ _ _ _ (fun j hj _ => n3 j hj)
      (slot_agree_companion _ _ hslot _ _)

/-- One loop body on agreeing states leaves the loop in agreeing ways. -/
theorem parse_record_agree (K : usb_defs) (buffer : Buf) (s t : parse_state)
    (h : parse_agree s t) :
    flow_agree (parse_record K buffer s) (parse_record K buffer t) := by
  have e1 := h.1
  unfold parse_record
  simp only [← e1]
  split_ifs
  · exact parse_interface_agree K buffer s t h
  · exact parse_interface_assoc_agree K buffer s t h
  · exact parse_class_specific_agree K buffer s t h
  · exact parse_endpoint_agree K buffer s t h
  · exact parse_ss_ep_comp_agree buffer s t h
  · exact parse_default_agree buffer s t h

theorem parse_guard_agree (buffer : Buf) (s t : parse_state) (h : parse_agree s t) :
    parse_guard buffer s ↔ parse_guard buffer t := by
  unfold parse_guard
  rw [h.1, h.2.2.2.2.2.2.2.1]

/-- Two runs of the loop from agreeing states: both are undefined, or both return
the same status and leave agreeing trees. -/
theorem parse_loop_agree (K : usb_defs) (buffer : Buf) :
    ∀ (fuel : Nat) (s t : parse_state), parse_agree s t →
      (parse_loop K buffer fuel s = none ∧ parse_loop K buffer fuel t = none) ∨
      ∃ r s2 t2, parse_loop K buffer fuel s = some (r, s2) ∧
        parse_loop K buffer fuel t = some (r, t2) ∧
        tree_agree s2.dev.config t2.dev.config := by
  intro fuel
  induction fuel with
  | zero => intro s t _; exact Or.inl ⟨rfl, rfl⟩
  | succ n ih =>
    intro s t h
    have hf := parse_record_agree K buffer s t h
    rw [parse_loop, parse_loop]
    by_cases hg : parse_guard buffer s
    · rw [if_pos hg, if_pos ((parse_guard_agree buffer s t h).mp hg)]
      cases hs : parse_record K buffer s with
      | next s1 =>
        cases ht : parse_record K buffer t with
        | next t1 =>
          rw [hs, ht] at hf
          have hi1 := (parse_record_next K buffer s s1 hs).1
          have hi2 := (parse_record_next K buffer t t1 ht).1
          have := hf (s.index + bLength (at_offset buffer s.index))
          simp only
          rw [hi1, hi2, ← h.1]
          exact ih _ _ this
        | ret f t1 => rw [hs, ht] at hf; exact absurd hf (by simp [flow_agree])
        | undef => rw [hs, ht] at hf; exact absurd hf (by simp [flow_agree])
      | ret e s1 =>
        cases ht : parse_record K buffer t with
        | next t1 => rw [hs, ht] at hf; exact absurd hf (by simp [flow_agree])
        | ret f t1 =>
          rw [hs, ht] at hf
          obtain ⟨h1, h2⟩ := hf
          subst h1
          exact Or.inr ⟨e, s1, t1, rfl, rfl, h2⟩
        | undef => rw [hs, ht] at hf; exact absurd hf (by simp [flow_agree])
      | undef =>
        cases ht : parse_record K buffer t with
        | next t1 => rw [hs, ht] at hf; exact absurd hf (by simp [flow_agree])
        | ret f t1 => rw [hs, ht] at hf; exact absurd hf (by simp [flow_agree])
        | undef => exact Or.inl ⟨rfl, rfl⟩
    · rw [if_neg hg, if_neg (fun hc => hg ((parse_guard_agree buffer s t h).mpr hc))]
      exact Or.inr ⟨0, s, t, rfl, rfl, h.2.2.2.2.2.2.2.2.2.1⟩

/-- Parsing one buffer with a valid header into two records with scratch
buffers starts the loop in agreeing states. -/
theorem parse_init_agree (devA devB : usb_device) (buffer : Buf) (cfgno : Int)
    (hA : devA.config.pClassSpecificInterfaces ≠ none)
    (hB : devB.config.pClassSpecificInterfaces ≠ none) :
    parse_agree (parse_init devA buffer cfgno) (parse_init devB buffer cfgno) := by
  refine ⟨rfl, rfl, rfl, rfl, rfl, rfl, rfl, rfl, ⟨fun h => absurd h hA, fun h => absurd h hB⟩,
    ⟨rfl, rfl, fun j hj => absurd hj (Nat.not_lt_zero j)⟩, ?_, ?_⟩
  · show (-1 : Int) < ((0 : Nat) : Int)
    decide
  · intro p hp
    exact absurd (show (none : Option Nat) = some p from hp) (Option.noConfusion)

/-- Counterexample to claim C22 as written.  A buffer with an invalid header is
rejected with `-EINVAL` for a zeroed and for a used record alike, but
`no_of_if` stays what it was, 0 and 3.  And `missing_endpoint_config`, whose
endpoint record is seven bytes long, parses with status 0 and one endpoint into
both, but byte 7 of the stored endpoint descriptor stays what it was, `00` and
`aa`. -/
theorem usb_parse_config_prior_contents_show :
    (usb_parse_config sample_defs fresh_device (bytes rejected_config) 0).map
      (fun r => (r.1, r.2.config.no_of_if)) = some (- EINVAL, 0) ∧
    (usb_parse_config sample_defs reused_device (bytes rejected_config) 0).map
      (fun r => (r.1, r.2.config.no_of_if)) = some (- EINVAL, 3) ∧
    (usb_parse_config sample_defs fresh_device missing_endpoint_config 0).map
      (fun r => (r.1, r.2.config.no_of_if, (r.2.config.if_desc 0).no_of_ep,
        (r.2.config.if_desc 0).ep_desc 0 7)) = some (0, 1, 1, 0) ∧
    (usb_parse_config sample_defs reused_device missing_endpoint_config 0).map
      (fun r => (r.1, r.2.config.no_of_if, (r.2.config.if_desc 0).no_of_ep,
        (r.2.config.if_desc 0).ep_desc 0 7)) = some (0, 1, 1, 0xaa) := by
  decide

/-- Claim C22, amended: for every buffer with a valid configuration header and
any two device records that have their scratch buffers, whatever else they
hold, parsing the buffer into each returns, with the same status, the same
`no_of_if` and `no_of_if_assoc`, and for every slot below `no_of_if` the same
nine bytes of interface descriptor, the same `no_of_ep` and `num_altsetting`,
and for each of the first `no_of_ep` endpoint descriptors the same length byte
and the same bytes as far as it says. -/
theorem usb_parse_config_deterministic (K : usb_defs) (devA devB : usb_device) (buffer : Buf)
    (cfgno : Int)
    (htype : bDescriptorType buffer = USB_DT_CONFIG)
    (hlen : bLength buffer = USB_DT_CONFIG_SIZE)
    (hA : devA.config.pClassSpecificInterfaces ≠ none)
    (hB : devB.config.pClassSpecificInterfaces ≠ none) :
    ∃ r dA dB, usb_parse_config K devA buffer cfgno = some (r, dA) ∧
      usb_parse_config K devB buffer cfgno = some (r, dB) ∧
      dA.config.no_of_if = dB.config.no_of_if ∧
      dA.config.no_of_if_assoc = dB.config.no_of_if_assoc ∧
      ∀ j, j < dA.config.no_of_if →
        (∀ i, i < USB_DT_INTERFACE_SIZE →
          (dA.config.if_desc j).desc i = (dB.config.if_desc j).desc i) ∧
        (dA.config.if_desc j).no_of_ep = (dB.config.if_desc j).no_of_ep ∧
        (dA.config.if_desc j).num_altsetting = (dB.config.if_desc j).num_altsetting ∧
        ∀ e, e < (dA.config.if_desc j).no_of_ep →
          bLength ((dA.config.if_desc j).ep_desc e) = bLength ((dB.config.if_desc j).ep_desc e) ∧
          ∀ i, i < bLength ((dA.config.if_desc j).ep_desc e) →
            (dA.config.if_desc j).ep_desc e i = (dB.config.if_desc j).ep_desc e i := by
  obtain ⟨r, dA, hpA, _⟩ := usb_parse_config_returns K devA buffer cfgno hA
  obtain ⟨sA, hlA, hdA⟩ := usb_parse_config_loop K devA buffer cfgno r dA htype hlen hpA
  rcases parse_loop_agree K buffer (usb_config_descriptor.wTotalLength buffer + 1) _ _
    (parse_init_agree devA devB buffer cfgno hA hB) with ⟨hn, _⟩ | ⟨r2, s2, t2, h1, h2, h3⟩
  · rw [hlA] at hn
    cases hn
  · rw [hlA] at h1
    simp only [Option.some.injEq, Prod.mk.injEq] at h1
    obtain ⟨hr, hs⟩ := h1
    subst hr; subst hs
    refine ⟨r, dA, t2.dev, hpA, ?_, ?_⟩
    · simp only [usb_parse_config, htype, hlen, ne_eq, not_true_eq_false, if_false]
      show (parse_loop K buffer (usb_config_descriptor.wTotalLength buffer + 1)
        (parse_init devB buffer cfgno)).map (fun x => (x.1, x.2.dev)) = _
      rw [h2]
      rfl
    · rw [← hdA]
      exact h3

theorem usb_parse_config_deterministic_witness :
    ∃ r dA dB, usb_parse_config sample_defs fresh_device missing_endpoint_config 0
        = some (r, dA) ∧
      usb_parse_config sample_defs reused_device missing_endpoint_config 0 = some (r, dB) ∧
      dA.config.no_of_if = dB.config.no_of_if ∧
      dA.config.no_of_if_assoc = dB.config.no_of_if_assoc := by
  obtain ⟨r, dA, dB, h1, h2, h3, h4, _⟩ := usb_parse_config_deterministic sample_defs
    fresh_device reused_device missing_endpoint_config 0 rfl rfl
    (Option.some_ne_none zero_buf) (Option.some_ne_none zero_buf)
  exact ⟨r, dA, dB, h1, h2, h3, h4⟩

/-! ## Theorems: the result of `usb_string_sub`, termination of the parser -/

/-- The scan of the workaround goes in steps of two from an even start and stops
within the old length. -/
theorem string_scan_spec (buf : Buf) (oldlength : Int) :
    ∀ (fuel n : Nat), n % 2 = 0 →
      (string_scan buf oldlength fuel n) % 2 = 0 ∧ n ≤ string_scan buf oldlength fuel n ∧
      (string_scan buf oldlength fuel n = n ∨
        ((string_scan buf oldlength fuel n : Nat) : Int) ≤ oldlength) := by
  intro fuel
  induction fuel with
  | zero => intro n hn; exact ⟨hn, le_refl _, Or.inl rfl⟩
  | succ k ih =>
    intro n hn
    unfold string_scan
    split_ifs with h1 h2
    · exact ⟨hn, le_refl _, Or.inl rfl⟩
    · obtain ⟨a, b, c⟩ := ih (n + 2) (by omega)
      refine ⟨a, by omega, Or.inr ?_⟩
      rcases c with e | e
      · rw [e]; push_cast; omega
      · exact e
    · exact ⟨hn, le_refl _, Or.inl rfl⟩

/-- The workaround never makes the length larger; it leaves buffer and length
alone or stores an even length above 2 in both. -/
theorem usb_try_string_workarounds_spec (buf : Buf) (length : Int) (h : 2 ≤ length) :
    (usb_try_string_workarounds buf length).2 ≤ length ∧
    (usb_try_string_workarounds buf length = (buf, length) ∨
      (2 < (usb_try_string_workarounds buf length).2 ∧
       (usb_try_string_workarounds buf length).2 % 2 = 0 ∧
       (((usb_try_string_workarounds buf length).1 0).val : Int)
         = (usb_try_string_workarounds buf length).2 % 256)) := by
  obtain ⟨a, b, c⟩ := string_scan_spec buf length length.toNat 2 rfl
  unfold usb_try_string_workarounds
  simp only
  split_ifs with hn
  · refine ⟨?_, Or.inr ⟨?_, ?_, ?_⟩⟩
    · show ((string_scan buf length length.toNat 2 : Nat) : Int) ≤ length
      rcases c with e | e
      · rw [e]; exact h
      · exact e
    · show (2 : Int) < ((string_scan buf length length.toNat 2 : Nat) : Int)
      omega
    · show ((string_scan buf length length.toNat 2 : Nat) : Int) % 2 = 0
      omega
    · show (((store buf 0 (Fin.ofNat (string_scan buf length length.toNat 2)) 0 : Byte).val
        : Nat) : Int) = ((string_scan buf length length.toNat 2 : Nat) : Int) % 256
      unfold store
      rw [if_pos rfl]
      simp only [Fin.ofNat, Fin.val_mk]
      omega
  · exact ⟨le_refl _, Or.inl rfl⟩

/-- The declared total length is a 16-bit value. -/
theorem wTotalLength_le (d : Buf) : usb_config_descriptor.wTotalLength d ≤ 65535 := by
  unfold usb_config_descriptor.wTotalLength
  have h2 := (d 2).isLt
  have h3 := (d 3).isLt
  omega

/-- One more iteration is one iteration from the state reached so far. -/
theorem parse_cursor_snoc (K : usb_defs) (buffer : Buf) (n : Nat) :
    ∀ s : parse_state, parse_cursor K buffer (n + 1) s
      = (parse_cursor K buffer n s).bind (fun s2 => parse_cursor K buffer 1 s2) := by
  induction n with
  | zero => intro s; rfl
  | succ n ih =>
    intro s
    rw [parse_cursor]
    by_cases hg : parse_guard buffer s
    · rw [if_pos hg]
      conv_rhs => rw [parse_cursor, if_pos hg]
      cases hrec : parse_record K buffer s with
      | next s1 => exact ih _
      | ret e s1 => rfl
      | undef => rfl
    · rw [if_neg hg]
      conv_rhs => rw [parse_cursor, if_neg hg]
      rfl

/-- A single iteration moves the cursor by the length byte of the record under
it, which the loop condition has found not to be 0. -/
theorem parse_cursor_one (K : usb_defs) (buffer : Buf) (s s1 : parse_state)
    (h : parse_cursor K buffer 1 s = some s1) :
    s1.index = s.index + bLength (at_offset buffer s.index) ∧
    1 ≤ bLength (at_offset buffer s.index) := by
  rw [parse_cursor] at h
  split_ifs at h with hg
  split at h
  · rename_i s2 hrec
    obtain ⟨hi, _⟩ := parse_record_next K buffer s s2 hrec
    simp only [parse_cursor, Option.some.injEq] at h
    subst h
    exact ⟨by show s2.index + _ = _; rw [hi], Nat.pos_of_ne_zero hg.2⟩
  · cases h
  · cases h

/-- The loop never stops for want of fuel: once the fuel covers the rest of the
declared length, a run without a result has met a record with undefined
behaviour. -/
theorem parse_loop_none (K : usb_defs) (buffer : Buf) (total : Nat) :
    ∀ (fuel : Nat) (s : parse_state),
      usb_config_descriptor.wTotalLength s.dev.config.desc = total →
      0 < fuel → total ≤ s.index + fuel →
      parse_loop K buffer fuel s = none →
      ∃ n s2, parse_cursor K buffer n s = some s2 ∧ parse_guard buffer s2 ∧
        parse_record K buffer s2 = flow.undef := by
  intro fuel
  induction fuel with
  | zero => intro s _ h; omega
  | succ k ih =>
    intro s htot _ hfuel h
    rw [parse_loop] at h
    by_cases hg : parse_guard buffer s
    · rw [if_pos hg] at h
      cases hrec : parse_record K buffer s with
      | next s1 =>
        rw [hrec] at h
        simp only at h
        obtain ⟨hi, hd⟩ := parse_record_next K buffer s s1 hrec
        have hlen : 0 < bLength (at_offset buffer s.index) := Nat.pos_of_ne_zero hg.2
        have hlt : s.index + 1 < total := by
          have := hg.1
          rw [htot] at this
          exact this
        obtain ⟨n, s2, a, b, c⟩ := ih
          { s1 with index := s1.index + bLength (at_offset buffer s.index) }
          (by show usb_config_descriptor.wTotalLength s1.dev.config.desc = total
              rw [hd]; exact htot)
          (by omega)
          (by show total ≤ s1.index + bLength (at_offset buffer s.index) + k
              omega)
          h
        refine ⟨n + 1, s2, ?_, b, c⟩
        rw [parse_cursor, if_pos hg, hrec]
        exact a
      | ret e s1 => rw [hrec] at h; cases h
      | undef => exact ⟨0, s, rfl, hg, hrec⟩
    · rw [if_neg hg] at h; cases h

/-- Claim C31: `usb_parse_config` terminates on every buffer and every declared
total length.  The declared total length is at most 65535; the loop condition
is never evaluated after more complete iterations than the declared total
length; each iteration moves the cursor by the length byte of the current
record, which is at least 1; the run never stops for want of iterations: the
function returns, or, within that many iterations, it meets a record whose
handling has no defined behaviour (a class specific record without a buffer to
store it); with such a buffer it returns. -/
theorem usb_parse_config_terminates (K : usb_defs) (dev : usb_device) (buffer : Buf)
    (cfgno : Int) :
    usb_config_descriptor.wTotalLength buffer ≤ 65535 ∧
    (∀ n s, parse_cursor K buffer n (parse_init dev buffer cfgno) = some s →
      n ≤ usb_config_descriptor.wTotalLength buffer) ∧
    (∀ n s s1, parse_cursor K buffer n (parse_init dev buffer cfgno) = some s →
      parse_cursor K buffer (n + 1) (parse_init dev buffer cfgno) = some s1 →
      s1.index = s.index + bLength (at_offset buffer s.index) ∧
      1 ≤ bLength (at_offset buffer s.index)) ∧
    ((∃ r d, usb_parse_config K dev buffer cfgno = some (r, d)) ∨
      ∃ n s, n ≤ usb_config_descriptor.wTotalLength buffer ∧
        parse_cursor K buffer n (parse_init dev buffer cfgno) = some s ∧
        parse_guard buffer s ∧ parse_record K buffer s = flow.undef) ∧
    (dev.config.pClassSpecificInterfaces ≠ none →
      ∃ r d, usb_parse_config K dev buffer cfgno = some (r, d)) := by
  have hn : ∀ n s, parse_cursor K buffer n (parse_init dev buffer cfgno) = some s →
      n ≤ usb_config_descriptor.wTotalLength buffer := by
    intro n s h
    obtain ⟨_, _, h3⟩ := parse_cursor_index K buffer n _ s h
    rcases Nat.eq_zero_or_pos n with h0 | h0
    · omega
    · have := h3 h0
      have e : usb_config_descriptor.wTotalLength (parse_init dev buffer cfgno).dev.config.desc
          = usb_config_descriptor.wTotalLength buffer := rfl
      omega
  refine ⟨wTotalLength_le buffer, hn, ?_, ?_, ?_⟩
  · intro n s s1 h h1
    rw [parse_cursor_snoc, h] at h1
    exact parse_cursor_one K buffer s s1 h1
  · by_cases htype : bDescriptorType buffer = USB_DT_CONFIG
    · by_cases hlen : bLength buffer = USB_DT_CONFIG_SIZE
      · cases hl : parse_loop K buffer (usb_config_descriptor.wTotalLength buffer + 1)
            (parse_init dev buffer cfgno) with
        | some x =>
          left
          refine ⟨x.1, x.2.dev, ?_⟩
          simp only [usb_parse_config, htype, hlen, ne_eq, not_true_eq_false, if_false]
          show (parse_loop K buffer (usb_config_descriptor.wTotalLength buffer + 1)
            (parse_init dev buffer cfgno)).map (fun x => (x.1, x.2.dev)) = _
          rw [hl]
          rfl
        | none =>
          right
          obtain ⟨n, s, a, b, c⟩ := parse_loop_none K buffer
            (usb_config_descriptor.wTotalLength buffer) _ (parse_init dev buffer cfgno) rfl
            (Nat.succ_pos _) (by omega) hl
          exact ⟨n, s, hn n s a, a, b, c⟩
      · left
        refine ⟨- EINVAL, { dev with configno := cfgno }, ?_⟩
        simp only [usb_parse_config, htype, hlen, ne_eq, not_true_eq_false, if_false,
          not_false_eq_true, if_true]
    · left
      refine ⟨- EINVAL, { dev with configno := cfgno }, ?_⟩
      simp only [usb_parse_config, htype, ne_eq, not_false_eq_true, if_true]
  · intro hcs
    obtain ⟨r, d, h, _⟩ := usb_parse_config_returns K dev buffer cfgno hcs
    exact ⟨r, d, h⟩

/-- A witness of claim C31 on the sample configuration with two interfaces. -/
theorem usb_parse_config_terminates_witness :
    fresh_device.config.pClassSpecificInterfaces ≠ none ∧
    ∃ r d, usb_parse_config sample_defs fresh_device second_interface_config 0 = some (r, d) :=
  ⟨Option.some_ne_none zero_buf,
    (usb_parse_config_terminates sample_defs fresh_device second_interface_config 0).2.2.2.2
      (Option.some_ne_none zero_buf)⟩

/-- The workaround without a condition on the length: a length below 2 is left
alone as well. -/
theorem usb_try_string_workarounds_cases (buf : Buf) (length : Int) :
    (usb_try_string_workarounds buf length).2 ≤ length ∧
    (usb_try_string_workarounds buf length = (buf, length) ∨
      (2 < (usb_try_string_workarounds buf length).2 ∧
       (usb_try_string_workarounds buf length).2 % 2 = 0 ∧
       (((usb_try_string_workarounds buf length).1 0).val : Int)
         = (usb_try_string_workarounds buf length).2 % 256)) := by
  by_cases h : 2 ≤ length
  · exact usb_try_string_workarounds_spec buf length h
  · have e : usb_try_string_workarounds buf length = (buf, length) := by
      obtain ⟨_, _, c⟩ := string_scan_spec buf length length.toNat 2 rfl
      unfold usb_try_string_workarounds
      simp only
      rw [if_neg]
      omega
    rw [e]
    exact ⟨le_refl _, Or.inl rfl⟩

/-- The closing steps of `usb_string_sub` on a fetch that returned `ret` with the
buffer `b`: the result is `-EINVAL` or an even length of at least 2 that exceeds
neither `ret` nor byte 0 of the buffer handed back. -/
theorem usb_string_sub_tail (ret : Int) (b : Buf) (r3 : Int × Buf)
    (h3 : r3 = (if ret ≥ 2 then
        (((if ((((if b 0 = 0 ∧ b 1 = 0 then usb_try_string_workarounds b ret
                  else (b, ret)).1 0).val : Int)
                < (if b 0 = 0 ∧ b 1 = 0 then usb_try_string_workarounds b ret else (b, ret)).2)
            then ((((if b 0 = 0 ∧ b 1 = 0 then usb_try_string_workarounds b ret
                  else (b, ret)).1 0).val : Int))
            else (if b 0 = 0 ∧ b 1 = 0 then usb_try_string_workarounds b ret else (b, ret)).2)
          - Int.land (if ((((if b 0 = 0 ∧ b 1 = 0 then usb_try_string_workarounds b ret
                  else (b, ret)).1 0).val : Int)
                < (if b 0 = 0 ∧ b 1 = 0 then usb_try_string_workarounds b ret else (b, ret)).2)
            then ((((if b 0 = 0 ∧ b 1 = 0 then usb_try_string_workarounds b ret
                  else (b, ret)).1 0).val : Int))
            else (if b 0 = 0 ∧ b 1 = 0 then usb_try_string_workarounds b ret else (b, ret)).2) 1),
          (if b 0 = 0 ∧ b 1 = 0 then usb_try_string_workarounds b ret else (b, ret)).1)
      else (ret, b))) :
    (if r3.1 < 2 then - EINVAL else r3.1) = - EINVAL ∨
    (2 ≤ (if r3.1 < 2 then - EINVAL else r3.1) ∧
     (if r3.1 < 2 then - EINVAL else r3.1) % 2 = 0 ∧
     (if r3.1 < 2 then - EINVAL else r3.1) ≤ ret ∧
     (if r3.1 < 2 then - EINVAL else r3.1) ≤ ((r3.2 0).val : Int)) := by
  by_cases hlt : r3.1 < 2
  · left; rw [if_pos hlt]
  · right
    rw [if_neg hlt]
    by_cases hr : ret ≥ 2
    · rw [if_pos hr] at h3
      generalize ha : (if b 0 = 0 ∧ b 1 = 0 then usb_try_string_workarounds b ret
        else (b, ret)) = a at h3
      have hle : a.2 ≤ ret := by
        rw [← ha]
        split_ifs
        · exact (usb_try_string_workarounds_cases b ret).1
        · exact le_refl _
      generalize hc : (if (((a.1 0).val : Int) < a.2) then (((a.1 0).val : Int)) else a.2)
        = rc at h3
      have hc1 : rc ≤ a.2 ∧ rc ≤ ((a.1 0).val : Int) ∧ (0 ≤ a.2 → 0 ≤ rc) := by
        rw [← hc]
        split_ifs with hx
        · exact ⟨by omega, le_refl _, fun _ => Int.natCast_nonneg _⟩
        · exact ⟨le_refl _, by omega, fun h => h⟩
      have e1 : r3.1 = rc - Int.land rc 1 := by rw [h3]
      have e2 : r3.2 = a.1 := by rw [h3]
      rw [e2]
      by_cases h0 : 0 ≤ rc
      · obtain ⟨f1, f2, f3⟩ := force_even rc h0
        rw [e1] at hlt ⊢
        exact ⟨by omega, f2, by omega, by omega⟩
      · exfalso
        rw [e1] at hlt
        obtain ⟨m, hm⟩ := Int.eq_negSucc_of_lt_zero (by omega : rc < 0)
        subst hm
        have hneg : Int.land (Int.negSucc m) 1 ≥ 0 := by
          show (0 : Int) ≤ ((Nat.ldiff 1 m : Nat) : Int)
          exact Int.natCast_nonneg _
        omega
    · rw [if_neg hr] at h3
      rw [h3]
      rw [h3] at hlt
      exact absurd (by omega : ret ≥ 2) hr

/-- Claim C32: for every device response, the result of `usb_string_sub` is
`-EINVAL`, or (success) it is at least 2, even, at most the number of bytes its
fetch returned, and at most the length byte `buf[0]` of the buffer as it stands
on return.  The result carries the world and the device record of that fetch.
The workaround for an all-zero header never increases the length: it leaves
buffer and length alone, or it replaces the length by an even value greater
than 2, which it also stores (as a byte) in `buf[0]`. -/
theorem usb_string_sub_result {W : Type} (K : usb_defs) (P : platform W) (asynch_allowed : Int)
    (w : W) (dev : usb_device) (langid index : Nat) (buf : Buf) :
    ((usb_string_sub K P asynch_allowed w dev langid index buf).ret = - EINVAL ∨
      (2 ≤ (usb_string_sub K P asynch_allowed w dev langid index buf).ret ∧
       (usb_string_sub K P asynch_allowed w dev langid index buf).ret % 2 = 0 ∧
       (usb_string_sub K P asynch_allowed w dev langid index buf).ret
         ≤ (usb_string_sub_fetch K P asynch_allowed w dev langid index buf).ret ∧
       ∃ t, (usb_string_sub K P asynch_allowed w dev langid index buf).data = some t ∧
         (usb_string_sub K P asynch_allowed w dev langid index buf).ret ≤ ((t 0).val : Int))) ∧
    ((usb_string_sub K P asynch_allowed w dev langid index buf).world
        = (usb_string_sub_fetch K P asynch_allowed w dev langid index buf).world ∧
     (usb_string_sub K P asynch_allowed w dev langid index buf).dev
        = (usb_string_sub_fetch K P asynch_allowed w dev langid index buf).dev) ∧
    (∀ (b : Buf) (length : Int),
      (usb_try_string_workarounds b length).2 ≤ length ∧
      (usb_try_string_workarounds b length = (b, length) ∨
        (2 < (usb_try_string_workarounds b length).2 ∧
         (usb_try_string_workarounds b length).2 % 2 = 0 ∧
         (((usb_try_string_workarounds b length).1 0).val : Int)
           = (usb_try_string_workarounds b length).2 % 256))) := by
  refine ⟨?_, ⟨rfl, rfl⟩, usb_try_string_workarounds_cases⟩
  rcases usb_string_sub_tail
    (usb_string_sub_fetch K P asynch_allowed w dev langid index buf).ret
    ((usb_string_sub_fetch K P asynch_allowed w dev langid index buf).data.getD buf) _ rfl
    with h | ⟨h1, h2, h3, h4⟩
  · exact Or.inl h
  · exact Or.inr ⟨h1, h2, h3, _, rfl, h4⟩

/-- A run of the workaround: the device sends six bytes whose header is all zero
and whose payload is "AB" in UTF-16LE; the result is 6 and `buf[0]` is 6. -/
theorem usb_string_sub_workaround_example :
    (usb_string_sub sample_defs (string_platform [] [0, 0, 65, 0, 66, 0] zero_buf) 0 []
      langid_device 0x0409 1 zero_buf).ret = 6 ∧
    (usb_string_sub_fetch sample_defs (string_platform [] [0, 0, 65, 0, 66, 0] zero_buf) 0 []
      langid_device 0x0409 1 zero_buf).ret = 6 ∧
    (((usb_string_sub sample_defs (string_platform [] [0, 0, 65, 0, 66, 0] zero_buf) 0 []
      langid_device 0x0409 1 zero_buf).data.getD zero_buf) 0).val = 6 := by
  decide

end HelloX
